import Mathlib

/-! # Region registry and game loop of the AGS engine

The first part embeds `Engine/ac/global_region.cpp`, the second part
`Engine/main/game_run.cpp`.

A shallow embedding of the script-facing region functions and the theorems
that settle what the specification says about them.

Conventions of the embedding.

* C++ `int` values are `Int`.  Every arithmetic expression of the embedded
  functions is evaluated only after its operands were range-checked
  (`luminance * 25` with `0 <= luminance <= 100`, the packing of the tint
  word with bytes in `0..255` and an amount in `1..100`), so no operation can
  leave the 32-bit range and no reduction modulo `2^32` is needed;
  `tintWord_lt` states the bound for the packed word.
* The arrays `thisroom.regionLightLevel`, `thisroom.regionTintLevel` and
  `croom->region_enabled` are maps from the index to the stored value.  Their
  declarations (element type and length) are in headers outside this
  development, and so is the constant `MAX_REGIONS`, which is a field of the
  environment.
* `quit(msg)` does not return.  A call that reaches `quit` yields
  `Except.error` carrying the message and the state at that point.
* `debug_script_log` only writes to the log and is left out.
-/

namespace AGS

/-- The messages passed to `quit` by `global_region.cpp`, one constructor per
call site. -/
inductive QuitMsg where
  /-- Message "!An invalid pixel was found on the room region mask (colour %d,
  location: %d, %d)", with the three numbers that are printed. -/
  | invalidRegionMaskPixel (colour x y : Int)
  /-- Message "!SetAreaLightLevel: invalid region". -/
  | setAreaLightLevelInvalidRegion
  /-- Message "!SetRegionTint: invalid region". -/
  | setRegionTintInvalidRegion
  /-- Message "!SetRegionTint: RGB values must be 0-255". -/
  | setRegionTintRGB
  /-- Message "!SetRegionTint: amount must be 1-100". -/
  | setRegionTintAmount
  /-- Message "!SetRegionTint: luminance must be 0-100". -/
  | setRegionTintLuminance
  /-- Message "!DisableRegion: invalid region specified". -/
  | disableRegionInvalidRegion
  /-- Message "!EnableRegion: invalid region specified". -/
  | enableRegionInvalidRegion
  /-- Message "!RunRegionInteraction: invalid region speicfied". -/
  | runRegionInteractionInvalidRegion
  /-- Message "!RunRegionInteraction: invalid event specified". -/
  | runRegionInteractionInvalidEvent
  deriving DecidableEq, Repr

/-- One call of `run_interaction_script` or `run_interaction_event` made by
`RunRegionInteraction`, with the value of the globals `evblockbasename` and
`evblocknum` at the moment of the call. -/
structure Dispatch where
  /-- Is `true` for `run_interaction_script(thisroom.regionScripts[regnum], mood)`
  and `false` for `run_interaction_event(&croom->intrRegion[regnum], mood)`. -/
  modern : Bool
  regnum : Int
  mood : Int
  evblockbasename : String
  evblocknum : Int
  deriving DecidableEq, Repr

/-- The mutable globals that `global_region.cpp` reads and writes. -/
structure RegionState where
  /-- Array `thisroom.regionLightLevel`. -/
  regionLightLevel : Int → Int
  /-- Array `thisroom.regionTintLevel`. -/
  regionTintLevel : Int → Int
  /-- Array `croom->region_enabled`. -/
  region_enabled : Int → Int
  /-- Global `evblockbasename`. -/
  evblockbasename : String
  /-- Global `evblocknum`. -/
  evblocknum : Int
  /-- Record of the dispatches made so far, oldest first. -/
  dispatched : List Dispatch

/-- The region mask `thisroom.regions`: its size and its pixel lookup, which
is defined for all coordinates (what `GetPixel` yields outside the bitmap is
left to the bitmap). -/
structure Bitmap where
  GetWidth : Int
  GetHeight : Int
  GetPixel : Int → Int → Int

/-- A call that interaction code can make back into the engine. -/
inductive ScriptCall where
  | SetAreaLightLevel (area brightness : Int)
  | SetRegionTint (area red green blue amount luminance : Int)
  | DisableRegion (hsnum : Int)
  | EnableRegion (hsnum : Int)
  | RunRegionInteraction (regnum mood : Int)
  /-- Any other engine code that leaves `evblockbasename` and `evblocknum`
  rebound, such as the interaction runner of another kind of object. -/
  | Rebind (basename : String) (blocknum : Int)
  deriving DecidableEq, Repr

/-- What the region functions read and do not write. -/
structure RegionEnv where
  MAX_REGIONS : Nat
  kGameVersion_262 : Int
  loaded_game_file_version : Int
  /-- Bitmap `thisroom.regions`. -/
  regions : Bitmap
  /-- Table `thisroom.regionScripts`, `none` for the null pointer; the entry
  for a region and an event is the code that `run_interaction_script` runs. -/
  regionScripts : Option (Int → Int → List ScriptCall)
  /-- Table `croom->intrRegion`; the entry for a region and an event is the
  code that `run_interaction_event` runs. -/
  intrRegion : Int → Int → List ScriptCall

/-- The outcome of `quit`: its message and the state when it was called. -/
structure Abort where
  msg : QuitMsg
  state : RegionState

/-- Function `SetAreaLightLevel`. -/
def SetAreaLightLevel (env : RegionEnv) (st : RegionState) (area brightness : Int) :
    Except Abort RegionState :=
  if area < 0 ∨ area > env.MAX_REGIONS then
    .error ⟨.setAreaLightLevelInvalidRegion, st⟩
  else
    let brightness := if brightness < -100 then -100 else brightness
    let brightness := if brightness > 100 then 100 else brightness
    let st := { st with regionLightLevel := Function.update st.regionLightLevel area brightness }
    .ok { st with regionTintLevel := Function.update st.regionTintLevel area 0 }

/-- The expression stored in `thisroom.regionTintLevel[area]` by
`SetRegionTint`: `red & 0xFF | ((green & 0xFF) << 8) | ((blue & 0XFF) << 16) |
((amount & 0xFF) << 24)`. -/
def tintWord (red green blue amount : Int) : Int :=
  Int.lor (Int.lor (Int.lor (Int.land red 0xFF) (Int.land green 0xFF <<< (8 : Int)))
    (Int.land blue 0xFF <<< (16 : Int))) (Int.land amount 0xFF <<< (24 : Int))

/-- Function `SetRegionTint`. -/
def SetRegionTint (env : RegionEnv) (st : RegionState)
    (area red green blue amount luminance : Int) : Except Abort RegionState :=
  if area < 0 ∨ area > env.MAX_REGIONS then
    .error ⟨.setRegionTintInvalidRegion, st⟩
  else if red < 0 ∨ red > 255 ∨ green < 0 ∨ green > 255 ∨ blue < 0 ∨ blue > 255 then
    .error ⟨.setRegionTintRGB, st⟩
  else
    let amount := if amount = 0 then 100 else amount
    if amount < 1 ∨ amount > 100 then
      .error ⟨.setRegionTintAmount, st⟩
    else if luminance < 0 ∨ luminance > 100 then
      .error ⟨.setRegionTintLuminance, st⟩
    else
      let tint := tintWord red green blue amount
      let st := { st with regionTintLevel := Function.update st.regionTintLevel area tint }
      let light := Int.tdiv (luminance * 25) 10
      .ok { st with regionLightLevel := Function.update st.regionLightLevel area light }

/-- Function `DisableRegion`. -/
def DisableRegion (env : RegionEnv) (st : RegionState) (hsnum : Int) :
    Except Abort RegionState :=
  if hsnum < 0 ∨ hsnum ≥ env.MAX_REGIONS then
    .error ⟨.disableRegionInvalidRegion, st⟩
  else
    .ok { st with region_enabled := Function.update st.region_enabled hsnum 0 }

/-- Function `EnableRegion`. -/
def EnableRegion (env : RegionEnv) (st : RegionState) (hsnum : Int) :
    Except Abort RegionState :=
  if hsnum < 0 ∨ hsnum ≥ env.MAX_REGIONS then
    .error ⟨.enableRegionInvalidRegion, st⟩
  else
    .ok { st with region_enabled := Function.update st.region_enabled hsnum 1 }

/-- The coordinates at which `GetRegionAt` reads the mask: the correction of
`xxx` and `yyy` made for a game of version 2.6.2 or later, in the order of the
four `if` statements of the source. -/
def GetRegionAt_coords (env : RegionEnv) (xxx yyy : Int) : Int × Int :=
  if env.loaded_game_file_version ≥ env.kGameVersion_262 then
    let xxx := if xxx ≥ env.regions.GetWidth then env.regions.GetWidth - 1 else xxx
    let yyy := if yyy ≥ env.regions.GetHeight then env.regions.GetHeight - 1 else yyy
    let xxx := if xxx < 0 then 0 else xxx
    let yyy := if yyy < 0 then 0 else yyy
    (xxx, yyy)
  else
    (xxx, yyy)

/-- The index `hsthere` with which `GetRegionAt` goes on after reading the
pixel value `pixel`: a negative value is replaced by 0. -/
def GetRegionAt_hsthere (pixel : Int) : Int :=
  if pixel < 0 then 0 else pixel

/-- The part of `GetRegionAt` after the mask was read at `(xxx, yyy)` and gave
`pixel`. -/
def GetRegionAt_resolve (env : RegionEnv) (st : RegionState) (xxx yyy pixel : Int) :
    Except Abort Int :=
  let hsthere := GetRegionAt_hsthere pixel
  if hsthere ≥ env.MAX_REGIONS then
    .error ⟨.invalidRegionMaskPixel hsthere xxx yyy, st⟩
  else if st.region_enabled hsthere = 0 then
    .ok 0
  else
    .ok hsthere

/-- Function `GetRegionAt`. -/
def GetRegionAt (env : RegionEnv) (st : RegionState) (xxx yyy : Int) : Except Abort Int :=
  let c := GetRegionAt_coords env xxx yyy
  GetRegionAt_resolve env st c.1 c.2 (env.regions.GetPixel c.1 c.2)

/-- Runs the calls of an interaction one after the other, `rri` being the
engine's `RunRegionInteraction`; stops at the first call that does not
return.  The result `none` means that the nesting budget of `rri` ran out. -/
def runScript (env : RegionEnv)
    (rri : RegionState → Int → Int → Option (Except Abort RegionState)) :
    List ScriptCall → RegionState → Option (Except Abort RegionState)
  | [], st => some (.ok st)
  | .SetAreaLightLevel area brightness :: rest, st =>
    match SetAreaLightLevel env st area brightness with
    | .ok st => runScript env rri rest st
    | .error a => some (.error a)
  | .SetRegionTint area red green blue amount luminance :: rest, st =>
    match SetRegionTint env st area red green blue amount luminance with
    | .ok st => runScript env rri rest st
    | .error a => some (.error a)
  | .DisableRegion hsnum :: rest, st =>
    match DisableRegion env st hsnum with
    | .ok st => runScript env rri rest st
    | .error a => some (.error a)
  | .EnableRegion hsnum :: rest, st =>
    match EnableRegion env st hsnum with
    | .ok st => runScript env rri rest st
    | .error a => some (.error a)
  | .RunRegionInteraction regnum mood :: rest, st =>
    match rri st regnum mood with
    | some (.ok st) => runScript env rri rest st
    | some (.error a) => some (.error a)
    | none => none
  | .Rebind basename blocknum :: rest, st =>
    runScript env rri rest { st with evblockbasename := basename, evblocknum := blocknum }

/-- Function `RunRegionInteraction`.  The first argument bounds the depth of
nested calls made by the dispatched code: `none` is returned when a dispatch
would exceed it. -/
def RunRegionInteraction (env : RegionEnv) :
    Nat → RegionState → Int → Int → Option (Except Abort RegionState)
  | depth, st, regnum, mood =>
    if regnum < 0 ∨ regnum ≥ env.MAX_REGIONS then
      some (.error ⟨.runRegionInteractionInvalidRegion, st⟩)
    else if mood < 0 ∨ mood > 2 then
      some (.error ⟨.runRegionInteractionInvalidEvent, st⟩)
    else
      match depth with
      | 0 => none
      | depth + 1 =>
        let oldbasename := st.evblockbasename
        let oldblocknum := st.evblocknum
        let st := { st with evblockbasename := "region%d", evblocknum := regnum }
        let run :=
          match env.regionScripts with
          | some regionScripts =>
            runScript env (RunRegionInteraction env depth) (regionScripts regnum mood)
              { st with dispatched := st.dispatched ++ [Dispatch.mk true regnum mood
                                          st.evblockbasename st.evblocknum] }
          | none =>
            runScript env (RunRegionInteraction env depth) (env.intrRegion regnum mood)
              { st with dispatched := st.dispatched ++ [Dispatch.mk false regnum mood
                                          st.evblockbasename st.evblocknum] }
        match run with
        | some (.ok st) =>
          some (.ok { st with evblockbasename := oldbasename, evblocknum := oldblocknum })
        | some (.error a) => some (.error a)
        | none => none

/-- The state in which a call ended: the state returned, or the state at the
call of `quit`. -/
def finalState : Except Abort RegionState → RegionState
  | .ok st => st
  | .error a => a.state

/-- The code that `RunRegionInteraction` dispatches to for a region and an
event: the entry of `thisroom.regionScripts` when that table is present, the
entry of `croom->intrRegion` otherwise. -/
def dispatchedCode (env : RegionEnv) (regnum mood : Int) : List ScriptCall :=
  match env.regionScripts with
  | some regionScripts => regionScripts regnum mood
  | none => env.intrRegion regnum mood

/-- The entry recorded for a dispatch of `RunRegionInteraction(regnum, mood)`
made with the interaction context bound to `"region%d"` and `regnum`. -/
def regionDispatch (env : RegionEnv) (regnum mood : Int) : Dispatch :=
  ⟨env.regionScripts.isSome, regnum, mood, "region%d", regnum⟩

/-- The interaction context recorded in a dispatch is the one of its region. -/
def Dispatch.boundToRegion (d : Dispatch) : Prop :=
  d.evblockbasename = "region%d" ∧ d.evblocknum = d.regnum

instance (d : Dispatch) : Decidable d.boundToRegion :=
  inferInstanceAs (Decidable (d.evblockbasename = "region%d" ∧ d.evblocknum = d.regnum))

/-- The end of `RunRegionInteraction`: when the dispatch returned, the saved
interaction context is put back. -/
def restoreContext (oldbasename : String) (oldblocknum : Int) :
    Option (Except Abort RegionState) → Option (Except Abort RegionState)
  | some (.ok st) =>
    some (.ok { st with evblockbasename := oldbasename, evblocknum := oldblocknum })
  | some (.error a) => some (.error a)
  | none => none

/-- A call of one of the two functions that write light levels. -/
inductive LightCall where
  | SetAreaLightLevel (area brightness : Int)
  | SetRegionTint (area red green blue amount luminance : Int)
  deriving DecidableEq, Repr

/-- Makes the calls of the list one after the other, stopping at the first
one that ends in `quit`. -/
def applyLightCalls (env : RegionEnv) : List LightCall → RegionState → Except Abort RegionState
  | [], st => .ok st
  | .SetAreaLightLevel area brightness :: rest, st =>
    match SetAreaLightLevel env st area brightness with
    | .ok st => applyLightCalls env rest st
    | .error a => .error a
  | .SetRegionTint area red green blue amount luminance :: rest, st =>
    match SetRegionTint env st area red green blue amount luminance with
    | .ok st => applyLightCalls env rest st
    | .error a => .error a

/-- An environment with 16 regions, a 320 x 200 mask whose pixel value is 3
in the column `x = 5`, 20 in the column `x = 7` and 0 elsewhere inside the
mask, and -1 outside of it; region 1 has an interaction that runs region 2
and rebinds the interaction context. -/
def sampleEnv : RegionEnv where
  MAX_REGIONS := 16
  kGameVersion_262 := 15
  loaded_game_file_version := 30
  regions :=
    { GetWidth := 320
      GetHeight := 200
      GetPixel := fun x y =>
        if x < 0 ∨ x ≥ 320 ∨ y < 0 ∨ y ≥ 200 then -1
        else if x = 5 then 3 else if x = 7 then 20 else 0 }
  regionScripts := none
  intrRegion := fun regnum mood =>
    if regnum = 1 ∧ mood = 1 then
      [.RunRegionInteraction 2 0, .Rebind "hotspot%d" 4, .DisableRegion 1]
    else if regnum = 2 then [.Rebind "object%d" 7]
    else []

/-- A state with every region enabled, no tint, light level 0 and no
interaction running. -/
def sampleState : RegionState where
  regionLightLevel := fun _ => 0
  regionTintLevel := fun _ => 0
  region_enabled := fun _ => 1
  evblockbasename := "room"
  evblocknum := 0
  dispatched := []

/-! # The game loop (`Engine/main/game_run.cpp`)

Conventions of this part of the embedding.

* The globals that the functions of `game_run.cpp` read and write are the
  fields of `World`; the variables that are `static` in `game_run.cpp`
  (`restrict_until`, `user_disabled_data`, `user_disabled_for`,
  `numEventsAtStartOfFunction`) are fields of `Engine`, next to the world:
  code outside the file cannot name them.
* A function that is called by `game_run.cpp` and defined elsewhere is code of
  the environment: for each such call (`Hook`) the environment gives a list of
  `Action`s, computed from the world at the call.  An action changes the world
  in any way, calls `quit`, or calls one of the public blocking functions of
  `game_run.cpp`, which re-enters the game loop.
* The macros used by the file and defined in headers (`RETURN_CONTINUE`,
  `FOR_EXITLOOP`, ...) are fields of the environment.
* The pointer `user_disabled_data` is an address; the memory is read through
  one map per pointee type (`short`, `char`, `int`).
* `our_eip`, a position marker for crash reports, is left out.
* Each loop of ticks and each nested blocking call is bounded by a budget;
  `Outcome.timeout` is the result of a run that exceeds it.
-/

def UNTIL_ANIMEND : Int := 1
def UNTIL_MOVEEND : Int := 2
def UNTIL_CHARIS0 : Int := 3
def UNTIL_NOOVERLAY : Int := 4
def UNTIL_NEGATIVE : Int := 5
def UNTIL_INTIS0 : Int := 6
def UNTIL_SHORTIS0 : Int := 7
def UNTIL_INTISNEG : Int := 8

/-- The fields of the global `play` that `game_run.cpp` uses. -/
structure GameState where
  ground_level_areas_disabled : Int
  player_on_region : Int
  disabled_user_interface : Int
  fast_forward : Int
  no_hicolor_fadein : Int
  screen_is_faded_out : Int
  wait_counter : Int
  shakesc_length : Int
  bg_anim_delay : Int
  bg_frame_locked : Int
  anim_background_speed : Int
  bg_frame : Int
  entered_edge : Int

/-- The member `Edges` of `thisroom`. -/
structure RoomEdges where
  Left : Int
  Right : Int
  Top : Int
  Bottom : Int

/-- An entry of the array `animbuts`; its content is known only to the
functions that update it. -/
structure AnimatingGUIButton where
  code : Int
  deriving DecidableEq, Repr

/-- The globals, other than the statics of `game_run.cpp`, that the functions
of `game_run.cpp` read and write. -/
structure World where
  play : GameState
  want_exit : Int
  abort_engine : Int
  proper_exit : Int
  displayed_room : Int
  starting_room : Int
  in_new_room : Int
  new_room_was : Int
  in_enters_screen : Int
  done_es_error : Int
  no_blocking_functions : Int
  /-- Number of queued events. -/
  numevents : Int
  /-- The array of queued events; an event is the list of the arguments given
  to `setevent`. -/
  event : Int → List Int
  is_text_overlay : Int
  load_new_game : Int
  game_paused : Int
  debug_flags : Int
  mouse_on_iface : Int
  /-- An `unsigned int`. -/
  loopcounter : Int
  guis_need_update : Int
  cur_cursor : Int
  cur_mode : Int
  /-- The value `game.options[OPT_FADETYPE]`. -/
  fadetype : Int
  /-- The member `BgFrameCount` of `thisroom`. -/
  BgFrameCount : Int
  /-- The member `Edges` of `thisroom`. -/
  Edges : RoomEdges
  /-- The member `x` of `playerchar`. -/
  player_x : Int
  /-- The member `y` of `playerchar`. -/
  player_y : Int
  /-- The memory read through a `short*`. -/
  shortAt : Int → Int
  /-- The memory read through a `char*`. -/
  charAt : Int → Int
  /-- The memory read through an `int*`. -/
  intAt : Int → Int
  /-- The first `numAnimButs` entries of the array `animbuts`. -/
  animbuts : List AnimatingGUIButton

/-- The state of the program seen by `game_run.cpp`: the world and the
statics of the file. -/
structure Engine where
  world : World
  restrict_until : Int
  user_disabled_data : Int
  user_disabled_for : Int
  numEventsAtStartOfFunction : Int

/-- The messages passed to `quit` by `game_run.cpp`, and a call of `quit` made
by code outside the file. -/
inductive GameQuit where
  /-- Message "||exit!". -/
  | properExit
  /-- Message "!A text script run in the Player Enters Screen event caused the
  screen to be updated. If you need to use Wait(), do so in After Fadein". -/
  | screenUpdatedInEntersScreen
  /-- Message "!A blocking function was called from within a non-blocking event
  such as " followed by `REP_EXEC_ALWAYS_NAME`. -/
  | blockingInNonBlockingEvent
  /-- Message "end_wait_loop called but game not in loop_until state". -/
  | notInLoopUntilState
  /-- Message "loop_until: unknown until event". -/
  | unknownUntilEvent
  /-- Message "err: for_script obsolete (v2.1 and earlier only)". -/
  | forScriptObsolete
  /-- Message "Unknown user_disabled_for in end restrict_until". -/
  | unknownUserDisabledFor
  /-- Message "!A blocking function was called before the first room has been
  loaded". -/
  | blockingBeforeFirstRoom
  /-- A call of `quit` made by code outside `game_run.cpp`. -/
  | outside (code : Int)
  deriving DecidableEq, Repr

/-- The outcome of `quit` in the game loop: its message and the state when it
was called. -/
structure Halt where
  msg : GameQuit
  state : Engine

/-- The result of running a part of the game loop: it returns a value in a
state, or ends in `quit`, or exceeds the budget of ticks. -/
inductive Outcome (α : Type) where
  | done (a : α) (st : Engine)
  | quit (h : Halt)
  | timeout

/-- Runs `f` on the value and state returned by `x`. -/
def Outcome.bind {α β : Type} (x : Outcome α) (f : α → Engine → Outcome β) : Outcome β :=
  match x with
  | .done a st => f a st
  | .quit h => .quit h
  | .timeout => .timeout

/-- The public blocking functions of `game_run.cpp`, each with its pointer
argument; the overloads are told apart by the pointee type. -/
inductive BlockingCall where
  | GameLoopUntilValueIsZero_char (value : Int)
  | GameLoopUntilValueIsZero_short (value : Int)
  | GameLoopUntilValueIsZero_int (value : Int)
  | GameLoopUntilValueIsZeroOrLess (value : Int)
  | GameLoopUntilValueIsNegative_short (value : Int)
  | GameLoopUntilValueIsNegative_int (value : Int)
  | GameLoopUntilNotMoving (move : Int)
  | GameLoopUntilNoOverlay
  deriving DecidableEq, Repr

/-- The first argument that the blocking function gives to
`GameLoopUntilEvent`. -/
def BlockingCall.untilwhat : BlockingCall → Int
  | .GameLoopUntilValueIsZero_char _ => UNTIL_CHARIS0
  | .GameLoopUntilValueIsZero_short _ => UNTIL_SHORTIS0
  | .GameLoopUntilValueIsZero_int _ => UNTIL_INTIS0
  | .GameLoopUntilValueIsZeroOrLess _ => UNTIL_MOVEEND
  | .GameLoopUntilValueIsNegative_short _ => UNTIL_NEGATIVE
  | .GameLoopUntilValueIsNegative_int _ => UNTIL_INTISNEG
  | .GameLoopUntilNotMoving _ => UNTIL_MOVEEND
  | .GameLoopUntilNoOverlay => UNTIL_NOOVERLAY

/-- The second argument that the blocking function gives to
`GameLoopUntilEvent`. -/
def BlockingCall.data : BlockingCall → Int
  | .GameLoopUntilValueIsZero_char value => value
  | .GameLoopUntilValueIsZero_short value => value
  | .GameLoopUntilValueIsZero_int value => value
  | .GameLoopUntilValueIsZeroOrLess value => value
  | .GameLoopUntilValueIsNegative_short value => value
  | .GameLoopUntilValueIsNegative_int value => value
  | .GameLoopUntilNotMoving move => move
  | .GameLoopUntilNoOverlay => 0

/-- A step of code that runs outside `game_run.cpp`. -/
inductive Action where
  /-- A change of the globals. -/
  | modify (f : World → World)
  /-- A call of `quit`. -/
  | quit (code : Int)
  /-- A call of a blocking function of `game_run.cpp`. -/
  | block (call : BlockingCall)

/-- The calls that `game_run.cpp` makes to functions defined outside of it. -/
inductive Hook where
  | process_pending_events
  | update_polled_mp3
  | ccNotifyScriptStillAlive
  | update_gui_disabled_status
  /-- The call `run_function_on_non_blocking_thread(&repExecAlways)`. -/
  | repExecAlways
  | check_new_room
  | RunRegionInteraction (regnum mood : Int)
  | check_debug_keys
  | check_controls
  | update_stuff
  /-- The call `run_function_on_non_blocking_thread(&lateRepExecAlways)`. -/
  | lateRepExecAlways
  | update_audio_system_on_game_loop
  | render_graphics
  /-- The test for the mouse moving over a hotspot that follows
  `render_graphics`, with the event that it schedules. -/
  | mouse_moves_over_hotspot
  | update_events
  | update_polled_stuff_if_runtime
  | on_background_frame_change
  | update_ambient_sound_vol
  | update_directional_sound_vol
  /-- The body of `game_loop_update_fps`, which reads the clock. -/
  | game_loop_update_fps
  | PollUntilNextFrame
  /-- The body of `UpdateMouseOverLocation`, which only concerns the cursor. -/
  | UpdateMouseOverLocation
  | EndSkippingUntilCharStops
  | skipMissedTicks
  | RunAGSGame (load_new_game : Int)
  deriving DecidableEq, Repr

/-- What `game_run.cpp` takes from the rest of the program: the macros of the
headers, the code behind each outside call, and the outside functions whose
result is used. -/
structure GameEnv where
  RETURN_CONTINUE : Int
  FOR_EXITLOOP : Int
  FOR_SCRIPT : Int
  GLED_INTERACTION : Int
  DBG_NOUPDATE : Int
  CURS_WAIT : Int
  EV_TEXTSCRIPT : Int
  EV_RUNEVBLOCK : Int
  EV_FADEIN : Int
  EVB_HOTSPOT : Int
  EVB_ROOM : Int
  TS_REPEAT : Int
  FADE_NORMAL : Int
  /-- The number of bits of `size_t`. -/
  size_t_bits : Nat
  /-- The code run by each outside call, from the world at the call. -/
  code : Hook → World → List Action
  get_hotspot_at : World → Int → Int → Int
  GetRegionIDAtRoom : World → Int → Int → Int
  IsInterfaceEnabled : World → Int
  IsGamePaused : World → Int
  set_default_cursor : World → World
  set_mouse_cursor : Int → World → World
  /-- The entry after the update and the value returned. -/
  UpdateAnimatingButton : AnimatingGUIButton → AnimatingGUIButton × Int

/-- Modelled from the spec: `setevent` is defined outside `game_run.cpp`; the
event queue is append-only, so the event is written at the end of the queue
and the length of the queue grows by one. -/
def setevent (args : List Int) (w : World) : World :=
  { w with event := Function.update w.event w.numevents args, numevents := w.numevents + 1 }

/-- Runs the actions one after the other; `wait` is `GameLoopUntilEvent`. -/
def runActions (wait : Engine → Int → Int → Outcome Unit) :
    List Action → Engine → Outcome Unit
  | [], st => .done () st
  | .modify f :: rest, st => runActions wait rest { st with world := f st.world }
  | .quit code :: _, st => .quit ⟨.outside code, st⟩
  | .block call :: rest, st =>
    match wait st call.untilwhat call.data with
    | .done _ st => runActions wait rest st
    | .quit h => .quit h
    | .timeout => .timeout

/-- A call to a function defined outside `game_run.cpp`. -/
def runHook (env : GameEnv) (wait : Engine → Int → Int → Outcome Unit) (h : Hook)
    (st : Engine) : Outcome Unit :=
  runActions wait (env.code h st.world) st

/-- Function `ProperExit`. -/
def ProperExit (st : Engine) : Outcome Unit :=
  let w := { st.world with want_exit := 0 }
  let w := { w with proper_exit := 1 }
  .quit ⟨.properExit, { st with world := w }⟩

/-- Function `ShouldStayInWaitMode`; it writes no global. -/
def ShouldStayInWaitMode (st : Engine) : Except Halt Int :=
  if st.restrict_until = 0 then
    .error ⟨.notInLoopUntilState, st⟩
  else
    let retval := st.restrict_until
    if st.restrict_until = UNTIL_MOVEEND then
      .ok (if st.world.shortAt st.user_disabled_data < 1 then 0 else retval)
    else if st.restrict_until = UNTIL_CHARIS0 then
      .ok (if st.world.charAt st.user_disabled_data = 0 then 0 else retval)
    else if st.restrict_until = UNTIL_NEGATIVE then
      .ok (if st.world.shortAt st.user_disabled_data < 0 then 0 else retval)
    else if st.restrict_until = UNTIL_INTISNEG then
      .ok (if st.world.intAt st.user_disabled_data < 0 then 0 else retval)
    else if st.restrict_until = UNTIL_NOOVERLAY then
      .ok (if st.world.is_text_overlay < 1 then 0 else retval)
    else if st.restrict_until = UNTIL_INTIS0 then
      .ok (if st.world.intAt st.user_disabled_data = 0 then 0 else retval)
    else if st.restrict_until = UNTIL_SHORTIS0 then
      .ok (if st.world.shortAt st.user_disabled_data = 0 then 0 else retval)
    else
      .error ⟨.unknownUntilEvent, st⟩

/-- Function `UpdateWaitMode`. -/
def UpdateWaitMode (env : GameEnv) (st : Engine) : Outcome Int :=
  if st.restrict_until = 0 then
    .done env.RETURN_CONTINUE st
  else
    match ShouldStayInWaitMode st with
    | .error h => .quit h
    | .ok stay =>
      let st := { st with restrict_until := stay }
      if st.restrict_until ≠ 0 then
        .done env.RETURN_CONTINUE st
      else
        let was_disabled_for := st.user_disabled_for
        let w : World := env.set_default_cursor st.world
        let w : World := { w with guis_need_update := 1 }
        let ui : Int := w.play.disabled_user_interface - 1
        let w : World := { w with play := { w.play with disabled_user_interface := ui } }
        let st := { st with world := w, user_disabled_for := 0 }
        if was_disabled_for = env.FOR_EXITLOOP then
          .done (-1) st
        else if was_disabled_for = env.FOR_SCRIPT then
          .quit ⟨.forScriptObsolete, st⟩
        else
          .quit ⟨.unknownUserDisabledFor, st⟩

/-- Function `SetupLoopParameters`. -/
def SetupLoopParameters (env : GameEnv) (st : Engine) (untilwhat udata : Int) : Engine :=
  let w : World := st.world
  let ui : Int := w.play.disabled_user_interface + 1
  let w : World := { w with play := { w.play with disabled_user_interface := ui } }
  let w := { w with guis_need_update := 1 }
  let w :=
    if (w.cur_cursor = w.cur_mode ∨ untilwhat = UNTIL_NOOVERLAY) ∧ w.cur_mode ≠ env.CURS_WAIT then
      env.set_mouse_cursor env.CURS_WAIT w
    else w
  { st with
    world := w
    restrict_until := untilwhat
    user_disabled_data := udata
    user_disabled_for := env.FOR_EXITLOOP }

/-- Function `game_loop_check_problems_at_start`; the warning written to the
log is left out. -/
def game_loop_check_problems_at_start (st : Engine) : Outcome Unit :=
  if st.world.in_enters_screen ≠ 0 ∧ st.world.displayed_room = st.world.starting_room then
    .quit ⟨.screenUpdatedInEntersScreen, st⟩
  else
    let st : Engine :=
      if st.world.in_enters_screen ≠ 0 ∧ st.world.done_es_error = 0 then
        { st with world := { st.world with done_es_error := 1 } }
      else st
    if st.world.no_blocking_functions ≠ 0 then
      .quit ⟨.blockingInNonBlockingEvent, st⟩
    else
      .done () st

/-- Function `game_loop_check_new_room`. -/
def game_loop_check_new_room (env : GameEnv) (wait : Engine → Int → Int → Outcome Unit)
    (st : Engine) : Outcome Unit :=
  (if st.world.in_new_room = 0 then
    (runHook env wait .repExecAlways st).bind fun _ st =>
      let w : World := setevent [env.EV_TEXTSCRIPT, env.TS_REPEAT] st.world
      let w : World := setevent [env.EV_RUNEVBLOCK, env.EVB_ROOM, 0, 6] w
      .done () { st with world := w }
  else .done () st).bind fun _ st =>
    runHook env wait .check_new_room st

/-- Function `game_loop_do_late_update`. -/
def game_loop_do_late_update (env : GameEnv) (wait : Engine → Int → Int → Outcome Unit)
    (st : Engine) : Outcome Unit :=
  if st.world.in_new_room = 0 then
    runHook env wait .lateRepExecAlways st
  else .done () st

/-- A call of `RunRegionInteraction` made by the ground-level phase, with the
value of `play.player_on_region` at the call. -/
structure RegionCall where
  regnum : Int
  mood : Int
  player_on_region : Int
  deriving DecidableEq, Repr

/-- A call `RunRegionInteraction(regnum, mood)` of the ground-level phase: the
call is added to the list of the calls made, and the function, which is
defined in `global_region.cpp`, runs as code of the environment. -/
def fireRegionInteraction (env : GameEnv) (wait : Engine → Int → Int → Outcome Unit)
    (regnum mood : Int) (fired : List RegionCall) (st : Engine) : Outcome (List RegionCall) :=
  (runHook env wait (.RunRegionInteraction regnum mood) st).bind fun _ st' =>
    .done (fired ++ [⟨regnum, mood, st.world.play.player_on_region⟩]) st'

/-- The last statement of the block of
`game_loop_check_ground_level_interactions`, which leaves the function when a
wait loop is no longer valid, and the `return RETURN_CONTINUE` reached
otherwise; `fired` is the list of the calls of `RunRegionInteraction` made
before. -/
def game_loop_check_ground_level_interactions_end (env : GameEnv) (fired : List RegionCall)
    (st : Engine) : Outcome (Int × List RegionCall) :=
  if st.restrict_until ≠ 0 then
    match ShouldStayInWaitMode st with
    | .error h => .quit h
    | .ok stay =>
      if stay = 0 then
        let w : World := { st.world with numevents := st.numEventsAtStartOfFunction }
        .done (0, fired) { st with world := w }
      else .done (env.RETURN_CONTINUE, fired) st
  else .done (env.RETURN_CONTINUE, fired) st

/-- Function `game_loop_check_ground_level_interactions`.  The value returned
is the result of the function with the list of its calls of
`RunRegionInteraction`. -/
def game_loop_check_ground_level_interactions (env : GameEnv)
    (wait : Engine → Int → Int → Outcome Unit) (st : Engine) :
    Outcome (Int × List RegionCall) :=
  if Int.land st.world.play.ground_level_areas_disabled env.GLED_INTERACTION = 0 then
    let hotspotThere := env.get_hotspot_at st.world st.world.player_x st.world.player_y
    let st : Engine :=
      { st with world := setevent [env.EV_RUNEVBLOCK, env.EVB_HOTSPOT, hotspotThere, 0] st.world }
    let onRegion := env.GetRegionIDAtRoom st.world st.world.player_x st.world.player_y
    let inRoom := st.world.displayed_room
    (if onRegion ≠ st.world.play.player_on_region then
      let oldRegion := st.world.play.player_on_region
      let w : World := { st.world with play := { st.world.play with player_on_region := onRegion } }
      let st : Engine := { st with world := w }
      (if oldRegion > 0 then fireRegionInteraction env wait oldRegion 2 [] st
        else .done [] st).bind fun fired st =>
        if onRegion > 0 then fireRegionInteraction env wait onRegion 1 fired st
        else .done fired st
    else .done [] st).bind fun fired st =>
    (if st.world.play.player_on_region > 0 then
      fireRegionInteraction env wait st.world.play.player_on_region 0 fired st
    else .done fired st).bind fun fired st =>
    (if inRoom ≠ st.world.displayed_room then
      (runHook env wait .check_new_room st).bind fun _ st => .done fired st
    else .done fired st).bind fun fired st =>
    game_loop_check_ground_level_interactions_end env fired st
  else .done (env.RETURN_CONTINUE, []) st

/-- Function `check_room_edges`. -/
def check_room_edges (env : GameEnv) (numevents_was : Int) (w : World) : World :=
  if env.IsInterfaceEnabled w ≠ 0 ∧ env.IsGamePaused w = 0 ∧
      w.in_new_room = 0 ∧ w.new_room_was = 0 then
    if w.numevents = numevents_was ∧
        Int.land w.play.ground_level_areas_disabled env.GLED_INTERACTION = 0 then
      let edgesActivated : Int → Int := fun _ => 0
      let edgesActivated : Int → Int :=
        if w.player_x ≤ w.Edges.Left then Function.update edgesActivated 0 1
        else if w.player_x ≥ w.Edges.Right then Function.update edgesActivated 1 1
        else edgesActivated
      let edgesActivated : Int → Int :=
        if w.player_y ≥ w.Edges.Bottom then Function.update edgesActivated 2 1
        else if w.player_y ≤ w.Edges.Top then Function.update edgesActivated 3 1
        else edgesActivated
      let entered := w.play.entered_edge
      let w : World :=
        if entered ≥ 0 ∧ entered ≤ 3 ∧ edgesActivated entered = 0 then
          { w with play := { w.play with entered_edge := -10 } }
        else w
      let edgesActivated : Int → Int :=
        if entered ≥ 0 ∧ entered ≤ 3 ∧ edgesActivated entered ≠ 0 then
          Function.update edgesActivated entered 0
        else edgesActivated
      [0, 1, 2, 3].foldl
        (fun w ii =>
          if edgesActivated ii ≠ 0 then setevent [env.EV_RUNEVBLOCK, env.EVB_ROOM, 0, ii] w
          else w)
        w
    else w
  else w

/-- Function `game_loop_check_controls`; `check_controls` runs as code of the
environment. -/
def game_loop_check_controls (env : GameEnv) (wait : Engine → Int → Int → Outcome Unit)
    (checkControls : Bool) (st : Engine) : Outcome Unit :=
  if st.world.in_new_room = 0 ∧ checkControls = true then
    let inRoom := st.world.displayed_room
    let numevents_was := st.world.numevents
    (runHook env wait .check_controls st).bind fun _ st =>
      let st : Engine := { st with world := check_room_edges env numevents_was st.world }
      if inRoom ≠ st.world.displayed_room then
        runHook env wait .check_new_room st
      else .done () st
  else .done () st

/-- Function `game_loop_do_update`. -/
def game_loop_do_update (env : GameEnv) (wait : Engine → Int → Int → Outcome Unit)
    (st : Engine) : Outcome Unit :=
  if Int.land st.world.debug_flags env.DBG_NOUPDATE ≠ 0 then .done () st
  else if st.world.game_paused = 0 then runHook env wait .update_stuff st
  else .done () st

/-- Modelled from the spec: `StopButtonAnimation` is defined outside
`game_run.cpp`; it removes the entry at the index by moving the later entries
down one place and decrements `numAnimButs`. -/
def StopButtonAnimation (idxn : Int) (animbuts : List AnimatingGUIButton) :
    List AnimatingGUIButton :=
  animbuts.eraseIdx idxn.toNat

/-- The loop of `game_loop_update_animated_buttons`, from the index `aa`; the
first argument bounds the number of iterations. -/
def game_loop_update_animated_buttons_loop (env : GameEnv) :
    Nat → Int → List AnimatingGUIButton → List AnimatingGUIButton
  | 0, _, animbuts => animbuts
  | n + 1, aa, animbuts =>
    if aa < animbuts.length then
      match animbuts.get? aa.toNat with
      | none => animbuts
      | some b =>
        let r := env.UpdateAnimatingButton b
        let animbuts := animbuts.set aa.toNat r.1
        if r.2 ≠ 0 then
          let animbuts := StopButtonAnimation aa animbuts
          let aa := aa - 1
          game_loop_update_animated_buttons_loop env n (aa + 1) animbuts
        else
          game_loop_update_animated_buttons_loop env n (aa + 1) animbuts
    else animbuts

/-- Function `game_loop_update_animated_buttons`; every iteration of its loop
brings the index one closer to the number of entries, so that this number
bounds the iterations. -/
def game_loop_update_animated_buttons (env : GameEnv) (w : World) : World :=
  { w with animbuts :=
      game_loop_update_animated_buttons_loop env w.animbuts.length 0 w.animbuts }

/-- Function `game_loop_do_render_and_check_mouse`; what follows
`render_graphics` for a displayed room runs as code of the environment. -/
def game_loop_do_render_and_check_mouse (env : GameEnv)
    (wait : Engine → Int → Int → Outcome Unit) (st : Engine) : Outcome Unit :=
  if st.world.play.fast_forward = 0 then
    (runHook env wait .render_graphics st).bind fun _ st =>
      if st.world.displayed_room < 0 then .done () st
      else runHook env wait .mouse_moves_over_hotspot st
  else .done () st

/-- Function `game_loop_update_events`. -/
def game_loop_update_events (env : GameEnv) (wait : Engine → Int → Int → Outcome Unit)
    (st : Engine) : Outcome Unit :=
  let w : World := { st.world with new_room_was := st.world.in_new_room }
  let w : World := if w.in_new_room > 0 then setevent [env.EV_FADEIN, 0, 0, 0] w else w
  let w : World := { w with in_new_room := 0 }
  (runHook env wait .update_events { st with world := w }).bind fun _ st =>
    if st.world.new_room_was > 0 ∧ st.world.in_new_room = 0 then
      let w : World :=
        if st.world.new_room_was = 2 then
          setevent [env.EV_RUNEVBLOCK, env.EVB_ROOM, 0, 4] st.world
        else st.world
      let w : World :=
        if w.new_room_was ≠ 3 then setevent [env.EV_RUNEVBLOCK, env.EVB_ROOM, 0, 7] w
        else w
      .done () { st with world := w }
    else .done () st

/-- Function `game_loop_update_background_animation`. -/
def game_loop_update_background_animation (env : GameEnv)
    (wait : Engine → Int → Int → Outcome Unit) (st : Engine) : Outcome Unit :=
  let p := st.world.play
  if p.bg_anim_delay > 0 then
    .done () { st with world := { st.world with play := { p with bg_anim_delay := p.bg_anim_delay - 1 } } }
  else if p.bg_frame_locked ≠ 0 then .done () st
  else
    let p : GameState := { p with bg_anim_delay := p.anim_background_speed }
    let p : GameState := { p with bg_frame := p.bg_frame + 1 }
    let p : GameState :=
      if p.bg_frame % 2 ^ env.size_t_bits ≥ st.world.BgFrameCount then { p with bg_frame := 0 }
      else p
    let st : Engine := { st with world := { st.world with play := p } }
    if st.world.BgFrameCount ≥ 2 then runHook env wait .on_background_frame_change st
    else .done () st

/-- Function `game_loop_update_loop_counter`. -/
def game_loop_update_loop_counter (env : GameEnv) (wait : Engine → Int → Int → Outcome Unit)
    (st : Engine) : Outcome Unit :=
  let w : World := { st.world with loopcounter := (st.world.loopcounter + 1) % 2 ^ 32 }
  let p : GameState := w.play
  let p : GameState := if p.wait_counter > 0 then { p with wait_counter := p.wait_counter - 1 } else p
  let p : GameState :=
    if p.shakesc_length > 0 then { p with shakesc_length := p.shakesc_length - 1 } else p
  let st : Engine := { st with world := { w with play := p } }
  if st.world.loopcounter % 5 = 0 then
    (runHook env wait .update_ambient_sound_vol st).bind fun _ st =>
      runHook env wait .update_directional_sound_vol st
  else .done () st

/-- The phases of `UpdateGameOnce`. -/
inductive Phase where
  /-- Function `game_loop_check_problems_at_start`. -/
  | preChecks
  /-- Function `game_loop_check_new_room`. -/
  | newRoomCheck
  /-- Function `game_loop_check_ground_level_interactions`. -/
  | groundLevelInteractions
  /-- Function `game_loop_check_controls`. -/
  | controls
  /-- Function `game_loop_do_update`. -/
  | update
  /-- Function `game_loop_update_animated_buttons`. -/
  | animatedButtons
  /-- Function `game_loop_do_late_update`. -/
  | lateUpdate
  /-- Function `update_audio_system_on_game_loop`. -/
  | audioTick
  /-- The body of `game_loop_do_render_and_check_mouse`, which is skipped as a
  whole when `play.fast_forward` is set. -/
  | render
  /-- Function `game_loop_update_events`. -/
  | events
  /-- Function `game_loop_update_background_animation`. -/
  | backgroundAnimation
  /-- Function `game_loop_update_loop_counter`. -/
  | loopCounter
  /-- Function `game_loop_update_fps`. -/
  | fps
  deriving DecidableEq, Repr

/-- The phases in the order of the specification. -/
def Phase.all : List Phase :=
  [.preChecks, .newRoomCheck, .groundLevelInteractions, .controls, .update, .animatedButtons,
    .lateUpdate, .audioTick, .render, .events, .backgroundAnimation, .loopCounter, .fps]

/-- Runs a statement of `UpdateGameOnce` that belongs to no phase. -/
def between (f : Engine → Outcome Unit) (trace : List Phase) (st : Engine) :
    Outcome (List Phase) :=
  (f st).bind fun _ st => .done trace st

/-- Runs the statement of `UpdateGameOnce` that makes up a phase and adds the
phase to the trace of the call. -/
def phase (p : Phase) (f : Engine → Outcome Unit) (trace : List Phase) (st : Engine) :
    Outcome (List Phase) :=
  (f st).bind fun _ st => .done (trace ++ [p]) st

/-- The first statements of `UpdateGameOnce`, up to the test of `want_exit`. -/
def UpdateGameOnce_start (env : GameEnv) (wait : Engine → Int → Int → Outcome Unit)
    (st : Engine) : Outcome Unit :=
  (runHook env wait .process_pending_events st).bind fun _ st =>
  (runHook env wait .update_polled_mp3 st).bind fun _ st =>
    let st : Engine := { st with numEventsAtStartOfFunction := st.world.numevents }
    if st.world.want_exit ≠ 0 then ProperExit st else .done () st

/-- The statements of `UpdateGameOnce` up to the call of
`game_loop_check_ground_level_interactions`; the value is the result of this
call and the trace. -/
def UpdateGameOnce_head (env : GameEnv) (wait : Engine → Int → Int → Outcome Unit)
    (st : Engine) : Outcome (Int × List Phase) :=
  (((((Outcome.done [] st).bind
    (between (UpdateGameOnce_start env wait))).bind
    (between (runHook env wait .ccNotifyScriptStillAlive))).bind
    (phase .preChecks game_loop_check_problems_at_start)).bind
    (between fun st =>
      let st : Engine :=
        if st.world.play.no_hicolor_fadein ≠ 0 ∧ st.world.fadetype = env.FADE_NORMAL then
          { st with world :=
              { st.world with play := { st.world.play with screen_is_faded_out := 0 } } }
        else st
      runHook env wait .update_gui_disabled_status st)).bind
    (phase .newRoomCheck (game_loop_check_new_room env wait)) |>.bind
    fun trace st =>
      (game_loop_check_ground_level_interactions env wait st).bind fun res st =>
        .done (res.1, trace ++ [.groundLevelInteractions]) st

/-- The statements of `UpdateGameOnce` after the test of the result of
`game_loop_check_ground_level_interactions`, up to the call of
`game_loop_update_loop_counter`. -/
def UpdateGameOnce_body (env : GameEnv) (wait : Engine → Int → Int → Outcome Unit)
    (checkControls : Bool) (trace : List Phase) (st : Engine) : Outcome (List Phase) :=
  (((((((((((Outcome.done trace
      { st with world := { st.world with mouse_on_iface := -1 } }).bind
    (between (runHook env wait .check_debug_keys))).bind
    (phase .controls (game_loop_check_controls env wait checkControls))).bind
    (phase .update (game_loop_do_update env wait))).bind
    (phase .animatedButtons fun st =>
      .done () { st with world := game_loop_update_animated_buttons env st.world })).bind
    (phase .lateUpdate (game_loop_do_late_update env wait))).bind
    (phase .audioTick (runHook env wait .update_audio_system_on_game_loop))).bind
    (fun trace st =>
      if st.world.play.fast_forward = 0 then
        phase .render (game_loop_do_render_and_check_mouse env wait) trace st
      else between (game_loop_do_render_and_check_mouse env wait) trace st)).bind
    (phase .events (game_loop_update_events env wait))).bind
    (between (runHook env wait .update_polled_stuff_if_runtime))).bind
    (phase .backgroundAnimation (game_loop_update_background_animation env wait))).bind
    (phase .loopCounter (game_loop_update_loop_counter env wait))

/-- Function `UpdateGameOnce`; the arguments that are only handed to the
renderer are left out.  The value is the trace of the phases of the call. -/
def UpdateGameOnce (env : GameEnv) (wait : Engine → Int → Int → Outcome Unit)
    (checkControls : Bool) (st : Engine) : Outcome (List Phase) :=
  (UpdateGameOnce_head env wait st).bind fun res st =>
    if res.1 ≠ env.RETURN_CONTINUE then
      .done res.2 st
    else
      (UpdateGameOnce_body env wait checkControls res.2 st).bind fun trace st =>
        if st.world.play.fast_forward ≠ 0 then
          .done trace st
        else
          ((phase .fps (runHook env wait .game_loop_update_fps) trace st).bind
            (between (runHook env wait .PollUntilNextFrame)))

/-- Function `GameTick`. -/
def GameTick (env : GameEnv) (wait : Engine → Int → Int → Outcome Unit) (st : Engine) :
    Outcome Int :=
  if st.world.displayed_room < 0 then
    .quit ⟨.blockingBeforeFirstRoom, st⟩
  else
    (UpdateGameOnce env wait true st).bind fun _ st =>
    (runHook env wait .UpdateMouseOverLocation st).bind fun _ st =>
    (UpdateWaitMode env st).bind fun res st =>
      if res = env.RETURN_CONTINUE then .done 0 st
      else .done res st

/-- The loop `while (GameTick()==0);` of `GameLoopUntilEvent`, for at most the
given number of ticks; the value is the list of the results of `GameTick`. -/
def GameLoopUntilEvent_ticks (tick : Engine → Outcome Int) : Nat → Engine → Outcome (List Int)
  | 0, _ => .timeout
  | n + 1, st =>
    match tick st with
    | .done res st =>
      if res = 0 then
        match GameLoopUntilEvent_ticks tick n st with
        | .done results st => .done (res :: results) st
        | .quit h => .quit h
        | .timeout => .timeout
      else .done [res] st
    | .quit h => .quit h
    | .timeout => .timeout

/-- Function `GameLoopUntilEvent`.  The first argument is the budget: it bounds
the depth of the blocking calls nested in this one, and the number of ticks of
each loop. -/
def GameLoopUntilEvent (env : GameEnv) : Nat → Engine → Int → Int → Outcome Unit
  | 0, _, _, _ => .timeout
  | budget + 1, st, untilwhat, daaa =>
    match runHook env (GameLoopUntilEvent env budget) .EndSkippingUntilCharStops st with
    | .done _ st =>
      let cached_restrict_until := st.restrict_until
      let cached_user_disabled_data := st.user_disabled_data
      let cached_user_disabled_for := st.user_disabled_for
      let st := SetupLoopParameters env st untilwhat daaa
      match GameLoopUntilEvent_ticks (GameTick env (GameLoopUntilEvent env budget))
          (budget + 1) st with
      | .done _ st =>
        .done ()
          { st with
            restrict_until := cached_restrict_until
            user_disabled_data := cached_user_disabled_data
            user_disabled_for := cached_user_disabled_for }
      | .quit h => .quit h
      | .timeout => .timeout
    | .quit h => .quit h
    | .timeout => .timeout

/-- The loop of `RunGameUntilAborted`, for at most the given number of ticks;
`wait` is `GameLoopUntilEvent`.  The value lists, for each tick made, the value
of `load_new_game` found after it. -/
def RunGameUntilAborted_loop (env : GameEnv) (wait : Engine → Int → Int → Outcome Unit) :
    Nat → Engine → Outcome (List Int)
  | n, st =>
    if st.world.abort_engine ≠ 0 then .done [] st
    else
      match n with
      | 0 => .timeout
      | n + 1 =>
        match GameTick env wait st with
        | .done _ st =>
          let request := st.world.load_new_game
          let switched : Outcome Unit :=
            if request ≠ 0 then
              (runHook env wait (.RunAGSGame request) st).bind fun _ st =>
                .done () { st with world := { st.world with load_new_game := 0 } }
            else .done () st
          match switched with
          | .done _ st =>
            match RunGameUntilAborted_loop env wait n st with
            | .done requests st => .done (request :: requests) st
            | .quit h => .quit h
            | .timeout => .timeout
          | .quit h => .quit h
          | .timeout => .timeout
        | .quit h => .quit h
        | .timeout => .timeout

/-- Function `RunGameUntilAborted`; the argument bounds the number of ticks and
the depth of the blocking calls. -/
def RunGameUntilAborted (env : GameEnv) (budget : Nat) (st : Engine) : Outcome (List Int) :=
  (runHook env (GameLoopUntilEvent env budget) .skipMissedTicks st).bind fun _ st =>
    RunGameUntilAborted_loop env (GameLoopUntilEvent env budget) budget st

/-- A world in room 1: the player stands at `(60, 10)` and is recorded on
region 1; the `short` at address 100 is 2 and the `int` at address 200 is 3. -/
def sampleWorld : World where
  play :=
    { ground_level_areas_disabled := 0
      player_on_region := 1
      disabled_user_interface := 0
      fast_forward := 0
      no_hicolor_fadein := 0
      screen_is_faded_out := 0
      wait_counter := 0
      shakesc_length := 0
      bg_anim_delay := 0
      bg_frame_locked := 0
      anim_background_speed := 4
      bg_frame := 0
      entered_edge := -10 }
  want_exit := 0
  abort_engine := 0
  proper_exit := 0
  displayed_room := 1
  starting_room := 1
  in_new_room := 0
  new_room_was := 0
  in_enters_screen := 0
  done_es_error := 0
  no_blocking_functions := 0
  numevents := 0
  event := fun _ => []
  is_text_overlay := 0
  load_new_game := 0
  game_paused := 0
  debug_flags := 0
  mouse_on_iface := 0
  loopcounter := 0
  guis_need_update := 0
  cur_cursor := 0
  cur_mode := 0
  fadetype := 0
  BgFrameCount := 1
  Edges := { Left := 0, Right := 320, Top := 0, Bottom := 200 }
  player_x := 60
  player_y := 10
  shortAt := fun a => if a = 100 then 2 else 0
  charAt := fun _ => 0
  intAt := fun a => if a = 200 then 3 else 0
  animbuts := [⟨1⟩, ⟨3⟩, ⟨1⟩]

/-- An environment in which `update_stuff` counts the `short` at 100 and the
`int` at 200 down to 0, `check_controls` once starts a blocking call that
waits for the `short` at 100, every region interaction counts itself in the
`int` at 400, the late script asks for game 9 in loop 1, and the event update
sets `abort_engine` in loop 2.  Region 2 lies right of `x = 50`, region 1 left
of it. -/
def sampleGame : GameEnv where
  RETURN_CONTINUE := 1
  FOR_EXITLOOP := 2
  FOR_SCRIPT := 3
  GLED_INTERACTION := 1
  DBG_NOUPDATE := 2
  CURS_WAIT := 7
  EV_TEXTSCRIPT := 1
  EV_RUNEVBLOCK := 2
  EV_FADEIN := 5
  EVB_HOTSPOT := 1
  EVB_ROOM := 2
  TS_REPEAT := 1
  FADE_NORMAL := 0
  size_t_bits := 64
  code := fun h w =>
    match h with
    | .update_stuff =>
      [.modify fun w =>
        { w with
          shortAt := fun a => if a = 100 ∧ w.shortAt 100 > 0 then w.shortAt 100 - 1 else w.shortAt a
          intAt := fun a => if a = 200 ∧ w.intAt 200 > 0 then w.intAt 200 - 1 else w.intAt a }]
    | .check_controls =>
      if w.charAt 300 = 0 then
        [.modify fun w => { w with charAt := Function.update w.charAt 300 1 },
          .block (.GameLoopUntilNotMoving 100)]
      else []
    | .RunRegionInteraction _ _ =>
      [.modify fun w => { w with intAt := Function.update w.intAt 400 (w.intAt 400 + 1) }]
    | .lateRepExecAlways =>
      if w.loopcounter = 1 then [.modify fun w => { w with load_new_game := 9 }] else []
    | .update_events =>
      if w.loopcounter = 2 then [.modify fun w => { w with abort_engine := 1 }] else []
    | .RunAGSGame n => [.modify fun w => { w with starting_room := n }]
    | _ => []
  get_hotspot_at := fun _ _ _ => 0
  GetRegionIDAtRoom := fun _ x _ => if x ≥ 50 then 2 else 1
  IsInterfaceEnabled := fun w => if w.play.disabled_user_interface > 0 then 0 else 1
  IsGamePaused := fun w => w.game_paused
  set_default_cursor := fun w => { w with cur_cursor := w.cur_mode }
  set_mouse_cursor := fun c w => { w with cur_cursor := c }
  UpdateAnimatingButton := fun b => (⟨b.code - 1⟩, if b.code ≤ 1 then 1 else 0)

/-- The sample world with no wait loop running. -/
def sampleEngine : Engine where
  world := sampleWorld
  restrict_until := 0
  user_disabled_data := 0
  user_disabled_for := 0
  numEventsAtStartOfFunction := 0

/-- The loop of `game_loop_update_animated_buttons` with a record of its calls
of `UpdateAnimatingButton`: the second component lists, in the order of the
calls, the entries that were passed to it. -/
def game_loop_update_animated_buttons_calls (env : GameEnv) :
    Nat → Int → List AnimatingGUIButton → List AnimatingGUIButton × List AnimatingGUIButton
  | 0, _, animbuts => (animbuts, [])
  | n + 1, aa, animbuts =>
    if aa < animbuts.length then
      match animbuts.get? aa.toNat with
      | none => (animbuts, [])
      | some b =>
        let r := env.UpdateAnimatingButton b
        let animbuts := animbuts.set aa.toNat r.1
        if r.2 ≠ 0 then
          let animbuts := StopButtonAnimation aa animbuts
          let aa := aa - 1
          let rest := game_loop_update_animated_buttons_calls env n (aa + 1) animbuts
          (rest.1, b :: rest.2)
        else
          let rest := game_loop_update_animated_buttons_calls env n (aa + 1) animbuts
          (rest.1, b :: rest.2)
    else (animbuts, [])

/-- The animations that the specification keeps: each entry is updated once,
and those whose update reports the end of the animation are left out. -/
def updatedButtons (env : GameEnv) (animbuts : List AnimatingGUIButton) :
    List AnimatingGUIButton :=
  animbuts.filterMap fun b =>
    if (env.UpdateAnimatingButton b).2 ≠ 0 then none else some (env.UpdateAnimatingButton b).1

/-- The conditions under which `check_room_edges` looks at the edges: the
interface is enabled, the game is not paused, no room transition is going on
or has just ended, `check_controls` has scheduled no event, and the
interactions of the ground level are enabled. -/
def edgeDetectionActive (env : GameEnv) (numevents_was : Int) (w : World) : Prop :=
  (env.IsInterfaceEnabled w ≠ 0 ∧ env.IsGamePaused w = 0 ∧
    w.in_new_room = 0 ∧ w.new_room_was = 0) ∧
  (w.numevents = numevents_was ∧
    Int.land w.play.ground_level_areas_disabled env.GLED_INTERACTION = 0)

/-- The edges that the specification takes as reached, each tested on its own:
0 (left) for `x <= Edges.Left`, 1 (right) for `x >= Edges.Right`, 2 (bottom)
for `y >= Edges.Bottom`, 3 (top) for `y <= Edges.Top`. -/
def edgesReachedSpec (w : World) : List Int :=
  (if w.player_x ≤ w.Edges.Left then [0] else []) ++
  (if w.player_x ≥ w.Edges.Right then [1] else []) ++
  (if w.player_y ≥ w.Edges.Bottom then [2] else []) ++
  (if w.player_y ≤ w.Edges.Top then [3] else [])

/-- The edges that `check_room_edges` marks in `edgesActivated`: the right edge
is tested only when the left one is not reached, and the top edge only when the
bottom one is not. -/
def edgesReached (w : World) : List Int :=
  (if w.player_x ≤ w.Edges.Left then [0]
    else if w.player_x ≥ w.Edges.Right then [1] else []) ++
  (if w.player_y ≥ w.Edges.Bottom then [2]
    else if w.player_y ≤ w.Edges.Top then [3] else [])

/-- The world after the room events with the numbers of the list have been
scheduled, in the order of the list, by `setevent(EV_RUNEVBLOCK, EVB_ROOM, 0, ii)`;
the numbers 0 to 3 are the events "walks off edge" of the four edges. -/
def scheduleRoomEvents (env : GameEnv) (numbers : List Int) (w : World) : World :=
  numbers.foldl (fun w ii => setevent [env.EV_RUNEVBLOCK, env.EVB_ROOM, 0, ii] w) w

/-- The room events that the specification has `game_loop_update_events`
schedule after `update_events`, when `in_new_room` was `n` at entry and is
`after` when `update_events` returns: 4 ("first time enters screen") for
`n == 2` and 7 ("enters screen after fade-in") for `n != 3`, when `n > 0` and
the room was not changed again. -/
def entersScreenEventsSpec (n after : Int) : List Int :=
  (if n > 0 ∧ after = 0 ∧ n = 2 then [4] else []) ++
  (if n > 0 ∧ after = 0 ∧ n ≠ 3 then [7] else [])

/-- The state in which `game_loop_update_events` calls `update_events`: the
statements of the function before the call have run. -/
def game_loop_update_events_entry (env : GameEnv) (st : Engine) : Engine :=
  let w : World := { st.world with new_room_was := st.world.in_new_room }
  let w : World := if w.in_new_room > 0 then setevent [env.EV_FADEIN, 0, 0, 0] w else w
  let w : World := { w with in_new_room := 0 }
  { st with world := w }

/-- When `x` returns, the state that it returns satisfies `I`; when it ends in
`quit`, the message and the state of the `quit` satisfy `P`. -/
def Outcome.safe {α : Type} (I : Engine → Prop) (P : Halt → Prop) (x : Outcome α) : Prop :=
  (∀ a st, x = .done a st → I st) ∧ ∀ h, x = .quit h → P h

/-- The property `I` of the state does not depend on the world nor on
`numEventsAtStartOfFunction`, and `P` holds of every `quit` whose message is
none of "||exit!", "err: for_script obsolete (v2.1 and earlier only)" and
"Unknown user_disabled_for in end restrict_until". -/
structure Guarded (I : Engine → Prop) (P : Halt → Prop) : Prop where
  world : ∀ (st : Engine) (w : World), I st → I { st with world := w }
  recorded : ∀ (st : Engine) (n : Int), I st → I { st with numEventsAtStartOfFunction := n }
  other : ∀ h : Halt, h.msg ≠ .properExit → h.msg ≠ .forScriptObsolete →
    h.msg ≠ .unknownUserDisabledFor → P h

/-- The invariant of the wait state: a live wait is one that was set up to
leave the loop. -/
def waitInvariant (env : GameEnv) (st : Engine) : Prop :=
  st.restrict_until ≠ 0 → st.user_disabled_for = env.FOR_EXITLOOP

/-- The two calls with which `UpdateGameOnce` begins, before it records
`numevents` and tests `want_exit`. -/
def UpdateGameOnce_polls (env : GameEnv) (wait : Engine → Int → Int → Outcome Unit)
    (st : Engine) : Outcome Unit :=
  (runHook env wait .process_pending_events st).bind fun _ st =>
    runHook env wait .update_polled_mp3 st

/-- The state in which `ProperExit` calls `quit`, when `UpdateGameOnce` has
found `want_exit` set in the state `st`. -/
def properExitState (st : Engine) : Engine :=
  let st : Engine := { st with numEventsAtStartOfFunction := st.world.numevents }
  let w := { st.world with want_exit := 0 }
  let w := { w with proper_exit := 1 }
  { st with world := w }

/-- An environment in which `update_stuff` asks for the exit, and no other
outside code does anything. -/
def exitGame : GameEnv :=
  { sampleGame with
    code := fun h _ =>
      match h with
      | .update_stuff => [.modify fun w => { w with want_exit := 1 }]
      | _ => [] }

/-- An environment in which the first region interaction that runs makes the
blocking call `GameLoopUntilNoOverlay()`, and no other outside code does
anything. -/
def regionWaitGame : GameEnv :=
  { sampleGame with
    code := fun h w =>
      match h with
      | .RunRegionInteraction _ _ =>
        if w.charAt 300 = 0 then
          [.modify fun w => { w with charAt := Function.update w.charAt 300 1 },
            .block .GameLoopUntilNoOverlay]
        else []
      | _ => [] }

/-- The sample world inside a wait for the `int` at address 500, which is 0:
the wait is live and its condition is satisfied. -/
def satisfiedWait : Engine :=
  { sampleEngine with
    restrict_until := UNTIL_INTIS0
    user_disabled_data := 500
    user_disabled_for := 2 }

/-- An environment in which `update_stuff` counts the `short` at 100 down to 0
and the first run of `update_events` makes a blocking call that waits for it,
as the script of an event that walks a character does. -/
def eventWaitGame : GameEnv :=
  { sampleGame with
    code := fun h w =>
      match h with
      | .update_stuff =>
        [.modify fun w =>
          { w with
            shortAt := fun a =>
              if a = 100 ∧ w.shortAt 100 > 0 then w.shortAt 100 - 1 else w.shortAt a }]
      | .update_events =>
        if w.charAt 300 = 0 then
          [.modify fun w => { w with charAt := Function.update w.charAt 300 1 },
            .block (.GameLoopUntilNotMoving 100)]
        else []
      | _ => [] }

/-- An environment in which `update_stuff` asks for the exit and
`update_events`, later in the same tick, makes the blocking call
`GameLoopUntilNoOverlay()`. -/
def exitWaitGame : GameEnv :=
  { sampleGame with
    code := fun h _ =>
      match h with
      | .update_stuff => [.modify fun w => { w with want_exit := 1 }]
      | .update_events => [.block .GameLoopUntilNoOverlay]
      | _ => [] }

/-- The `quit` that the test at the top of a call of `UpdateGameOnce` makes
through `ProperExit`, when it finds `want_exit` set in some state `s1`. -/
def exitAtTest (h : Halt) : Prop :=
  ∃ s1 : Engine, s1.world.want_exit ≠ 0 ∧ h = ⟨.properExit, properExitState s1⟩

/-- When `x` returns, the value `g` of the state it returns is the one of `st`. -/
def Outcome.keeps {α β : Type} (g : Engine → β) (st : Engine) (x : Outcome α) : Prop :=
  ∀ a st', x = .done a st' → g st' = g st

/-- The value `g` of the state depends on the world at most through
`play.disabled_user_interface`, and is left as it is by every change of the
world made by code outside `game_run.cpp`. -/
structure Observed (env : GameEnv) {β : Type} (g : Engine → β) : Prop where
  world : ∀ (st : Engine) (w : World),
    w.play.disabled_user_interface = st.world.play.disabled_user_interface →
    g { st with world := w } = g st
  outside : ∀ (h : Hook) (w : World) (f : World → World), Action.modify f ∈ env.code h w →
    ∀ st : Engine, g { st with world := f st.world } = g st

/-- The wait context: the three statics that `GameLoopUntilEvent` saves and
restores. -/
def waitContext (st : Engine) : Int × Int × Int :=
  (st.restrict_until, st.user_disabled_data, st.user_disabled_for)

/-- The depth counter `play.disabled_user_interface`. -/
def uiDisabledDepth (st : Engine) : Int :=
  st.world.play.disabled_user_interface

/-! ## Arithmetic of the tint word -/

theorem land_255_of_byte (x : Int) (h0 : 0 ≤ x) (h1 : x ≤ 255) : Int.land x 0xFF = x := by
  obtain ⟨n, rfl⟩ := Int.eq_ofNat_of_zero_le h0
  have hn : n < 2 ^ 8 := by omega
  have h := Nat.and_pow_two_sub_one_eq_mod n 8
  rw [Nat.mod_eq_of_lt hn] at h
  show ((n &&& 255 : Nat) : Int) = (n : Int)
  exact congrArg Nat.cast h

/-- The packed word is the one written without the masks when the four
components are bytes. -/
theorem tintWord_eq (red green blue amount : Int)
    (hr : 0 ≤ red ∧ red ≤ 255) (hg : 0 ≤ green ∧ green ≤ 255)
    (hb : 0 ≤ blue ∧ blue ≤ 255) (ha : 0 ≤ amount ∧ amount ≤ 255) :
    tintWord red green blue amount =
      Int.lor (Int.lor (Int.lor red (green <<< (8 : Int))) (blue <<< (16 : Int)))
        (amount <<< (24 : Int)) := by
  unfold tintWord
  rw [land_255_of_byte red hr.1 hr.2, land_255_of_byte green hg.1 hg.2,
    land_255_of_byte blue hb.1 hb.2, land_255_of_byte amount ha.1 ha.2]

/-- The packed word of a valid tint is a non-negative 31-bit number, so that
it is stored in a 32-bit `int` unchanged. -/
theorem tintWord_lt (red green blue amount : Int)
    (hr : 0 ≤ red ∧ red ≤ 255) (hg : 0 ≤ green ∧ green ≤ 255)
    (hb : 0 ≤ blue ∧ blue ≤ 255) (ha : 0 ≤ amount ∧ amount ≤ 100) :
    0 ≤ tintWord red green blue amount ∧ tintWord red green blue amount < 2 ^ 31 := by
  rw [tintWord_eq red green blue amount hr hg hb ⟨ha.1, by omega⟩]
  obtain ⟨r, rfl⟩ := Int.eq_ofNat_of_zero_le hr.1
  obtain ⟨g, rfl⟩ := Int.eq_ofNat_of_zero_le hg.1
  obtain ⟨b, rfl⟩ := Int.eq_ofNat_of_zero_le hb.1
  obtain ⟨a, rfl⟩ := Int.eq_ofNat_of_zero_le ha.1
  have e8 : ((g : Int) <<< (8 : Int)) = ((g * 2 ^ 8 : Nat) : Int) := by
    simpa using Int.shiftLeft_eq_mul_pow (g : Int) 8
  have e16 : ((b : Int) <<< (16 : Int)) = ((b * 2 ^ 16 : Nat) : Int) := by
    simpa using Int.shiftLeft_eq_mul_pow (b : Int) 16
  have e24 : ((a : Int) <<< (24 : Int)) = ((a * 2 ^ 24 : Nat) : Int) := by
    simpa using Int.shiftLeft_eq_mul_pow (a : Int) 24
  rw [e8, e16, e24]
  show (0 : Int) ≤ ((((r ||| g * 2 ^ 8) ||| b * 2 ^ 16) ||| a * 2 ^ 24 : Nat) : Int) ∧
    ((((r ||| g * 2 ^ 8) ||| b * 2 ^ 16) ||| a * 2 ^ 24 : Nat) : Int) < 2 ^ 31
  have hr2 : r < 2 ^ 31 := by omega
  have hg2 : g * 2 ^ 8 < 2 ^ 31 := by omega
  have hb2 : b * 2 ^ 16 < 2 ^ 31 := by omega
  have ha2 : a * 2 ^ 24 < 2 ^ 31 := by omega
  have h := Nat.or_lt_two_pow (Nat.or_lt_two_pow (Nat.or_lt_two_pow hr2 hg2) hb2) ha2
  constructor
  · exact Int.ofNat_nonneg _
  · exact_mod_cast h

/-! ## Light level and tint -/

/-- Claim C1: for a region index `r` with `0 <= r < MAX_REGIONS` and any
brightness `b`, `SetAreaLightLevel(r, b)` returns, and afterwards the tint word
of `r` is 0 and the light level of `r` is `b` clamped to `[-100, 100]`. -/
theorem SetAreaLightLevel_clamps (env : RegionEnv) (st : RegionState) (r b : Int)
    (h0 : 0 ≤ r) (h1 : r < env.MAX_REGIONS) :
    ∃ st', SetAreaLightLevel env st r b = .ok st' ∧
      st'.regionTintLevel r = 0 ∧
      st'.regionLightLevel r = max (-100) (min b 100) := by
  have hv : ¬ (r < 0 ∨ r > env.MAX_REGIONS) := by omega
  refine ⟨_, by simp only [SetAreaLightLevel, if_neg hv]; rfl, ?_, ?_⟩
  · simp
  · simp only [Function.update_same]
    split_ifs <;> omega

theorem SetAreaLightLevel_clamps_witness :
    ∃ st', SetAreaLightLevel sampleEnv sampleState 3 250 = .ok st' ∧
      st'.regionTintLevel 3 = 0 ∧
      st'.regionLightLevel 3 = max (-100) (min 250 100) :=
  SetAreaLightLevel_clamps sampleEnv sampleState 3 250 (by decide) (by decide)

/-- The result of `SetRegionTint` on arguments that pass all its checks. -/
theorem SetRegionTint_ok (env : RegionEnv) (st : RegionState)
    (area red green blue amount luminance : Int)
    (ha : ¬ (area < 0 ∨ area > env.MAX_REGIONS))
    (hc : ¬ (red < 0 ∨ red > 255 ∨ green < 0 ∨ green > 255 ∨ blue < 0 ∨ blue > 255))
    (hm : ¬ ((if amount = 0 then 100 else amount) < 1 ∨
      (if amount = 0 then 100 else amount) > 100))
    (hl : ¬ (luminance < 0 ∨ luminance > 100)) :
    SetRegionTint env st area red green blue amount luminance =
      .ok { st with
        regionTintLevel := Function.update st.regionTintLevel area
          (tintWord red green blue (if amount = 0 then 100 else amount))
        regionLightLevel := Function.update st.regionLightLevel area
          (Int.tdiv (luminance * 25) 10) } := by
  simp only [SetRegionTint, if_neg ha, if_neg hc, if_neg hm, if_neg hl]

/-- Claim C2: for an accepted region index, colour components in `[0, 255]`,
an amount in `[0, 100]` and a luminance in `[0, 100]`, `SetRegionTint` returns
and stores the tint word `red | green<<8 | blue<<16 | a<<24`, with `a = 100`
for `amount = 0` and `a = amount` otherwise, and the light level
`(luminance * 25) / 10`; and `SetRegionTint(3, 10, 20, 30, 0, 50)` stores
`10 | 20<<8 | 30<<16 | 100<<24`, which is 1679692810, and the light level 125. -/
theorem SetRegionTint_stores (env : RegionEnv) (st : RegionState) :
    (∀ area red green blue amount luminance : Int,
      0 ≤ area → area ≤ env.MAX_REGIONS →
      0 ≤ red → red ≤ 255 → 0 ≤ green → green ≤ 255 → 0 ≤ blue → blue ≤ 255 →
      0 ≤ amount → amount ≤ 100 → 0 ≤ luminance → luminance ≤ 100 →
      ∃ st', SetRegionTint env st area red green blue amount luminance = .ok st' ∧
        st'.regionTintLevel area =
          Int.lor (Int.lor (Int.lor red (green <<< (8 : Int))) (blue <<< (16 : Int)))
            ((if amount = 0 then 100 else amount) <<< (24 : Int)) ∧
        st'.regionLightLevel area = luminance * 25 / 10) ∧
    (3 ≤ env.MAX_REGIONS →
      ∃ st', SetRegionTint env st 3 10 20 30 0 50 = .ok st' ∧
        st'.regionTintLevel 3 =
          Int.lor (Int.lor (Int.lor 10 ((20 : Int) <<< (8 : Int))) ((30 : Int) <<< (16 : Int)))
            ((100 : Int) <<< (24 : Int)) ∧
        st'.regionTintLevel 3 = 1679692810 ∧
        st'.regionLightLevel 3 = 125) := by
  have main : ∀ area red green blue amount luminance : Int,
      0 ≤ area → area ≤ env.MAX_REGIONS →
      0 ≤ red → red ≤ 255 → 0 ≤ green → green ≤ 255 → 0 ≤ blue → blue ≤ 255 →
      0 ≤ amount → amount ≤ 100 → 0 ≤ luminance → luminance ≤ 100 →
      ∃ st', SetRegionTint env st area red green blue amount luminance = .ok st' ∧
        st'.regionTintLevel area =
          Int.lor (Int.lor (Int.lor red (green <<< (8 : Int))) (blue <<< (16 : Int)))
            ((if amount = 0 then 100 else amount) <<< (24 : Int)) ∧
        st'.regionLightLevel area = luminance * 25 / 10 := by
    intro area red green blue amount luminance a0 a1 r0 r1 g0 g1 b0 b1 m0 m1 l0 l1
    have hm : 1 ≤ (if amount = 0 then 100 else amount) ∧
        (if amount = 0 then 100 else amount) ≤ 100 := by
      split_ifs <;> omega
    refine ⟨_, SetRegionTint_ok env st area red green blue amount luminance
      (by omega) (by omega) (by omega) (by omega), ?_, ?_⟩
    · simp only [Function.update_same]
      exact tintWord_eq red green blue _ ⟨r0, r1⟩ ⟨g0, g1⟩ ⟨b0, b1⟩ ⟨by omega, by omega⟩
    · simp only [Function.update_same]
      exact Int.tdiv_eq_ediv (by omega) (by decide)
  refine ⟨main, fun h3 => ?_⟩
  obtain ⟨st', hst, htint, hlight⟩ := main 3 10 20 30 0 50 (by decide) (by exact_mod_cast h3)
    (by decide) (by decide) (by decide) (by decide) (by decide) (by decide)
    (by decide) (by decide) (by decide) (by decide)
  refine ⟨st', hst, htint, ?_, ?_⟩
  · rw [htint]; decide
  · rw [hlight]; decide

theorem SetRegionTint_stores_witness :
    ((3 : Nat) ≤ sampleEnv.MAX_REGIONS ∧
      ∃ st', SetRegionTint sampleEnv sampleState 3 10 20 30 0 50 = .ok st' ∧
        st'.regionTintLevel 3 =
          Int.lor (Int.lor (Int.lor 10 ((20 : Int) <<< (8 : Int))) ((30 : Int) <<< (16 : Int)))
            ((100 : Int) <<< (24 : Int)) ∧
        st'.regionTintLevel 3 = 1679692810 ∧
        st'.regionLightLevel 3 = 125) ∧
    ∃ st', SetRegionTint sampleEnv sampleState 16 255 0 128 40 99 = .ok st' ∧
      st'.regionTintLevel 16 =
        Int.lor (Int.lor (Int.lor 255 ((0 : Int) <<< (8 : Int))) ((128 : Int) <<< (16 : Int)))
          ((if (40 : Int) = 0 then 100 else 40) <<< (24 : Int)) ∧
      st'.regionLightLevel 16 = 99 * 25 / 10 :=
  ⟨⟨by decide, (SetRegionTint_stores sampleEnv sampleState).2 (by decide)⟩,
    (SetRegionTint_stores sampleEnv sampleState).1 16 255 0 128 40 99
      (by decide) (by decide) (by decide) (by decide) (by decide) (by decide)
      (by decide) (by decide) (by decide) (by decide) (by decide) (by decide)⟩

/-- Claim C3: `SetRegionTint` ends in `quit` exactly when the region index is
outside `[0, MAX_REGIONS]`, or a colour component is outside `[0, 255]`, or the
amount, with 0 replaced by 100, is outside `[1, 100]`, or the luminance is
outside `[0, 100]`; and at the call of `quit` the state is the one at entry,
so that no tint word and no light level was written. -/
theorem SetRegionTint_quit_iff (env : RegionEnv) (st : RegionState)
    (area red green blue amount luminance : Int) :
    ((∃ a, SetRegionTint env st area red green blue amount luminance = .error a) ↔
      ((area < 0 ∨ area > env.MAX_REGIONS) ∨
        (red < 0 ∨ red > 255) ∨ (green < 0 ∨ green > 255) ∨ (blue < 0 ∨ blue > 255) ∨
        ((if amount = 0 then 100 else amount) < 1 ∨
          (if amount = 0 then 100 else amount) > 100) ∨
        (luminance < 0 ∨ luminance > 100))) ∧
    (∀ a, SetRegionTint env st area red green blue amount luminance = .error a →
      a.state = st ∧
      a.state.regionTintLevel = st.regionTintLevel ∧
      a.state.regionLightLevel = st.regionLightLevel) := by
  by_cases ha : area < 0 ∨ area > env.MAX_REGIONS
  · have e : SetRegionTint env st area red green blue amount luminance =
        .error ⟨.setRegionTintInvalidRegion, st⟩ := by
      simp only [SetRegionTint, if_pos ha]
    rw [e]
    refine ⟨⟨fun _ => Or.inl ha, fun _ => ⟨_, rfl⟩⟩, ?_⟩
    intro a h
    cases h
    exact ⟨rfl, rfl, rfl⟩
  by_cases hc : red < 0 ∨ red > 255 ∨ green < 0 ∨ green > 255 ∨ blue < 0 ∨ blue > 255
  · have e : SetRegionTint env st area red green blue amount luminance =
        .error ⟨.setRegionTintRGB, st⟩ := by
      simp only [SetRegionTint, if_neg ha, if_pos hc]
    rw [e]
    refine ⟨⟨fun _ => ?_, fun _ => ⟨_, rfl⟩⟩, ?_⟩
    · omega
    · intro a h
      cases h
      exact ⟨rfl, rfl, rfl⟩
  by_cases hm : (if amount = 0 then 100 else amount) < 1 ∨
      (if amount = 0 then 100 else amount) > 100
  · have e : SetRegionTint env st area red green blue amount luminance =
        .error ⟨.setRegionTintAmount, st⟩ := by
      simp only [SetRegionTint, if_neg ha, if_neg hc, if_pos hm]
    rw [e]
    refine ⟨⟨fun _ => Or.inr (Or.inr (Or.inr (Or.inr (Or.inl hm)))), fun _ => ⟨_, rfl⟩⟩, ?_⟩
    intro a h
    cases h
    exact ⟨rfl, rfl, rfl⟩
  by_cases hl : luminance < 0 ∨ luminance > 100
  · have e : SetRegionTint env st area red green blue amount luminance =
        .error ⟨.setRegionTintLuminance, st⟩ := by
      simp only [SetRegionTint, if_neg ha, if_neg hc, if_neg hm, if_pos hl]
    rw [e]
    refine ⟨⟨fun _ => Or.inr (Or.inr (Or.inr (Or.inr (Or.inr hl)))), fun _ => ⟨_, rfl⟩⟩, ?_⟩
    intro a h
    cases h
    exact ⟨rfl, rfl, rfl⟩
  rw [SetRegionTint_ok env st area red green blue amount luminance ha hc hm hl]
  refine ⟨⟨fun h => ?_, fun h => ?_⟩, ?_⟩
  · obtain ⟨a, h⟩ := h
    cases h
  · exfalso
    rcases h with h | h | h | h | h | h
    · exact ha h
    · exact hc (by omega)
    · exact hc (by omega)
    · exact hc (by omega)
    · exact hm h
    · exact hl h
  · intro a h
    cases h

theorem SetRegionTint_quit_iff_witness :
    ∃ a, SetRegionTint sampleEnv sampleState 3 10 20 30 101 50 = .error a ∧
      a.state = sampleState ∧
      a.state.regionTintLevel = sampleState.regionTintLevel ∧
      a.state.regionLightLevel = sampleState.regionLightLevel := by
  obtain ⟨a, h⟩ := (SetRegionTint_quit_iff sampleEnv sampleState 3 10 20 30 101 50).1.2
    (by decide)
  exact ⟨a, h, (SetRegionTint_quit_iff sampleEnv sampleState 3 10 20 30 101 50).2 a h⟩

/-- The calls that write light levels keep every light level in `[-100, 250]`. -/
theorem applyLightCalls_levels (env : RegionEnv) (calls : List LightCall) :
    ∀ st st' : RegionState,
      (∀ i, -100 ≤ st.regionLightLevel i ∧ st.regionLightLevel i ≤ 250) →
      applyLightCalls env calls st = .ok st' →
      ∀ i, -100 ≤ st'.regionLightLevel i ∧ st'.regionLightLevel i ≤ 250 := by
  induction calls with
  | nil =>
    intro st st' h e
    simp only [applyLightCalls, Except.ok.injEq] at e
    subst e
    exact h
  | cons c rest ih =>
    intro st st' h e
    cases c with
    | SetAreaLightLevel area brightness =>
      by_cases hv : area < 0 ∨ area > env.MAX_REGIONS
      · simp [applyLightCalls, SetAreaLightLevel, if_pos hv] at e
      · simp only [applyLightCalls, SetAreaLightLevel, if_neg hv] at e
        refine ih _ st' ?_ e
        intro i
        by_cases hi : i = area
        · subst hi
          simp only [Function.update_same]
          split_ifs <;> omega
        · simp only [Function.update_noteq hi]
          exact h i
    | SetRegionTint area red green blue amount luminance =>
      by_cases ha : area < 0 ∨ area > env.MAX_REGIONS
      · simp [applyLightCalls, SetRegionTint, if_pos ha] at e
      by_cases hc : red < 0 ∨ red > 255 ∨ green < 0 ∨ green > 255 ∨ blue < 0 ∨ blue > 255
      · simp [applyLightCalls, SetRegionTint, if_neg ha, if_pos hc] at e
      by_cases hm : (if amount = 0 then 100 else amount) < 1 ∨
          (if amount = 0 then 100 else amount) > 100
      · simp [applyLightCalls, SetRegionTint, if_neg ha, if_neg hc, if_pos hm] at e
      by_cases hl : luminance < 0 ∨ luminance > 100
      · simp [applyLightCalls, SetRegionTint, if_neg ha, if_neg hc, if_neg hm, if_pos hl] at e
      simp only [applyLightCalls,
        SetRegionTint_ok env st area red green blue amount luminance ha hc hm hl] at e
      refine ih _ st' ?_ e
      intro i
      by_cases hi : i = area
      · subst hi
        simp only [Function.update_same]
        rw [Int.tdiv_eq_ediv (by omega) (by decide)]
        omega
      · simp only [Function.update_noteq hi]
        exact h i

/-- Claim C5, refuted as stated: from the table with all light levels 0, the
successful call `SetRegionTint(3, 10, 20, 30, 0, 50)` leaves region 3 with the
light level 125, which is above 100. -/
theorem lightLevel_bound_100_fails :
    (∀ i, -100 ≤ sampleState.regionLightLevel i ∧ sampleState.regionLightLevel i ≤ 100) ∧
    ∃ st', applyLightCalls sampleEnv [.SetRegionTint 3 10 20 30 0 50] sampleState = .ok st' ∧
      st'.regionLightLevel 3 = 125 ∧
      ¬ (-100 ≤ st'.regionLightLevel 3 ∧ st'.regionLightLevel 3 ≤ 100) :=
  ⟨fun _ => by simp [sampleState], _, rfl, by decide, by decide⟩

/-- Claim C5, amended: from a region table whose light levels are all in
`[-100, 100]`, after any sequence of successful `SetAreaLightLevel` and
`SetRegionTint` calls every light level is in `[-100, 250]`. -/
theorem lightLevel_bound (env : RegionEnv) (calls : List LightCall) (st st' : RegionState)
    (h : ∀ i, -100 ≤ st.regionLightLevel i ∧ st.regionLightLevel i ≤ 100)
    (e : applyLightCalls env calls st = .ok st') :
    ∀ i, -100 ≤ st'.regionLightLevel i ∧ st'.regionLightLevel i ≤ 250 :=
  applyLightCalls_levels env calls st st' (fun i => ⟨(h i).1, by have := (h i).2; omega⟩) e

theorem lightLevel_bound_witness :
    ∃ st', applyLightCalls sampleEnv
        [.SetRegionTint 3 10 20 30 0 100, .SetAreaLightLevel 2 (-500)] sampleState = .ok st' ∧
      st'.regionLightLevel 3 = 250 ∧ st'.regionLightLevel 2 = -100 ∧
      ∀ i, -100 ≤ st'.regionLightLevel i ∧ st'.regionLightLevel i ≤ 250 :=
  ⟨_, rfl, by decide, by decide,
    lightLevel_bound sampleEnv [.SetRegionTint 3 10 20 30 0 100, .SetAreaLightLevel 2 (-500)]
      sampleState _ (fun _ => by simp [sampleState]) rfl⟩

/-! ## Point-to-region query -/

theorem GetRegionAt_coords_new (env : RegionEnv) (x y : Int)
    (hv : env.loaded_game_file_version ≥ env.kGameVersion_262)
    (hw : 1 ≤ env.regions.GetWidth) (hh : 1 ≤ env.regions.GetHeight) :
    GetRegionAt_coords env x y =
      (max 0 (min x (env.regions.GetWidth - 1)), max 0 (min y (env.regions.GetHeight - 1))) := by
  simp only [GetRegionAt_coords, if_pos hv]
  refine Prod.ext ?_ ?_
  · show (if (if x ≥ env.regions.GetWidth then env.regions.GetWidth - 1 else x) < 0 then 0
      else (if x ≥ env.regions.GetWidth then env.regions.GetWidth - 1 else x)) = _
    split_ifs <;> omega
  · show (if (if y ≥ env.regions.GetHeight then env.regions.GetHeight - 1 else y) < 0 then 0
      else (if y ≥ env.regions.GetHeight then env.regions.GetHeight - 1 else y)) = _
    split_ifs <;> omega

theorem GetRegionAt_coords_old (env : RegionEnv) (x y : Int)
    (hv : env.loaded_game_file_version < env.kGameVersion_262) :
    GetRegionAt_coords env x y = (x, y) := by
  have : ¬ env.loaded_game_file_version ≥ env.kGameVersion_262 := by omega
  simp only [GetRegionAt_coords, if_neg this]

theorem GetRegionAt_coords_inside (env : RegionEnv) (x y : Int)
    (hx : 0 ≤ x ∧ x < env.regions.GetWidth) (hy : 0 ≤ y ∧ y < env.regions.GetHeight) :
    GetRegionAt_coords env x y = (x, y) := by
  by_cases hv : env.loaded_game_file_version ≥ env.kGameVersion_262
  · rw [GetRegionAt_coords_new env x y hv (by omega) (by omega)]
    refine Prod.ext ?_ ?_
    · show max 0 (min x (env.regions.GetWidth - 1)) = x
      omega
    · show max 0 (min y (env.regions.GetHeight - 1)) = y
      omega
  · exact GetRegionAt_coords_old env x y (by omega)

/-- The three outcomes of the part of `GetRegionAt` that follows the read. -/
theorem GetRegionAt_resolve_cases (env : RegionEnv) (st : RegionState) (x y p : Int) :
    (GetRegionAt_hsthere p ≥ env.MAX_REGIONS ∧
      GetRegionAt_resolve env st x y p =
        .error ⟨.invalidRegionMaskPixel (GetRegionAt_hsthere p) x y, st⟩) ∨
    (GetRegionAt_hsthere p < env.MAX_REGIONS ∧
      st.region_enabled (GetRegionAt_hsthere p) = 0 ∧
      GetRegionAt_resolve env st x y p = .ok 0) ∨
    (GetRegionAt_hsthere p < env.MAX_REGIONS ∧
      st.region_enabled (GetRegionAt_hsthere p) ≠ 0 ∧
      GetRegionAt_resolve env st x y p = .ok (GetRegionAt_hsthere p)) := by
  by_cases h1 : GetRegionAt_hsthere p ≥ env.MAX_REGIONS
  · exact Or.inl ⟨h1, by simp only [GetRegionAt_resolve, if_pos h1]⟩
  · by_cases h2 : st.region_enabled (GetRegionAt_hsthere p) = 0
    · exact Or.inr (Or.inl ⟨by omega, h2, by simp only [GetRegionAt_resolve, if_neg h1, if_pos h2]⟩)
    · exact Or.inr (Or.inr ⟨by omega, h2,
        by simp only [GetRegionAt_resolve, if_neg h1, if_neg h2]⟩)

theorem GetRegionAt_hsthere_nonneg (p : Int) : 0 ≤ GetRegionAt_hsthere p := by
  unfold GetRegionAt_hsthere
  split_ifs <;> omega

/-- Claim C6: when `GetRegionAt` returns `r`, then `0 <= r < MAX_REGIONS`, and
`r` is 0 or an enabled region; with `p` the mask pixel that was read, `r = p`
when `p >= 0` and region `p` is enabled, and `r = 0` when region `p` is
disabled or `p` is negative. -/
theorem GetRegionAt_returns (env : RegionEnv) (st : RegionState) (x y r : Int)
    (h : GetRegionAt env st x y = .ok r) :
    0 ≤ r ∧ r < env.MAX_REGIONS ∧
    (r = 0 ∨ st.region_enabled r ≠ 0) ∧
    (0 ≤ env.regions.GetPixel (GetRegionAt_coords env x y).1 (GetRegionAt_coords env x y).2 →
      st.region_enabled
        (env.regions.GetPixel (GetRegionAt_coords env x y).1 (GetRegionAt_coords env x y).2) ≠ 0 →
      r = env.regions.GetPixel (GetRegionAt_coords env x y).1 (GetRegionAt_coords env x y).2) ∧
    (st.region_enabled
        (env.regions.GetPixel (GetRegionAt_coords env x y).1 (GetRegionAt_coords env x y).2) = 0 ∨
      env.regions.GetPixel (GetRegionAt_coords env x y).1 (GetRegionAt_coords env x y).2 < 0 →
      r = 0) := by
  unfold GetRegionAt at h
  simp only at h
  generalize env.regions.GetPixel (GetRegionAt_coords env x y).1 (GetRegionAt_coords env x y).2
    = p at h ⊢
  have hn := GetRegionAt_hsthere_nonneg p
  have hp : 0 ≤ p → GetRegionAt_hsthere p = p := by
    intro h0
    unfold GetRegionAt_hsthere
    rw [if_neg (by omega)]
  have hq : p < 0 → GetRegionAt_hsthere p = 0 := by
    intro h0
    unfold GetRegionAt_hsthere
    rw [if_pos h0]
  rcases GetRegionAt_resolve_cases env st (GetRegionAt_coords env x y).1
    (GetRegionAt_coords env x y).2 p with ⟨_, e⟩ | ⟨hlt, hen, e⟩ | ⟨hlt, hen, e⟩
  · rw [e] at h
    cases h
  · rw [e] at h
    cases h
    refine ⟨le_refl 0, by omega, Or.inl rfl, ?_, fun _ => rfl⟩
    intro h0 h1
    rw [hp h0] at hen
    exact absurd hen h1
  · rw [e] at h
    cases h
    refine ⟨hn, hlt, Or.inr hen, fun h0 _ => hp h0, ?_⟩
    rintro (h0 | h0)
    · by_cases hneg : p < 0
      · exact hq hneg
      · rw [hp (by omega)] at hen
        exact absurd h0 hen
    · exact hq h0

theorem GetRegionAt_returns_witness :
    GetRegionAt sampleEnv sampleState 5 10 = .ok 3 ∧
    (0 : Int) ≤ 3 ∧ (3 : Int) < sampleEnv.MAX_REGIONS ∧
    ((3 : Int) = 0 ∨ sampleState.region_enabled 3 ≠ 0) :=
  ⟨rfl, (GetRegionAt_returns sampleEnv sampleState 5 10 3 rfl).1,
    (GetRegionAt_returns sampleEnv sampleState 5 10 3 rfl).2.1,
    (GetRegionAt_returns sampleEnv sampleState 5 10 3 rfl).2.2.1⟩

/-- Claim C7: for a game of version 2.6.2 or later and a mask of width
`w >= 1` and height `h >= 1`, `GetRegionAt(x, y)` reads the mask at
`(clamp(x, 0, w-1), clamp(y, 0, h-1))`, a point inside the mask, and at no
other point: its result is the same for every mask that has this pixel there;
for an older game it reads the mask at `(x, y)`. -/
theorem GetRegionAt_reads (env : RegionEnv) (st : RegionState) (x y : Int) :
    (env.loaded_game_file_version ≥ env.kGameVersion_262 →
      1 ≤ env.regions.GetWidth → 1 ≤ env.regions.GetHeight →
      GetRegionAt_coords env x y =
        (max 0 (min x (env.regions.GetWidth - 1)), max 0 (min y (env.regions.GetHeight - 1))) ∧
      GetRegionAt env st x y =
        GetRegionAt_resolve env st
          (max 0 (min x (env.regions.GetWidth - 1))) (max 0 (min y (env.regions.GetHeight - 1)))
          (env.regions.GetPixel (max 0 (min x (env.regions.GetWidth - 1)))
            (max 0 (min y (env.regions.GetHeight - 1)))) ∧
      (0 ≤ max 0 (min x (env.regions.GetWidth - 1)) ∧
        max 0 (min x (env.regions.GetWidth - 1)) < env.regions.GetWidth ∧
        0 ≤ max 0 (min y (env.regions.GetHeight - 1)) ∧
        max 0 (min y (env.regions.GetHeight - 1)) < env.regions.GetHeight) ∧
      ∀ pix : Int → Int → Int,
        pix (max 0 (min x (env.regions.GetWidth - 1)))
            (max 0 (min y (env.regions.GetHeight - 1))) =
          env.regions.GetPixel (max 0 (min x (env.regions.GetWidth - 1)))
            (max 0 (min y (env.regions.GetHeight - 1))) →
        GetRegionAt { env with regions := { env.regions with GetPixel := pix } } st x y =
          GetRegionAt env st x y) ∧
    (env.loaded_game_file_version < env.kGameVersion_262 →
      GetRegionAt_coords env x y = (x, y) ∧
      GetRegionAt env st x y = GetRegionAt_resolve env st x y (env.regions.GetPixel x y) ∧
      ∀ pix : Int → Int → Int, pix x y = env.regions.GetPixel x y →
        GetRegionAt { env with regions := { env.regions with GetPixel := pix } } st x y =
          GetRegionAt env st x y) := by
  constructor
  · intro hv hw hh
    have hc := GetRegionAt_coords_new env x y hv hw hh
    refine ⟨hc, ?_, by omega, ?_⟩
    · simp only [GetRegionAt, hc]
    · intro pix hpix
      have hc2 := GetRegionAt_coords_new
        { env with regions := { env.regions with GetPixel := pix } } x y hv hw hh
      simp only [GetRegionAt, hc, hc2, hpix]
      rfl
  · intro hv
    have hc := GetRegionAt_coords_old env x y hv
    refine ⟨hc, ?_, ?_⟩
    · simp only [GetRegionAt, hc]
    · intro pix hpix
      have hc2 := GetRegionAt_coords_old
        { env with regions := { env.regions with GetPixel := pix } } x y hv
      simp only [GetRegionAt, hc, hc2, hpix]
      rfl

theorem GetRegionAt_reads_witness :
    (GetRegionAt_coords sampleEnv 400 (-7) = (max 0 (min 400 (320 - 1)), max 0 (min (-7) (200 - 1))) ∧
      GetRegionAt_coords sampleEnv 400 (-7) = (319, 0)) ∧
    (GetRegionAt_coords { sampleEnv with loaded_game_file_version := 10 } 400 (-7) = (400, -7) ∧
      GetRegionAt { sampleEnv with loaded_game_file_version := 10 } sampleState 400 (-7) =
        GetRegionAt_resolve { sampleEnv with loaded_game_file_version := 10 } sampleState
          400 (-7) (-1)) :=
  ⟨⟨((GetRegionAt_reads sampleEnv sampleState 400 (-7)).1
      (by decide) (by decide) (by decide)).1, by decide⟩,
    ((GetRegionAt_reads { sampleEnv with loaded_game_file_version := 10 } sampleState
      400 (-7)).2 (by decide)).1,
    ((GetRegionAt_reads { sampleEnv with loaded_game_file_version := 10 } sampleState
      400 (-7)).2 (by decide)).2.1⟩

/-- Claim C8: `GetRegionAt` ends in `quit`, with the message about an invalid
pixel of the region mask, exactly when the index resolved from the pixel is
`>= MAX_REGIONS`, in particular when it exceeds `MAX_REGIONS`; with
`MAX_REGIONS > 0` this is exactly when the pixel value itself is
`>= MAX_REGIONS`.  When it returns, the index used on the enable table is in
`[0, MAX_REGIONS)`, and the entries of the table outside this range have no
influence on the result. -/
theorem GetRegionAt_quit_iff (env : RegionEnv) (st : RegionState) (x y : Int) :
    ((∃ a, GetRegionAt env st x y = .error a) ↔
      GetRegionAt_hsthere (env.regions.GetPixel (GetRegionAt_coords env x y).1
        (GetRegionAt_coords env x y).2) ≥ env.MAX_REGIONS) ∧
    (GetRegionAt_hsthere (env.regions.GetPixel (GetRegionAt_coords env x y).1
        (GetRegionAt_coords env x y).2) > env.MAX_REGIONS →
      ∃ a, GetRegionAt env st x y = .error a) ∧
    (0 < env.MAX_REGIONS →
      ((∃ a, GetRegionAt env st x y = .error a) ↔
        env.regions.GetPixel (GetRegionAt_coords env x y).1 (GetRegionAt_coords env x y).2
          ≥ env.MAX_REGIONS)) ∧
    (∀ a, GetRegionAt env st x y = .error a →
      a.state = st ∧
      a.msg = .invalidRegionMaskPixel
        (GetRegionAt_hsthere (env.regions.GetPixel (GetRegionAt_coords env x y).1
          (GetRegionAt_coords env x y).2))
        (GetRegionAt_coords env x y).1 (GetRegionAt_coords env x y).2) ∧
    (∀ r, GetRegionAt env st x y = .ok r →
      0 ≤ GetRegionAt_hsthere (env.regions.GetPixel (GetRegionAt_coords env x y).1
        (GetRegionAt_coords env x y).2) ∧
      GetRegionAt_hsthere (env.regions.GetPixel (GetRegionAt_coords env x y).1
        (GetRegionAt_coords env x y).2) < env.MAX_REGIONS) ∧
    (∀ enabled : Int → Int,
      (∀ i : Int, 0 ≤ i → i < env.MAX_REGIONS → enabled i = st.region_enabled i) →
      (GetRegionAt env { st with region_enabled := enabled } x y).toOption =
        (GetRegionAt env st x y).toOption) := by
  unfold GetRegionAt
  simp only
  generalize env.regions.GetPixel (GetRegionAt_coords env x y).1 (GetRegionAt_coords env x y).2
    = p
  generalize (GetRegionAt_coords env x y).1 = cx
  generalize (GetRegionAt_coords env x y).2 = cy
  have hn := GetRegionAt_hsthere_nonneg p
  have hiff : (∃ a, GetRegionAt_resolve env st cx cy p = .error a) ↔
      GetRegionAt_hsthere p ≥ env.MAX_REGIONS := by
    rcases GetRegionAt_resolve_cases env st cx cy p with ⟨h1, e⟩ | ⟨h1, _, e⟩ | ⟨h1, _, e⟩
    · rw [e]
      exact ⟨fun _ => h1, fun _ => ⟨_, rfl⟩⟩
    · rw [e]
      exact ⟨fun ⟨a, h⟩ => (by cases h), fun h => (by omega)⟩
    · rw [e]
      exact ⟨fun ⟨a, h⟩ => (by cases h), fun h => (by omega)⟩
  refine ⟨hiff, fun h => hiff.2 (by omega), ?_, ?_, ?_, ?_⟩
  · intro hM
    rw [hiff]
    unfold GetRegionAt_hsthere
    split_ifs <;> omega
  · intro a h
    rcases GetRegionAt_resolve_cases env st cx cy p with ⟨_, e⟩ | ⟨_, _, e⟩ | ⟨_, _, e⟩
    · rw [e] at h
      cases h
      exact ⟨rfl, rfl⟩
    · rw [e] at h
      cases h
    · rw [e] at h
      cases h
  · intro r h
    refine ⟨hn, ?_⟩
    by_contra hge
    obtain ⟨a, e⟩ := hiff.2 (by omega)
    rw [e] at h
    cases h
  · intro enabled hag
    by_cases h1 : GetRegionAt_hsthere p ≥ env.MAX_REGIONS
    · simp only [GetRegionAt_resolve, if_pos h1]
      rfl
    · have he := hag (GetRegionAt_hsthere p) hn (by omega)
      simp only [GetRegionAt_resolve, if_neg h1, he]

theorem GetRegionAt_quit_iff_witness :
    (0 : Nat) < sampleEnv.MAX_REGIONS ∧
    (20 : Int) ≥ sampleEnv.MAX_REGIONS ∧
    ∃ a, GetRegionAt sampleEnv sampleState 7 10 = .error a ∧
      a.state = sampleState ∧ a.msg = .invalidRegionMaskPixel 20 7 10 := by
  obtain ⟨a, h⟩ := ((GetRegionAt_quit_iff sampleEnv sampleState 7 10).2.2.1 (by decide)).2
    (by decide)
  exact ⟨by decide, by decide, a, h,
    (GetRegionAt_quit_iff sampleEnv sampleState 7 10).2.2.2.1 a h⟩

/-! ## Enabling and disabling regions -/

theorem EnableRegion_ok (env : RegionEnv) (st : RegionState) (r : Int)
    (h0 : 0 ≤ r) (h1 : r < env.MAX_REGIONS) :
    EnableRegion env st r =
      .ok { st with region_enabled := Function.update st.region_enabled r 1 } := by
  have hv : ¬ (r < 0 ∨ r ≥ env.MAX_REGIONS) := by omega
  simp only [EnableRegion, if_neg hv]

theorem DisableRegion_ok (env : RegionEnv) (st : RegionState) (r : Int)
    (h0 : 0 ≤ r) (h1 : r < env.MAX_REGIONS) :
    DisableRegion env st r =
      .ok { st with region_enabled := Function.update st.region_enabled r 0 } := by
  have hv : ¬ (r < 0 ∨ r ≥ env.MAX_REGIONS) := by omega
  simp only [DisableRegion, if_neg hv]

/-- The result of `GetRegionAt` at a point inside the mask whose pixel is a
valid region index. -/
theorem GetRegionAt_inside (env : RegionEnv) (st : RegionState) (x y r : Int)
    (hx : 0 ≤ x ∧ x < env.regions.GetWidth) (hy : 0 ≤ y ∧ y < env.regions.GetHeight)
    (hp : env.regions.GetPixel x y = r) (h0 : 0 ≤ r) (h1 : r < env.MAX_REGIONS) :
    GetRegionAt env st x y = if st.region_enabled r = 0 then .ok 0 else .ok r := by
  have hs : GetRegionAt_hsthere r = r := by
    unfold GetRegionAt_hsthere
    rw [if_neg (by omega)]
  have hlt : ¬ (r ≥ env.MAX_REGIONS) := by omega
  simp only [GetRegionAt, GetRegionAt_coords_inside env x y hx hy, hp, GetRegionAt_resolve, hs,
    if_neg hlt]

/-- Claim C9: for `0 <= r < MAX_REGIONS`, `EnableRegion(r)` returns and writes
1 to the enabled flag of `r` and nothing else, `DisableRegion(r)` returns and
writes 0 to that flag and nothing else; so at a point inside the mask whose
pixel is `r > 0`, `GetRegionAt` returns 0 after `DisableRegion(r)` and `r`
after `EnableRegion(r)`.  Each of the two is idempotent, and each overrides the
other: enabling after disabling gives the state of enabling alone (the state
before the two calls when the flag was 1), and disabling after enabling gives
the state of disabling alone (the state before when the flag was 0). -/
theorem EnableRegion_DisableRegion_frame (env : RegionEnv) (st : RegionState) (r : Int)
    (h0 : 0 ≤ r) (h1 : r < env.MAX_REGIONS) :
    ∃ en dis : RegionState,
      EnableRegion env st r = .ok en ∧ DisableRegion env st r = .ok dis ∧
      (en.region_enabled r = 1 ∧ dis.region_enabled r = 0) ∧
      (∀ i : Int, i ≠ r →
        en.region_enabled i = st.region_enabled i ∧
        dis.region_enabled i = st.region_enabled i) ∧
      (en.regionTintLevel = st.regionTintLevel ∧ en.regionLightLevel = st.regionLightLevel ∧
        en.evblockbasename = st.evblockbasename ∧ en.evblocknum = st.evblocknum ∧
        en.dispatched = st.dispatched) ∧
      (dis.regionTintLevel = st.regionTintLevel ∧ dis.regionLightLevel = st.regionLightLevel ∧
        dis.evblockbasename = st.evblockbasename ∧ dis.evblocknum = st.evblocknum ∧
        dis.dispatched = st.dispatched) ∧
      (∀ x y : Int, 0 < r → 0 ≤ x → x < env.regions.GetWidth →
        0 ≤ y → y < env.regions.GetHeight → env.regions.GetPixel x y = r →
        GetRegionAt env dis x y = .ok 0 ∧ GetRegionAt env en x y = .ok r) ∧
      (EnableRegion env en r = .ok en ∧ DisableRegion env dis r = .ok dis) ∧
      (EnableRegion env dis r = .ok en ∧ DisableRegion env en r = .ok dis) ∧
      (st.region_enabled r = 1 → EnableRegion env dis r = .ok st) ∧
      (st.region_enabled r = 0 → DisableRegion env en r = .ok st) := by
  refine ⟨_, _, EnableRegion_ok env st r h0 h1, DisableRegion_ok env st r h0 h1, ?_, ?_,
    ⟨rfl, rfl, rfl, rfl, rfl⟩, ⟨rfl, rfl, rfl, rfl, rfl⟩, ?_, ?_, ?_, ?_, ?_⟩
  · simp
  · intro i hi
    simp [Function.update_noteq hi]
  · intro x y hr hx0 hx1 hy0 hy1 hp
    constructor
    · rw [GetRegionAt_inside env _ x y r ⟨hx0, hx1⟩ ⟨hy0, hy1⟩ hp h0 h1]
      simp
    · rw [GetRegionAt_inside env _ x y r ⟨hx0, hx1⟩ ⟨hy0, hy1⟩ hp h0 h1]
      simp
  · constructor
    · rw [EnableRegion_ok env _ r h0 h1]
      simp
    · rw [DisableRegion_ok env _ r h0 h1]
      simp
  · constructor
    · rw [EnableRegion_ok env _ r h0 h1]
      simp
    · rw [DisableRegion_ok env _ r h0 h1]
      simp
  · intro h
    rw [EnableRegion_ok env _ r h0 h1]
    simp only [Function.update_idem]
    rw [← h, Function.update_eq_self]
  · intro h
    rw [DisableRegion_ok env _ r h0 h1]
    simp only [Function.update_idem]
    rw [← h, Function.update_eq_self]

theorem EnableRegion_DisableRegion_frame_witness :
    ∃ en dis : RegionState,
      EnableRegion sampleEnv sampleState 3 = .ok en ∧
      DisableRegion sampleEnv sampleState 3 = .ok dis ∧
      GetRegionAt sampleEnv dis 5 10 = .ok 0 ∧ GetRegionAt sampleEnv en 5 10 = .ok 3 ∧
      EnableRegion sampleEnv dis 3 = .ok sampleState := by
  obtain ⟨en, dis, he, hd, _, _, _, _, hget, _, _, hundo, _⟩ :=
    EnableRegion_DisableRegion_frame sampleEnv sampleState 3 (by decide) (by decide)
  exact ⟨en, dis, he, hd,
    (hget 5 10 (by decide) (by decide) (by decide) (by decide) (by decide) (by decide)).1,
    (hget 5 10 (by decide) (by decide) (by decide) (by decide) (by decide) (by decide)).2,
    hundo (by decide)⟩

/-! ## Region interactions -/

theorem RunRegionInteraction_invalid_region (env : RegionEnv) (depth : Nat) (st : RegionState)
    (regnum mood : Int) (h : regnum < 0 ∨ regnum ≥ env.MAX_REGIONS) :
    RunRegionInteraction env depth st regnum mood =
      some (.error ⟨.runRegionInteractionInvalidRegion, st⟩) := by
  cases depth <;> simp only [RunRegionInteraction, if_pos h]

theorem RunRegionInteraction_invalid_event (env : RegionEnv) (depth : Nat) (st : RegionState)
    (regnum mood : Int) (hr : ¬ (regnum < 0 ∨ regnum ≥ env.MAX_REGIONS))
    (h : mood < 0 ∨ mood > 2) :
    RunRegionInteraction env depth st regnum mood =
      some (.error ⟨.runRegionInteractionInvalidEvent, st⟩) := by
  cases depth <;> simp only [RunRegionInteraction, if_neg hr, if_pos h]

theorem RunRegionInteraction_zero (env : RegionEnv) (st : RegionState)
    (regnum mood : Int) (hr : ¬ (regnum < 0 ∨ regnum ≥ env.MAX_REGIONS))
    (hm : ¬ (mood < 0 ∨ mood > 2)) :
    RunRegionInteraction env 0 st regnum mood = none := by
  simp only [RunRegionInteraction, if_neg hr, if_neg hm]

/-- A call with valid arguments: the context is rebound, the code of the
region is dispatched, and the context found at entry is put back. -/
theorem RunRegionInteraction_succ (env : RegionEnv) (depth : Nat) (st : RegionState)
    (regnum mood : Int) (hr : ¬ (regnum < 0 ∨ regnum ≥ env.MAX_REGIONS))
    (hm : ¬ (mood < 0 ∨ mood > 2)) :
    RunRegionInteraction env (depth + 1) st regnum mood =
      restoreContext st.evblockbasename st.evblocknum
        (runScript env (RunRegionInteraction env depth) (dispatchedCode env regnum mood)
          { st with
            evblockbasename := "region%d"
            evblocknum := regnum
            dispatched := st.dispatched ++ [regionDispatch env regnum mood] }) := by
  simp only [RunRegionInteraction, if_neg hr, if_neg hm, dispatchedCode, regionDispatch]
  cases env.regionScripts with
  | none =>
    simp only [Option.isSome]
    cases runScript env (RunRegionInteraction env depth) (env.intrRegion regnum mood) _ with
    | none => rfl
    | some res => cases res <;> rfl
  | some regionScripts =>
    simp only [Option.isSome]
    cases runScript env (RunRegionInteraction env depth) (regionScripts regnum mood) _ with
    | none => rfl
    | some res => cases res <;> rfl

theorem SetAreaLightLevel_dispatched (env : RegionEnv) (st : RegionState) (area b : Int) :
    (finalState (SetAreaLightLevel env st area b)).dispatched = st.dispatched := by
  unfold SetAreaLightLevel
  split_ifs <;> rfl

theorem SetRegionTint_dispatched (env : RegionEnv) (st : RegionState)
    (area red green blue amount luminance : Int) :
    (finalState (SetRegionTint env st area red green blue amount luminance)).dispatched =
      st.dispatched := by
  simp only [SetRegionTint]
  split_ifs <;> rfl

theorem DisableRegion_dispatched (env : RegionEnv) (st : RegionState) (hsnum : Int) :
    (finalState (DisableRegion env st hsnum)).dispatched = st.dispatched := by
  unfold DisableRegion
  split_ifs <;> rfl

theorem EnableRegion_dispatched (env : RegionEnv) (st : RegionState) (hsnum : Int) :
    (finalState (EnableRegion env st hsnum)).dispatched = st.dispatched := by
  unfold EnableRegion
  split_ifs <;> rfl

/-- One step of `runScript` made by a call that records no dispatch. -/
theorem runScript_step_dispatched (st : RegionState) (op : Except Abort RegionState)
    (k : RegionState → Option (Except Abort RegionState))
    (res : Except Abort RegionState)
    (h : (match op with
      | .ok s => k s
      | .error a => some (.error a)) = some res)
    (hop : (finalState op).dispatched = st.dispatched)
    (hk : ∀ s res, k s = some res → ∃ new,
      (finalState res).dispatched = s.dispatched ++ new ∧ ∀ d ∈ new, d.boundToRegion) :
    ∃ new, (finalState res).dispatched = st.dispatched ++ new ∧ ∀ d ∈ new, d.boundToRegion := by
  cases op with
  | error a =>
    simp only [Option.some.injEq] at h
    subst h
    exact ⟨[], by simpa using hop, by simp⟩
  | ok s =>
    obtain ⟨new, h1, h2⟩ := hk s res h
    exact ⟨new, by rw [h1]; exact congrArg (· ++ new) hop, h2⟩

/-- The code of an interaction only appends dispatches to the record, each made
with the context of its region, when this is so for the nested calls. -/
theorem runScript_dispatched (env : RegionEnv)
    (rri : RegionState → Int → Int → Option (Except Abort RegionState))
    (hrri : ∀ st r m res, rri st r m = some res → ∃ new,
      (finalState res).dispatched = st.dispatched ++ new ∧ ∀ d ∈ new, d.boundToRegion) :
    ∀ (calls : List ScriptCall) (st : RegionState) (res : Except Abort RegionState),
      runScript env rri calls st = some res → ∃ new,
        (finalState res).dispatched = st.dispatched ++ new ∧ ∀ d ∈ new, d.boundToRegion := by
  intro calls
  induction calls with
  | nil =>
    intro st res h
    simp only [runScript, Option.some.injEq] at h
    subst h
    exact ⟨[], by simp [finalState], by simp⟩
  | cons c rest ih =>
    intro st res h
    cases c with
    | SetAreaLightLevel area b =>
      exact runScript_step_dispatched st _ (runScript env rri rest) res
        (by simpa only [runScript] using h) (SetAreaLightLevel_dispatched env st area b) ih
    | SetRegionTint area red green blue amount luminance =>
      exact runScript_step_dispatched st _ (runScript env rri rest) res
        (by simpa only [runScript] using h)
        (SetRegionTint_dispatched env st area red green blue amount luminance) ih
    | DisableRegion hsnum =>
      exact runScript_step_dispatched st _ (runScript env rri rest) res
        (by simpa only [runScript] using h) (DisableRegion_dispatched env st hsnum) ih
    | EnableRegion hsnum =>
      exact runScript_step_dispatched st _ (runScript env rri rest) res
        (by simpa only [runScript] using h) (EnableRegion_dispatched env st hsnum) ih
    | RunRegionInteraction regnum mood =>
      simp only [runScript] at h
      cases hr : rri st regnum mood with
      | none => rw [hr] at h; cases h
      | some r1 =>
        obtain ⟨new1, e1, g1⟩ := hrri st regnum mood r1 hr
        rw [hr] at h
        cases r1 with
        | error a =>
          simp only [Option.some.injEq] at h
          subst h
          exact ⟨new1, e1, g1⟩
        | ok s1 =>
          obtain ⟨new2, e2, g2⟩ := ih s1 res h
          refine ⟨new1 ++ new2, ?_, ?_⟩
          · rw [e2]
            simp only [finalState] at e1
            rw [e1, List.append_assoc]
          · intro d hd
            rcases List.mem_append.1 hd with hd | hd
            · exact g1 d hd
            · exact g2 d hd
    | Rebind basename blocknum =>
      simp only [runScript] at h
      exact ih { st with evblockbasename := basename, evblocknum := blocknum } res h

theorem restoreContext_dispatched (b : String) (n : Int) (run : Option (Except Abort RegionState))
    (res : Except Abort RegionState) (h : restoreContext b n run = some res) :
    ∃ r0, run = some r0 ∧ (finalState res).dispatched = (finalState r0).dispatched := by
  cases run with
  | none => cases h
  | some r0 =>
    cases r0 with
    | ok s =>
      simp only [restoreContext, Option.some.injEq] at h
      subst h
      exact ⟨_, rfl, rfl⟩
    | error a =>
      simp only [restoreContext, Option.some.injEq] at h
      subst h
      exact ⟨_, rfl, rfl⟩

/-- A call of `RunRegionInteraction` only appends dispatches to the record,
each made with the context of its region; with valid arguments the first one
appended is its own. -/
theorem RunRegionInteraction_dispatched (env : RegionEnv) (depth : Nat) :
    ∀ (st : RegionState) (regnum mood : Int) (res : Except Abort RegionState),
      RunRegionInteraction env depth st regnum mood = some res →
      ∃ new, (finalState res).dispatched = st.dispatched ++ new ∧
        (∀ d ∈ new, d.boundToRegion) ∧
        (¬ (regnum < 0 ∨ regnum ≥ env.MAX_REGIONS) → ¬ (mood < 0 ∨ mood > 2) →
          ∃ rest, new = regionDispatch env regnum mood :: rest) := by
  induction depth with
  | zero =>
    intro st regnum mood res h
    by_cases hr : regnum < 0 ∨ regnum ≥ env.MAX_REGIONS
    · rw [RunRegionInteraction_invalid_region env 0 st regnum mood hr] at h
      cases h
      exact ⟨[], by simp [finalState], by simp, fun h1 => absurd hr h1⟩
    by_cases hm : mood < 0 ∨ mood > 2
    · rw [RunRegionInteraction_invalid_event env 0 st regnum mood hr hm] at h
      cases h
      exact ⟨[], by simp [finalState], by simp, fun _ h2 => absurd hm h2⟩
    rw [RunRegionInteraction_zero env st regnum mood hr hm] at h
    cases h
  | succ depth ih =>
    intro st regnum mood res h
    by_cases hr : regnum < 0 ∨ regnum ≥ env.MAX_REGIONS
    · rw [RunRegionInteraction_invalid_region env _ st regnum mood hr] at h
      cases h
      exact ⟨[], by simp [finalState], by simp, fun h1 => absurd hr h1⟩
    by_cases hm : mood < 0 ∨ mood > 2
    · rw [RunRegionInteraction_invalid_event env _ st regnum mood hr hm] at h
      cases h
      exact ⟨[], by simp [finalState], by simp, fun _ h2 => absurd hm h2⟩
    rw [RunRegionInteraction_succ env depth st regnum mood hr hm] at h
    obtain ⟨r0, hrun, e0⟩ := restoreContext_dispatched _ _ _ res h
    obtain ⟨new, e1, g1⟩ := runScript_dispatched env (RunRegionInteraction env depth)
      (fun st r m res h => by
        obtain ⟨new, e, g, _⟩ := ih st r m res h
        exact ⟨new, e, g⟩) _ _ r0 hrun
    refine ⟨regionDispatch env regnum mood :: new, ?_, ?_, fun _ _ => ⟨new, rfl⟩⟩
    · rw [e0, e1]
      simp
    · intro d hd
      rcases List.mem_cons.1 hd with hd | hd
      · subst hd
        exact ⟨rfl, rfl⟩
      · exact g1 d hd

/-- The code of an interaction gives the same result when the nested calls
are given a larger budget. -/
theorem runScript_mono (env : RegionEnv)
    (rri rri' : RegionState → Int → Int → Option (Except Abort RegionState))
    (hm : ∀ st r m res, rri st r m = some res → rri' st r m = some res) :
    ∀ (calls : List ScriptCall) (st : RegionState) (res : Except Abort RegionState),
      runScript env rri calls st = some res → runScript env rri' calls st = some res := by
  intro calls
  induction calls with
  | nil =>
    intro st res h
    simpa only [runScript] using h
  | cons c rest ih =>
    intro st res h
    cases c with
    | SetAreaLightLevel area b =>
      simp only [runScript] at h ⊢
      cases hop : SetAreaLightLevel env st area b with
      | error a => rw [hop] at h; exact h
      | ok s => rw [hop] at h; exact ih s res h
    | SetRegionTint area red green blue amount luminance =>
      simp only [runScript] at h ⊢
      cases hop : SetRegionTint env st area red green blue amount luminance with
      | error a => rw [hop] at h; exact h
      | ok s => rw [hop] at h; exact ih s res h
    | DisableRegion hsnum =>
      simp only [runScript] at h ⊢
      cases hop : DisableRegion env st hsnum with
      | error a => rw [hop] at h; exact h
      | ok s => rw [hop] at h; exact ih s res h
    | EnableRegion hsnum =>
      simp only [runScript] at h ⊢
      cases hop : EnableRegion env st hsnum with
      | error a => rw [hop] at h; exact h
      | ok s => rw [hop] at h; exact ih s res h
    | RunRegionInteraction regnum mood =>
      simp only [runScript] at h ⊢
      cases hr : rri st regnum mood with
      | none => rw [hr] at h; cases h
      | some r1 =>
        rw [hr] at h
        rw [hm st regnum mood r1 hr]
        cases r1 with
        | error a => exact h
        | ok s => exact ih s res h
    | Rebind basename blocknum =>
      simp only [runScript] at h ⊢
      exact ih { st with evblockbasename := basename, evblocknum := blocknum } res h

theorem RunRegionInteraction_mono_succ (env : RegionEnv) (depth : Nat) :
    ∀ (st : RegionState) (regnum mood : Int) (res : Except Abort RegionState),
      RunRegionInteraction env depth st regnum mood = some res →
      RunRegionInteraction env (depth + 1) st regnum mood = some res := by
  induction depth with
  | zero =>
    intro st regnum mood res h
    by_cases hr : regnum < 0 ∨ regnum ≥ env.MAX_REGIONS
    · rw [RunRegionInteraction_invalid_region env _ st regnum mood hr] at h ⊢
      exact h
    by_cases hm : mood < 0 ∨ mood > 2
    · rw [RunRegionInteraction_invalid_event env _ st regnum mood hr hm] at h ⊢
      exact h
    rw [RunRegionInteraction_zero env st regnum mood hr hm] at h
    cases h
  | succ depth ih =>
    intro st regnum mood res h
    by_cases hr : regnum < 0 ∨ regnum ≥ env.MAX_REGIONS
    · rw [RunRegionInteraction_invalid_region env _ st regnum mood hr] at h ⊢
      exact h
    by_cases hm : mood < 0 ∨ mood > 2
    · rw [RunRegionInteraction_invalid_event env _ st regnum mood hr hm] at h ⊢
      exact h
    rw [RunRegionInteraction_succ env _ st regnum mood hr hm] at h ⊢
    obtain ⟨r0, hrun, _⟩ := restoreContext_dispatched _ _ _ res h
    rw [hrun] at h
    rw [runScript_mono env _ _ ih _ _ r0 hrun]
    exact h

/-- A result of `RunRegionInteraction` does not depend on the budget: every
larger budget gives the same one. -/
theorem RunRegionInteraction_mono (env : RegionEnv) (depth deeper : Nat) (hd : depth ≤ deeper)
    (st : RegionState) (regnum mood : Int) (res : Except Abort RegionState)
    (h : RunRegionInteraction env depth st regnum mood = some res) :
    RunRegionInteraction env deeper st regnum mood = some res := by
  induction deeper, hd using Nat.le_induction with
  | base => exact h
  | succ n _ ih => exact RunRegionInteraction_mono_succ env n st regnum mood res ih

/-- Claim C10: for a valid region and event, `RunRegionInteraction` dispatches
the code of the region from a state in which `evblockbasename` and
`evblocknum` are `"region%d"` and `regnum`; and when it returns, the two have
the values they had at entry, its own dispatch is recorded with `"region%d"`
and `regnum`, and so is, with its own region, every dispatch of a call nested
in it to any depth. -/
theorem RunRegionInteraction_context (env : RegionEnv) (depth : Nat) (st : RegionState)
    (regnum mood : Int) (hr0 : 0 ≤ regnum) (hr1 : regnum < env.MAX_REGIONS)
    (hm0 : 0 ≤ mood) (hm1 : mood ≤ 2) :
    RunRegionInteraction env (depth + 1) st regnum mood =
      restoreContext st.evblockbasename st.evblocknum
        (runScript env (RunRegionInteraction env depth) (dispatchedCode env regnum mood)
          { st with
            evblockbasename := "region%d"
            evblocknum := regnum
            dispatched := st.dispatched ++
              [Dispatch.mk env.regionScripts.isSome regnum mood "region%d" regnum] }) ∧
    ∀ st', RunRegionInteraction env depth st regnum mood = some (.ok st') →
      (st'.evblockbasename = st.evblockbasename ∧ st'.evblocknum = st.evblocknum) ∧
      (∃ rest, st'.dispatched = st.dispatched ++
          Dispatch.mk env.regionScripts.isSome regnum mood "region%d" regnum :: rest ∧
        ∀ d ∈ rest, d.evblockbasename = "region%d" ∧ d.evblocknum = d.regnum) ∧
      ∀ deeper, depth ≤ deeper →
        RunRegionInteraction env deeper st regnum mood = some (.ok st') := by
  have hr : ¬ (regnum < 0 ∨ regnum ≥ env.MAX_REGIONS) := by omega
  have hm : ¬ (mood < 0 ∨ mood > 2) := by omega
  refine ⟨RunRegionInteraction_succ env depth st regnum mood hr hm, ?_⟩
  intro st' h
  refine ⟨?_, ?_, fun deeper hd => RunRegionInteraction_mono env depth deeper hd st regnum mood _ h⟩
  · cases depth with
    | zero =>
      rw [RunRegionInteraction_zero env st regnum mood hr hm] at h
      cases h
    | succ n =>
      rw [RunRegionInteraction_succ env n st regnum mood hr hm] at h
      cases hrun : runScript env (RunRegionInteraction env n) (dispatchedCode env regnum mood)
          { st with
            evblockbasename := "region%d"
            evblocknum := regnum
            dispatched := st.dispatched ++ [regionDispatch env regnum mood] } with
      | none => rw [hrun] at h; cases h
      | some r0 =>
        rw [hrun] at h
        cases r0 with
        | error a => cases h
        | ok s =>
          simp only [restoreContext, Option.some.injEq, Except.ok.injEq] at h
          subst h
          exact ⟨rfl, rfl⟩
  · obtain ⟨new, e, g, hfirst⟩ := RunRegionInteraction_dispatched env depth st regnum mood _ h
    obtain ⟨rest, rfl⟩ := hfirst hr hm
    exact ⟨rest, e, fun d hd => g d (List.mem_cons_of_mem _ hd)⟩

theorem RunRegionInteraction_context_witness :
    ∃ st', RunRegionInteraction sampleEnv 2 sampleState 1 1 = some (.ok st') ∧
      (st'.evblockbasename = "room" ∧ st'.evblocknum = 0) ∧
      st'.dispatched = [⟨false, 1, 1, "region%d", 1⟩, ⟨false, 2, 0, "region%d", 2⟩] ∧
      (∃ rest, st'.dispatched = sampleState.dispatched ++
          Dispatch.mk sampleEnv.regionScripts.isSome 1 1 "region%d" 1 :: rest ∧
        ∀ d ∈ rest, d.evblockbasename = "region%d" ∧ d.evblocknum = d.regnum) ∧
      RunRegionInteraction sampleEnv 7 sampleState 1 1 = some (.ok st') :=
  ⟨_, rfl,
    ((RunRegionInteraction_context sampleEnv 2 sampleState 1 1
      (by decide) (by decide) (by decide) (by decide)).2 _ rfl).1,
    rfl,
    ((RunRegionInteraction_context sampleEnv 2 sampleState 1 1
      (by decide) (by decide) (by decide) (by decide)).2 _ rfl).2.1,
    ((RunRegionInteraction_context sampleEnv 2 sampleState 1 1
      (by decide) (by decide) (by decide) (by decide)).2 _ rfl).2.2 7 (by decide)⟩

/-! ## The two range checks -/

/-- Claim C4: the index `MAX_REGIONS` passes the range check of
`SetAreaLightLevel` and of `SetRegionTint`, which reject exactly `area < 0` and
`area > MAX_REGIONS`; `EnableRegion`, `DisableRegion` and
`RunRegionInteraction` reject it, and reject exactly the indices `< 0` and
`>= MAX_REGIONS`.  A function rejects an index when it calls `quit` with its
message about an invalid region in the state of entry. -/
theorem MAX_REGIONS_boundary (env : RegionEnv) (st : RegionState) :
    ((∀ b : Int, ∃ st', SetAreaLightLevel env st env.MAX_REGIONS b = .ok st') ∧
      ∀ area b : Int,
        SetAreaLightLevel env st area b = .error ⟨.setAreaLightLevelInvalidRegion, st⟩ ↔
          (area < 0 ∨ area > env.MAX_REGIONS)) ∧
    ((∀ (red green blue amount luminance : Int) (a : Abort),
        SetRegionTint env st env.MAX_REGIONS red green blue amount luminance = .error a →
        a.msg ≠ .setRegionTintInvalidRegion) ∧
      (∃ st', SetRegionTint env st env.MAX_REGIONS 10 20 30 0 50 = .ok st') ∧
      ∀ area red green blue amount luminance : Int,
        SetRegionTint env st area red green blue amount luminance =
            .error ⟨.setRegionTintInvalidRegion, st⟩ ↔
          (area < 0 ∨ area > env.MAX_REGIONS)) ∧
    (DisableRegion env st env.MAX_REGIONS = .error ⟨.disableRegionInvalidRegion, st⟩ ∧
      ∀ hsnum : Int,
        DisableRegion env st hsnum = .error ⟨.disableRegionInvalidRegion, st⟩ ↔
          (hsnum < 0 ∨ hsnum ≥ env.MAX_REGIONS)) ∧
    (EnableRegion env st env.MAX_REGIONS = .error ⟨.enableRegionInvalidRegion, st⟩ ∧
      ∀ hsnum : Int,
        EnableRegion env st hsnum = .error ⟨.enableRegionInvalidRegion, st⟩ ↔
          (hsnum < 0 ∨ hsnum ≥ env.MAX_REGIONS)) ∧
    ((∀ (depth : Nat) (mood : Int),
        RunRegionInteraction env depth st env.MAX_REGIONS mood =
          some (.error ⟨.runRegionInteractionInvalidRegion, st⟩)) ∧
      ∀ (depth : Nat) (regnum mood : Int),
        RunRegionInteraction env depth st regnum mood =
            some (.error ⟨.runRegionInteractionInvalidRegion, st⟩) ↔
          (regnum < 0 ∨ regnum ≥ env.MAX_REGIONS)) := by
  have hMax : ¬ ((env.MAX_REGIONS : Int) < 0 ∨ (env.MAX_REGIONS : Int) > env.MAX_REGIONS) := by
    omega
  have hMax2 : (env.MAX_REGIONS : Int) < 0 ∨ (env.MAX_REGIONS : Int) ≥ env.MAX_REGIONS := by
    omega
  refine ⟨⟨?_, ?_⟩, ⟨?_, ?_, ?_⟩, ⟨?_, ?_⟩, ⟨?_, ?_⟩, ⟨?_, ?_⟩⟩
  · intro b
    exact ⟨_, by simp only [SetAreaLightLevel, if_neg hMax]; rfl⟩
  · intro area b
    by_cases hv : area < 0 ∨ area > env.MAX_REGIONS
    · exact iff_of_true (by simp only [SetAreaLightLevel, if_pos hv]) hv
    · refine iff_of_false ?_ hv
      simp only [SetAreaLightLevel, if_neg hv]
      intro h
      cases h
  · intro red green blue amount luminance a h
    simp only [SetRegionTint, if_neg hMax] at h
    split_ifs at h <;> cases h <;> simp
  · exact ⟨_, SetRegionTint_ok env st _ 10 20 30 0 50 hMax (by decide) (by decide) (by decide)⟩
  · intro area red green blue amount luminance
    by_cases hv : area < 0 ∨ area > env.MAX_REGIONS
    · exact iff_of_true (by simp only [SetRegionTint, if_pos hv]) hv
    · refine iff_of_false ?_ hv
      intro h
      simp only [SetRegionTint, if_neg hv] at h
      split_ifs at h <;> simp at h
  · simp only [DisableRegion, if_pos hMax2]
  · intro hsnum
    by_cases hv : hsnum < 0 ∨ hsnum ≥ env.MAX_REGIONS
    · exact iff_of_true (by simp only [DisableRegion, if_pos hv]) hv
    · refine iff_of_false ?_ hv
      simp only [DisableRegion, if_neg hv]
      intro h
      cases h
  · simp only [EnableRegion, if_pos hMax2]
  · intro hsnum
    by_cases hv : hsnum < 0 ∨ hsnum ≥ env.MAX_REGIONS
    · exact iff_of_true (by simp only [EnableRegion, if_pos hv]) hv
    · refine iff_of_false ?_ hv
      simp only [EnableRegion, if_neg hv]
      intro h
      cases h
  · intro depth mood
    exact RunRegionInteraction_invalid_region env depth st _ mood hMax2
  · intro depth regnum mood
    constructor
    · intro h
      by_contra hv
      by_cases hm : mood < 0 ∨ mood > 2
      · rw [RunRegionInteraction_invalid_event env depth st regnum mood hv hm] at h
        simp at h
      · obtain ⟨new, e, _, hfirst⟩ :=
          RunRegionInteraction_dispatched env depth st regnum mood _ h
        obtain ⟨rest, rfl⟩ := hfirst hv hm
        have hlen := congrArg List.length e
        simp [finalState] at hlen
    · intro hv
      exact RunRegionInteraction_invalid_region env depth st regnum mood hv

theorem MAX_REGIONS_boundary_witness :
    (∃ st', SetAreaLightLevel sampleEnv sampleState 16 40 = .ok st') ∧
    (∃ st', SetRegionTint sampleEnv sampleState 16 10 20 30 0 50 = .ok st') ∧
    DisableRegion sampleEnv sampleState 16 = .error ⟨.disableRegionInvalidRegion, sampleState⟩ ∧
    EnableRegion sampleEnv sampleState 16 = .error ⟨.enableRegionInvalidRegion, sampleState⟩ ∧
    RunRegionInteraction sampleEnv 5 sampleState 16 0 =
      some (.error ⟨.runRegionInteractionInvalidRegion, sampleState⟩) :=
  ⟨(MAX_REGIONS_boundary sampleEnv sampleState).1.1 40,
    (MAX_REGIONS_boundary sampleEnv sampleState).2.1.2.1,
    (MAX_REGIONS_boundary sampleEnv sampleState).2.2.1.1,
    (MAX_REGIONS_boundary sampleEnv sampleState).2.2.2.1.1,
    (MAX_REGIONS_boundary sampleEnv sampleState).2.2.2.2.1 5 0⟩

/-! ## Validation and dispatch of region interactions -/

/-- One step of `runScript` made by a call that records no dispatch, followed
by code that records none. -/
theorem runScript_step_same (st : RegionState) (op : Except Abort RegionState)
    (k : RegionState → Option (Except Abort RegionState))
    (res : Except Abort RegionState)
    (h : (match op with
      | .ok s => k s
      | .error a => some (.error a)) = some res)
    (hop : (finalState op).dispatched = st.dispatched)
    (hk : ∀ s res, k s = some res → (finalState res).dispatched = s.dispatched) :
    (finalState res).dispatched = st.dispatched := by
  cases op with
  | error a =>
    simp only [Option.some.injEq] at h
    subst h
    exact hop
  | ok s =>
    rw [hk s res h]
    exact hop

/-- Code without a call of `RunRegionInteraction` records no dispatch. -/
theorem runScript_no_nested_dispatched (env : RegionEnv)
    (rri : RegionState → Int → Int → Option (Except Abort RegionState)) :
    ∀ (calls : List ScriptCall) (st : RegionState) (res : Except Abort RegionState),
      (∀ c ∈ calls, ∀ r m, c ≠ .RunRegionInteraction r m) →
      runScript env rri calls st = some res →
      (finalState res).dispatched = st.dispatched := by
  intro calls
  induction calls with
  | nil =>
    intro st res _ h
    simp only [runScript, Option.some.injEq] at h
    subst h
    rfl
  | cons c rest ih =>
    intro st res hno h
    have hrest : ∀ c ∈ rest, ∀ r m, c ≠ .RunRegionInteraction r m :=
      fun c hc => hno c (List.mem_cons_of_mem _ hc)
    cases c with
    | SetAreaLightLevel area b =>
      exact runScript_step_same st _ (runScript env rri rest) res
        (by simpa only [runScript] using h) (SetAreaLightLevel_dispatched env st area b)
        (fun s res hs => ih s res hrest hs)
    | SetRegionTint area red green blue amount luminance =>
      exact runScript_step_same st _ (runScript env rri rest) res
        (by simpa only [runScript] using h)
        (SetRegionTint_dispatched env st area red green blue amount luminance)
        (fun s res hs => ih s res hrest hs)
    | DisableRegion hsnum =>
      exact runScript_step_same st _ (runScript env rri rest) res
        (by simpa only [runScript] using h) (DisableRegion_dispatched env st hsnum)
        (fun s res hs => ih s res hrest hs)
    | EnableRegion hsnum =>
      exact runScript_step_same st _ (runScript env rri rest) res
        (by simpa only [runScript] using h) (EnableRegion_dispatched env st hsnum)
        (fun s res hs => ih s res hrest hs)
    | RunRegionInteraction regnum mood =>
      exact absurd rfl (hno _ (List.mem_cons_self _ _) regnum mood)
    | Rebind basename blocknum =>
      simp only [runScript] at h
      exact ih { st with evblockbasename := basename, evblocknum := blocknum } res hrest h

/-- Claim C11, refuted as stated: with the valid region 1 and the valid event
0, `RunRegionInteraction` still ends in `quit` when the code it dispatches to
does: here the legacy
interaction of the region calls `DisableRegion(-1)`.  The dispatch has been
made and the context rebound to the region when `quit` is called. -/
theorem RunRegionInteraction_fatal_with_valid_arguments :
    ¬ (((1 : Int) < 0 ∨ (1 : Int) ≥ sampleEnv.MAX_REGIONS) ∨ ((0 : Int) < 0 ∨ (0 : Int) > 2)) ∧
    ∃ a, RunRegionInteraction
        { sampleEnv with intrRegion := fun _ _ => [.DisableRegion (-1)] } 4 sampleState 1 0 =
          some (.error a) ∧
      a.msg = .disableRegionInvalidRegion ∧
      a.state.dispatched = [Dispatch.mk false 1 0 "region%d" 1] ∧
      a.state.evblockbasename = "region%d" ∧ a.state.evblocknum = 1 :=
  ⟨by decide, _, rfl, rfl, rfl, rfl, rfl⟩

/-- Claim C11, as amended: `RunRegionInteraction(regnum, mood)` ends in `quit` before
anything is dispatched exactly when `regnum` is outside `[0, MAX_REGIONS)` or
`mood` is outside `[0, 2]`, and then the state at `quit` is the state at entry
(nothing dispatched, the context not rebound).  Otherwise it dispatches the
code of `(regnum, mood)`, taken from `thisroom.regionScripts` when the room has
region scripts and from `croom->intrRegion` otherwise; the dispatch is recorded
first, whatever the dispatched code does, and it is the only one when that code
makes no call of `RunRegionInteraction` itself. -/
theorem RunRegionInteraction_validates (env : RegionEnv) (depth : Nat) (st : RegionState)
    (regnum mood : Int) :
    ((∃ a, RunRegionInteraction env depth st regnum mood = some (.error a) ∧
        a.state.dispatched = st.dispatched) ↔
      ((regnum < 0 ∨ regnum ≥ env.MAX_REGIONS) ∨ (mood < 0 ∨ mood > 2))) ∧
    (((regnum < 0 ∨ regnum ≥ env.MAX_REGIONS) ∨ (mood < 0 ∨ mood > 2)) →
      ∃ a, RunRegionInteraction env depth st regnum mood = some (.error a) ∧ a.state = st ∧
        (a.msg = .runRegionInteractionInvalidRegion ∨
          a.msg = .runRegionInteractionInvalidEvent)) ∧
    (¬ ((regnum < 0 ∨ regnum ≥ env.MAX_REGIONS) ∨ (mood < 0 ∨ mood > 2)) →
      RunRegionInteraction env (depth + 1) st regnum mood =
        restoreContext st.evblockbasename st.evblocknum
          (runScript env (RunRegionInteraction env depth) (dispatchedCode env regnum mood)
            { st with
              evblockbasename := "region%d"
              evblocknum := regnum
              dispatched := st.dispatched ++
                [Dispatch.mk env.regionScripts.isSome regnum mood "region%d" regnum] }) ∧
      (dispatchedCode env regnum mood =
        match env.regionScripts with
        | some regionScripts => regionScripts regnum mood
        | none => env.intrRegion regnum mood) ∧
      (∀ res, RunRegionInteraction env depth st regnum mood = some res →
        ∃ rest, (finalState res).dispatched = st.dispatched ++
          Dispatch.mk env.regionScripts.isSome regnum mood "region%d" regnum :: rest) ∧
      ((∀ c ∈ dispatchedCode env regnum mood, ∀ r m, c ≠ .RunRegionInteraction r m) →
        ∀ res, RunRegionInteraction env depth st regnum mood = some res →
          (finalState res).dispatched = st.dispatched ++
            [Dispatch.mk env.regionScripts.isSome regnum mood "region%d" regnum])) := by
  have hinv : ((regnum < 0 ∨ regnum ≥ env.MAX_REGIONS) ∨ (mood < 0 ∨ mood > 2)) →
      ∃ a, RunRegionInteraction env depth st regnum mood = some (.error a) ∧ a.state = st ∧
        (a.msg = .runRegionInteractionInvalidRegion ∨
          a.msg = .runRegionInteractionInvalidEvent) := by
    intro h
    by_cases hr : regnum < 0 ∨ regnum ≥ env.MAX_REGIONS
    · exact ⟨_, RunRegionInteraction_invalid_region env depth st regnum mood hr, rfl, Or.inl rfl⟩
    · have hm : mood < 0 ∨ mood > 2 := h.resolve_left hr
      exact ⟨_, RunRegionInteraction_invalid_event env depth st regnum mood hr hm, rfl,
        Or.inr rfl⟩
  have hfirst : ¬ ((regnum < 0 ∨ regnum ≥ env.MAX_REGIONS) ∨ (mood < 0 ∨ mood > 2)) →
      ∀ res, RunRegionInteraction env depth st regnum mood = some res →
        ∃ rest, (finalState res).dispatched = st.dispatched ++
          Dispatch.mk env.regionScripts.isSome regnum mood "region%d" regnum :: rest := by
    intro hv res h
    obtain ⟨new, e, _, hf⟩ := RunRegionInteraction_dispatched env depth st regnum mood res h
    obtain ⟨rest, rfl⟩ := hf (fun hr => hv (Or.inl hr)) (fun hm => hv (Or.inr hm))
    exact ⟨rest, e⟩
  refine ⟨⟨?_, ?_⟩, hinv, fun hv => ⟨?_, ?_, hfirst hv, ?_⟩⟩
  · rintro ⟨a, h, hd⟩
    by_contra hv
    obtain ⟨rest, e⟩ := hfirst hv _ h
    have hlen := congrArg List.length (e.symm.trans hd)
    simp [finalState] at hlen
  · intro h
    obtain ⟨a, ha, hs, _⟩ := hinv h
    exact ⟨a, ha, by rw [hs]⟩
  · exact RunRegionInteraction_succ env depth st regnum mood (fun hr => hv (Or.inl hr))
      (fun hm => hv (Or.inr hm))
  · rfl
  · intro hno res h
    have hr : ¬ (regnum < 0 ∨ regnum ≥ env.MAX_REGIONS) := fun hr => hv (Or.inl hr)
    have hm : ¬ (mood < 0 ∨ mood > 2) := fun hm => hv (Or.inr hm)
    cases depth with
    | zero =>
      rw [RunRegionInteraction_zero env st regnum mood hr hm] at h
      cases h
    | succ n =>
      rw [RunRegionInteraction_succ env n st regnum mood hr hm] at h
      obtain ⟨r0, hrun, e0⟩ := restoreContext_dispatched _ _ _ res h
      rw [e0, runScript_no_nested_dispatched env _ _ _ r0 hno hrun]
      rfl

theorem RunRegionInteraction_validates_witness :
    (∃ a, RunRegionInteraction sampleEnv 4 sampleState 3 7 = some (.error a) ∧
      a.state = sampleState ∧
      (a.msg = .runRegionInteractionInvalidRegion ∨
        a.msg = .runRegionInteractionInvalidEvent)) ∧
    ∀ res, RunRegionInteraction sampleEnv 4 sampleState 2 0 = some res →
      (finalState res).dispatched = sampleState.dispatched ++
        [Dispatch.mk sampleEnv.regionScripts.isSome 2 0 "region%d" 2] :=
  ⟨(RunRegionInteraction_validates sampleEnv 4 sampleState 3 7).2.1 (by decide),
    ((RunRegionInteraction_validates sampleEnv 4 sampleState 2 0).2.2 (by decide)).2.2.2
      (by
        intro c hc r m
        simp only [dispatchedCode, sampleEnv] at hc
        simp at hc
        subst hc
        simp)⟩

/-! ## The wait condition -/

theorem ShouldStayInWaitMode_value (c : Prop) [Decidable c] (k v : Int) (hk : k ≠ 0)
    (h : (Except.ok (if c then 0 else k) : Except Halt Int) = .ok v) :
    (v = 0 ∨ v = k) ∧ (v = 0 ↔ c) := by
  simp only [Except.ok.injEq] at h
  subst h
  by_cases hc : c
  · simp [hc]
  · simp [hc, hk]

/-- The result of `ShouldStayInWaitMode` for a kind that is none of the seven
that it handles. -/
theorem ShouldStayInWaitMode_unknown (st : Engine)
    (h1 : st.restrict_until ≠ UNTIL_MOVEEND) (h2 : st.restrict_until ≠ UNTIL_CHARIS0)
    (h3 : st.restrict_until ≠ UNTIL_NEGATIVE) (h4 : st.restrict_until ≠ UNTIL_INTISNEG)
    (h5 : st.restrict_until ≠ UNTIL_NOOVERLAY) (h6 : st.restrict_until ≠ UNTIL_INTIS0)
    (h7 : st.restrict_until ≠ UNTIL_SHORTIS0) :
    ShouldStayInWaitMode st =
      if st.restrict_until = 0 then .error ⟨.notInLoopUntilState, st⟩
      else .error ⟨.unknownUntilEvent, st⟩ := by
  simp only [ShouldStayInWaitMode, if_neg h1, if_neg h2, if_neg h3, if_neg h4, if_neg h5,
    if_neg h6, if_neg h7]

/-- The value of `ShouldStayInWaitMode` for each of the seven kinds that it
handles. -/
theorem ShouldStayInWaitMode_kinds (st : Engine) :
    (st.restrict_until = UNTIL_MOVEEND → ShouldStayInWaitMode st =
      .ok (if st.world.shortAt st.user_disabled_data < 1 then 0 else UNTIL_MOVEEND)) ∧
    (st.restrict_until = UNTIL_CHARIS0 → ShouldStayInWaitMode st =
      .ok (if st.world.charAt st.user_disabled_data = 0 then 0 else UNTIL_CHARIS0)) ∧
    (st.restrict_until = UNTIL_NEGATIVE → ShouldStayInWaitMode st =
      .ok (if st.world.shortAt st.user_disabled_data < 0 then 0 else UNTIL_NEGATIVE)) ∧
    (st.restrict_until = UNTIL_INTISNEG → ShouldStayInWaitMode st =
      .ok (if st.world.intAt st.user_disabled_data < 0 then 0 else UNTIL_INTISNEG)) ∧
    (st.restrict_until = UNTIL_NOOVERLAY → ShouldStayInWaitMode st =
      .ok (if st.world.is_text_overlay < 1 then 0 else UNTIL_NOOVERLAY)) ∧
    (st.restrict_until = UNTIL_INTIS0 → ShouldStayInWaitMode st =
      .ok (if st.world.intAt st.user_disabled_data = 0 then 0 else UNTIL_INTIS0)) ∧
    (st.restrict_until = UNTIL_SHORTIS0 → ShouldStayInWaitMode st =
      .ok (if st.world.shortAt st.user_disabled_data = 0 then 0 else UNTIL_SHORTIS0)) := by
  have k1 : st.restrict_until = UNTIL_MOVEEND → ShouldStayInWaitMode st =
      .ok (if st.world.shortAt st.user_disabled_data < 1 then 0 else UNTIL_MOVEEND) := by
    intro h
    simp [ShouldStayInWaitMode, h, UNTIL_MOVEEND]
  have k2 : st.restrict_until = UNTIL_CHARIS0 → ShouldStayInWaitMode st =
      .ok (if st.world.charAt st.user_disabled_data = 0 then 0 else UNTIL_CHARIS0) := by
    intro h
    simp [ShouldStayInWaitMode, h, UNTIL_MOVEEND, UNTIL_CHARIS0]
  have k3 : st.restrict_until = UNTIL_NEGATIVE → ShouldStayInWaitMode st =
      .ok (if st.world.shortAt st.user_disabled_data < 0 then 0 else UNTIL_NEGATIVE) := by
    intro h
    simp [ShouldStayInWaitMode, h, UNTIL_MOVEEND, UNTIL_CHARIS0, UNTIL_NEGATIVE]
  have k4 : st.restrict_until = UNTIL_INTISNEG → ShouldStayInWaitMode st =
      .ok (if st.world.intAt st.user_disabled_data < 0 then 0 else UNTIL_INTISNEG) := by
    intro h
    simp [ShouldStayInWaitMode, h, UNTIL_MOVEEND, UNTIL_CHARIS0, UNTIL_NEGATIVE, UNTIL_INTISNEG]
  have k5 : st.restrict_until = UNTIL_NOOVERLAY → ShouldStayInWaitMode st =
      .ok (if st.world.is_text_overlay < 1 then 0 else UNTIL_NOOVERLAY) := by
    intro h
    simp [ShouldStayInWaitMode, h, UNTIL_MOVEEND, UNTIL_CHARIS0, UNTIL_NEGATIVE, UNTIL_INTISNEG,
      UNTIL_NOOVERLAY]
  have k6 : st.restrict_until = UNTIL_INTIS0 → ShouldStayInWaitMode st =
      .ok (if st.world.intAt st.user_disabled_data = 0 then 0 else UNTIL_INTIS0) := by
    intro h
    simp [ShouldStayInWaitMode, h, UNTIL_MOVEEND, UNTIL_CHARIS0, UNTIL_NEGATIVE, UNTIL_INTISNEG,
      UNTIL_NOOVERLAY, UNTIL_INTIS0]
  have k7 : st.restrict_until = UNTIL_SHORTIS0 → ShouldStayInWaitMode st =
      .ok (if st.world.shortAt st.user_disabled_data = 0 then 0 else UNTIL_SHORTIS0) := by
    intro h
    simp [ShouldStayInWaitMode, h, UNTIL_MOVEEND, UNTIL_CHARIS0, UNTIL_NEGATIVE, UNTIL_INTISNEG,
      UNTIL_NOOVERLAY, UNTIL_INTIS0, UNTIL_SHORTIS0]
  exact ⟨k1, k2, k3, k4, k5, k6, k7⟩

/-- A value returned by `ShouldStayInWaitMode` is 0 or the kind of the live
wait, and it is 0 exactly under the condition of the kind. -/
theorem ShouldStayInWaitMode_ok (st : Engine) :
    ∀ v, ShouldStayInWaitMode st = .ok v →
      st.restrict_until ≠ 0 ∧ (v = 0 ∨ v = st.restrict_until) ∧
      (v = 0 ↔
        (st.restrict_until = UNTIL_MOVEEND ∧ st.world.shortAt st.user_disabled_data < 1) ∨
        (st.restrict_until = UNTIL_CHARIS0 ∧ st.world.charAt st.user_disabled_data = 0) ∨
        (st.restrict_until = UNTIL_NEGATIVE ∧ st.world.shortAt st.user_disabled_data < 0) ∨
        (st.restrict_until = UNTIL_INTISNEG ∧ st.world.intAt st.user_disabled_data < 0) ∨
        (st.restrict_until = UNTIL_NOOVERLAY ∧ st.world.is_text_overlay < 1) ∨
        (st.restrict_until = UNTIL_INTIS0 ∧ st.world.intAt st.user_disabled_data = 0) ∨
        (st.restrict_until = UNTIL_SHORTIS0 ∧ st.world.shortAt st.user_disabled_data = 0)) := by
  obtain ⟨k1, k2, k3, k4, k5, k6, k7⟩ := ShouldStayInWaitMode_kinds st
  intro v h
  by_cases h1 : st.restrict_until = UNTIL_MOVEEND
  · rw [k1 h1] at h
    obtain ⟨e1, e2⟩ := ShouldStayInWaitMode_value _ UNTIL_MOVEEND v (by decide) h
    refine ⟨by rw [h1]; decide, by rw [h1]; exact e1, ?_⟩
    rw [e2]
    simp [h1, UNTIL_MOVEEND, UNTIL_CHARIS0, UNTIL_NEGATIVE, UNTIL_INTISNEG, UNTIL_NOOVERLAY,
      UNTIL_INTIS0, UNTIL_SHORTIS0]
  by_cases h2 : st.restrict_until = UNTIL_CHARIS0
  · rw [k2 h2] at h
    obtain ⟨e1, e2⟩ := ShouldStayInWaitMode_value _ UNTIL_CHARIS0 v (by decide) h
    refine ⟨by rw [h2]; decide, by rw [h2]; exact e1, ?_⟩
    rw [e2]
    simp [h2, UNTIL_MOVEEND, UNTIL_CHARIS0, UNTIL_NEGATIVE, UNTIL_INTISNEG, UNTIL_NOOVERLAY,
      UNTIL_INTIS0, UNTIL_SHORTIS0]
  by_cases h3 : st.restrict_until = UNTIL_NEGATIVE
  · rw [k3 h3] at h
    obtain ⟨e1, e2⟩ := ShouldStayInWaitMode_value _ UNTIL_NEGATIVE v (by decide) h
    refine ⟨by rw [h3]; decide, by rw [h3]; exact e1, ?_⟩
    rw [e2]
    simp [h3, UNTIL_MOVEEND, UNTIL_CHARIS0, UNTIL_NEGATIVE, UNTIL_INTISNEG, UNTIL_NOOVERLAY,
      UNTIL_INTIS0, UNTIL_SHORTIS0]
  by_cases h4 : st.restrict_until = UNTIL_INTISNEG
  · rw [k4 h4] at h
    obtain ⟨e1, e2⟩ := ShouldStayInWaitMode_value _ UNTIL_INTISNEG v (by decide) h
    refine ⟨by rw [h4]; decide, by rw [h4]; exact e1, ?_⟩
    rw [e2]
    simp [h4, UNTIL_MOVEEND, UNTIL_CHARIS0, UNTIL_NEGATIVE, UNTIL_INTISNEG, UNTIL_NOOVERLAY,
      UNTIL_INTIS0, UNTIL_SHORTIS0]
  by_cases h5 : st.restrict_until = UNTIL_NOOVERLAY
  · rw [k5 h5] at h
    obtain ⟨e1, e2⟩ := ShouldStayInWaitMode_value _ UNTIL_NOOVERLAY v (by decide) h
    refine ⟨by rw [h5]; decide, by rw [h5]; exact e1, ?_⟩
    rw [e2]
    simp [h5, UNTIL_MOVEEND, UNTIL_CHARIS0, UNTIL_NEGATIVE, UNTIL_INTISNEG, UNTIL_NOOVERLAY,
      UNTIL_INTIS0, UNTIL_SHORTIS0]
  by_cases h6 : st.restrict_until = UNTIL_INTIS0
  · rw [k6 h6] at h
    obtain ⟨e1, e2⟩ := ShouldStayInWaitMode_value _ UNTIL_INTIS0 v (by decide) h
    refine ⟨by rw [h6]; decide, by rw [h6]; exact e1, ?_⟩
    rw [e2]
    simp [h6, UNTIL_MOVEEND, UNTIL_CHARIS0, UNTIL_NEGATIVE, UNTIL_INTISNEG, UNTIL_NOOVERLAY,
      UNTIL_INTIS0, UNTIL_SHORTIS0]
  by_cases h7 : st.restrict_until = UNTIL_SHORTIS0
  · rw [k7 h7] at h
    obtain ⟨e1, e2⟩ := ShouldStayInWaitMode_value _ UNTIL_SHORTIS0 v (by decide) h
    refine ⟨by rw [h7]; decide, by rw [h7]; exact e1, ?_⟩
    rw [e2]
    simp [h7, UNTIL_MOVEEND, UNTIL_CHARIS0, UNTIL_NEGATIVE, UNTIL_INTISNEG, UNTIL_NOOVERLAY,
      UNTIL_INTIS0, UNTIL_SHORTIS0]
  exfalso
  rw [ShouldStayInWaitMode_unknown st h1 h2 h3 h4 h5 h6 h7] at h
  split_ifs at h

/-- When `ShouldStayInWaitMode` returns a value other than 0, `UpdateWaitMode`
returns `RETURN_CONTINUE` and the state as it was. -/
theorem UpdateWaitMode_stay (st : Engine) (env : GameEnv) (v : Int)
    (h : ShouldStayInWaitMode st = .ok v) (hv : v ≠ 0) :
    UpdateWaitMode env st = .done env.RETURN_CONTINUE st := by
  obtain ⟨hru, hor, _⟩ := ShouldStayInWaitMode_ok st v h
  have hveq : v = st.restrict_until := hor.resolve_left hv
  subst hveq
  simp only [UpdateWaitMode, if_neg hru, h, ne_eq, hv, not_false_eq_true, if_true]
  rfl

/-- Claim C14: for each of the seven kinds handled, `ShouldStayInWaitMode`
returns 0 exactly when the condition of the kind holds on the watched value
(`UNTIL_MOVEEND`: the short is `< 1`; `UNTIL_CHARIS0`: the byte is 0;
`UNTIL_NEGATIVE`: the short is `< 0`; `UNTIL_INTISNEG`: the int is `< 0`;
`UNTIL_NOOVERLAY`: `is_text_overlay < 1`; `UNTIL_INTIS0`: the int is 0;
`UNTIL_SHORTIS0`: the short is 0) and the kind itself, which is not 0,
otherwise.  The function only reads the state, and `UpdateWaitMode`, which
stores the value returned in `restrict_until`, returns the state as it was
when the value is not 0. -/
theorem ShouldStayInWaitMode_result (st : Engine) :
    (st.restrict_until = UNTIL_MOVEEND → ShouldStayInWaitMode st =
      .ok (if st.world.shortAt st.user_disabled_data < 1 then 0 else UNTIL_MOVEEND)) ∧
    (st.restrict_until = UNTIL_CHARIS0 → ShouldStayInWaitMode st =
      .ok (if st.world.charAt st.user_disabled_data = 0 then 0 else UNTIL_CHARIS0)) ∧
    (st.restrict_until = UNTIL_NEGATIVE → ShouldStayInWaitMode st =
      .ok (if st.world.shortAt st.user_disabled_data < 0 then 0 else UNTIL_NEGATIVE)) ∧
    (st.restrict_until = UNTIL_INTISNEG → ShouldStayInWaitMode st =
      .ok (if st.world.intAt st.user_disabled_data < 0 then 0 else UNTIL_INTISNEG)) ∧
    (st.restrict_until = UNTIL_NOOVERLAY → ShouldStayInWaitMode st =
      .ok (if st.world.is_text_overlay < 1 then 0 else UNTIL_NOOVERLAY)) ∧
    (st.restrict_until = UNTIL_INTIS0 → ShouldStayInWaitMode st =
      .ok (if st.world.intAt st.user_disabled_data = 0 then 0 else UNTIL_INTIS0)) ∧
    (st.restrict_until = UNTIL_SHORTIS0 → ShouldStayInWaitMode st =
      .ok (if st.world.shortAt st.user_disabled_data = 0 then 0 else UNTIL_SHORTIS0)) ∧
    (∀ v, ShouldStayInWaitMode st = .ok v →
      st.restrict_until ≠ 0 ∧ (v = 0 ∨ v = st.restrict_until) ∧
      (v = 0 ↔
        (st.restrict_until = UNTIL_MOVEEND ∧ st.world.shortAt st.user_disabled_data < 1) ∨
        (st.restrict_until = UNTIL_CHARIS0 ∧ st.world.charAt st.user_disabled_data = 0) ∨
        (st.restrict_until = UNTIL_NEGATIVE ∧ st.world.shortAt st.user_disabled_data < 0) ∨
        (st.restrict_until = UNTIL_INTISNEG ∧ st.world.intAt st.user_disabled_data < 0) ∨
        (st.restrict_until = UNTIL_NOOVERLAY ∧ st.world.is_text_overlay < 1) ∨
        (st.restrict_until = UNTIL_INTIS0 ∧ st.world.intAt st.user_disabled_data = 0) ∨
        (st.restrict_until = UNTIL_SHORTIS0 ∧ st.world.shortAt st.user_disabled_data = 0))) ∧
    (∀ (env : GameEnv) (v : Int), ShouldStayInWaitMode st = .ok v → v ≠ 0 →
      UpdateWaitMode env st = .done env.RETURN_CONTINUE st) := by
  obtain ⟨k1, k2, k3, k4, k5, k6, k7⟩ := ShouldStayInWaitMode_kinds st
  refine ⟨k1, k2, k3, k4, k5, k6, k7, ShouldStayInWaitMode_ok st, ?_⟩
  intro env v h hv
  exact UpdateWaitMode_stay st env v h hv

theorem ShouldStayInWaitMode_result_witness :
    ShouldStayInWaitMode
        { sampleEngine with restrict_until := UNTIL_MOVEEND, user_disabled_data := 100 } =
      .ok (if (2 : Int) < 1 then 0 else UNTIL_MOVEEND) ∧
    ShouldStayInWaitMode
        { sampleEngine with restrict_until := UNTIL_INTIS0, user_disabled_data := 500 } =
      .ok (if (0 : Int) = 0 then 0 else UNTIL_INTIS0) :=
  ⟨(ShouldStayInWaitMode_result
      { sampleEngine with restrict_until := UNTIL_MOVEEND, user_disabled_data := 100 }).1 rfl,
    (ShouldStayInWaitMode_result
      { sampleEngine with restrict_until := UNTIL_INTIS0, user_disabled_data := 500 }).2.2.2.2.2.1
      rfl⟩

/-- Claim C15, refuted as stated: the kind `UNTIL_ANIMEND`, which the program
defines as 1, is none of those that `ShouldStayInWaitMode` handles: with a wait
of this kind live the function ends in `quit` with the message
"loop_until: unknown until event". -/
theorem UNTIL_ANIMEND_is_fatal :
    UNTIL_ANIMEND = 1 ∧
    ShouldStayInWaitMode { sampleEngine with restrict_until := UNTIL_ANIMEND } =
      .error ⟨.unknownUntilEvent, { sampleEngine with restrict_until := UNTIL_ANIMEND }⟩ :=
  ⟨rfl, rfl⟩

/-- Claim C15, amended: `ShouldStayInWaitMode` ends in `quit` exactly when no
wait is live (`restrict_until == 0`) or the kind is none of the seven handled
ones; the kinds `UNTIL_MOVEEND = 2` to `UNTIL_INTISNEG = 8` are handled and
evaluate without `quit`, and they are the kinds that the blocking functions of
the file pass on; the kind `UNTIL_ANIMEND = 1` is defined and not handled. -/
theorem ShouldStayInWaitMode_quit_iff (st : Engine) :
    ((∃ h, ShouldStayInWaitMode st = .error h) ↔
      (st.restrict_until = 0 ∨
        (st.restrict_until ≠ UNTIL_MOVEEND ∧ st.restrict_until ≠ UNTIL_CHARIS0 ∧
          st.restrict_until ≠ UNTIL_NOOVERLAY ∧ st.restrict_until ≠ UNTIL_NEGATIVE ∧
          st.restrict_until ≠ UNTIL_INTIS0 ∧ st.restrict_until ≠ UNTIL_SHORTIS0 ∧
          st.restrict_until ≠ UNTIL_INTISNEG))) ∧
    (∀ h, ShouldStayInWaitMode st = .error h → h.state = st ∧
      (h.msg = if st.restrict_until = 0 then .notInLoopUntilState else .unknownUntilEvent)) ∧
    (2 ≤ st.restrict_until → st.restrict_until ≤ 8 → ∃ v, ShouldStayInWaitMode st = .ok v) ∧
    (UNTIL_MOVEEND = 2 ∧ UNTIL_CHARIS0 = 3 ∧ UNTIL_NOOVERLAY = 4 ∧ UNTIL_NEGATIVE = 5 ∧
      UNTIL_INTIS0 = 6 ∧ UNTIL_SHORTIS0 = 7 ∧ UNTIL_INTISNEG = 8) ∧
    (∀ call : BlockingCall, 2 ≤ call.untilwhat ∧ call.untilwhat ≤ 8) ∧
    (UNTIL_ANIMEND = 1 ∧
      (st.restrict_until = UNTIL_ANIMEND →
        ShouldStayInWaitMode st = .error ⟨.unknownUntilEvent, st⟩)) := by
  have known : ∀ k : Int, st.restrict_until = k →
      (k = UNTIL_MOVEEND ∨ k = UNTIL_CHARIS0 ∨ k = UNTIL_NEGATIVE ∨ k = UNTIL_INTISNEG ∨
        k = UNTIL_NOOVERLAY ∨ k = UNTIL_INTIS0 ∨ k = UNTIL_SHORTIS0) →
      ∃ v, ShouldStayInWaitMode st = .ok v := by
    intro k hk hor
    have r := ShouldStayInWaitMode_kinds st
    rcases hor with h | h | h | h | h | h | h
    · exact ⟨_, r.1 (hk.trans h)⟩
    · exact ⟨_, r.2.1 (hk.trans h)⟩
    · exact ⟨_, r.2.2.1 (hk.trans h)⟩
    · exact ⟨_, r.2.2.2.1 (hk.trans h)⟩
    · exact ⟨_, r.2.2.2.2.1 (hk.trans h)⟩
    · exact ⟨_, r.2.2.2.2.2.1 (hk.trans h)⟩
    · exact ⟨_, r.2.2.2.2.2.2 (hk.trans h)⟩
  have unknown : st.restrict_until ≠ UNTIL_MOVEEND → st.restrict_until ≠ UNTIL_CHARIS0 →
      st.restrict_until ≠ UNTIL_NOOVERLAY → st.restrict_until ≠ UNTIL_NEGATIVE →
      st.restrict_until ≠ UNTIL_INTIS0 → st.restrict_until ≠ UNTIL_SHORTIS0 →
      st.restrict_until ≠ UNTIL_INTISNEG →
      ShouldStayInWaitMode st =
        if st.restrict_until = 0 then .error ⟨.notInLoopUntilState, st⟩
        else .error ⟨.unknownUntilEvent, st⟩ :=
    fun h1 h2 h5 h3 h6 h7 h4 => ShouldStayInWaitMode_unknown st h1 h2 h3 h4 h5 h6 h7
  have hzero : st.restrict_until = 0 →
      ShouldStayInWaitMode st = .error ⟨.notInLoopUntilState, st⟩ := by
    intro h0
    simp only [ShouldStayInWaitMode, if_pos h0]
  have hsplit : (st.restrict_until = UNTIL_MOVEEND ∨ st.restrict_until = UNTIL_CHARIS0 ∨
        st.restrict_until = UNTIL_NEGATIVE ∨ st.restrict_until = UNTIL_INTISNEG ∨
        st.restrict_until = UNTIL_NOOVERLAY ∨ st.restrict_until = UNTIL_INTIS0 ∨
        st.restrict_until = UNTIL_SHORTIS0) ∨
      (st.restrict_until ≠ UNTIL_MOVEEND ∧ st.restrict_until ≠ UNTIL_CHARIS0 ∧
        st.restrict_until ≠ UNTIL_NOOVERLAY ∧ st.restrict_until ≠ UNTIL_NEGATIVE ∧
        st.restrict_until ≠ UNTIL_INTIS0 ∧ st.restrict_until ≠ UNTIL_SHORTIS0 ∧
        st.restrict_until ≠ UNTIL_INTISNEG) := by
    simp only [UNTIL_MOVEEND, UNTIL_CHARIS0, UNTIL_NEGATIVE, UNTIL_INTISNEG, UNTIL_NOOVERLAY,
      UNTIL_INTIS0, UNTIL_SHORTIS0]
    omega
  have hnz : (st.restrict_until = UNTIL_MOVEEND ∨ st.restrict_until = UNTIL_CHARIS0 ∨
        st.restrict_until = UNTIL_NEGATIVE ∨ st.restrict_until = UNTIL_INTISNEG ∨
        st.restrict_until = UNTIL_NOOVERLAY ∨ st.restrict_until = UNTIL_INTIS0 ∨
        st.restrict_until = UNTIL_SHORTIS0) →
      st.restrict_until ≠ 0 ∧
      ¬ (st.restrict_until ≠ UNTIL_MOVEEND ∧ st.restrict_until ≠ UNTIL_CHARIS0 ∧
        st.restrict_until ≠ UNTIL_NOOVERLAY ∧ st.restrict_until ≠ UNTIL_NEGATIVE ∧
        st.restrict_until ≠ UNTIL_INTIS0 ∧ st.restrict_until ≠ UNTIL_SHORTIS0 ∧
        st.restrict_until ≠ UNTIL_INTISNEG) := by
    simp only [UNTIL_MOVEEND, UNTIL_CHARIS0, UNTIL_NEGATIVE, UNTIL_INTISNEG, UNTIL_NOOVERLAY,
      UNTIL_INTIS0, UNTIL_SHORTIS0]
    omega
  refine ⟨⟨?_, ?_⟩, ?_, ?_, ⟨rfl, rfl, rfl, rfl, rfl, rfl, rfl⟩, ?_, rfl, ?_⟩
  · rintro ⟨h, he⟩
    rcases hsplit with hk | hu
    · obtain ⟨v, hv⟩ := known _ rfl hk
      rw [hv] at he
      cases he
    · exact Or.inr hu
  · rintro (h0 | ⟨h1, h2, h5, h3, h6, h7, h4⟩)
    · exact ⟨_, hzero h0⟩
    · rw [unknown h1 h2 h5 h3 h6 h7 h4]
      split_ifs <;> exact ⟨_, rfl⟩
  · intro h he
    rcases hsplit with hk | ⟨h1, h2, h5, h3, h6, h7, h4⟩
    · obtain ⟨v, hv⟩ := known _ rfl hk
      rw [hv] at he
      cases he
    · rw [unknown h1 h2 h5 h3 h6 h7 h4] at he
      split_ifs at he with h0 <;> cases he
      · exact ⟨rfl, (if_pos h0).symm⟩
      · exact ⟨rfl, (if_neg h0).symm⟩
  · intro h2 h8
    refine known _ rfl ?_
    simp only [UNTIL_MOVEEND, UNTIL_CHARIS0, UNTIL_NEGATIVE, UNTIL_INTISNEG, UNTIL_NOOVERLAY,
      UNTIL_INTIS0, UNTIL_SHORTIS0]
    omega
  · intro call
    cases call <;>
      simp [BlockingCall.untilwhat, UNTIL_MOVEEND, UNTIL_CHARIS0, UNTIL_NEGATIVE, UNTIL_INTISNEG,
        UNTIL_NOOVERLAY, UNTIL_INTIS0, UNTIL_SHORTIS0]
  · intro h
    rw [unknown (by rw [h]; decide) (by rw [h]; decide) (by rw [h]; decide) (by rw [h]; decide)
      (by rw [h]; decide) (by rw [h]; decide) (by rw [h]; decide), if_neg (by rw [h]; decide)]

theorem ShouldStayInWaitMode_quit_iff_witness :
    (∃ v, ShouldStayInWaitMode
      { sampleEngine with restrict_until := 5, user_disabled_data := 100 } = .ok v) ∧
    ShouldStayInWaitMode { sampleEngine with restrict_until := UNTIL_ANIMEND } =
      .error ⟨.unknownUntilEvent, { sampleEngine with restrict_until := UNTIL_ANIMEND }⟩ ∧
    ∃ h, ShouldStayInWaitMode sampleEngine = .error h :=
  ⟨(ShouldStayInWaitMode_quit_iff
      { sampleEngine with restrict_until := 5, user_disabled_data := 100 }).2.2.1
      (by decide) (by decide),
    (ShouldStayInWaitMode_quit_iff
      { sampleEngine with restrict_until := UNTIL_ANIMEND }).2.2.2.2.2.2 rfl,
    (ShouldStayInWaitMode_quit_iff sampleEngine).1.2 (Or.inl rfl)⟩

/-! ## What the phases of a tick leave as it is -/

theorem Outcome.bind_done {α β : Type} (x : Outcome α) (f : α → Engine → Outcome β)
    (b : β) (st' : Engine) :
    x.bind f = .done b st' ↔ ∃ a st1, x = .done a st1 ∧ f a st1 = .done b st' := by
  cases x with
  | done a st1 =>
    constructor
    · intro h
      exact ⟨a, st1, rfl, h⟩
    · rintro ⟨a', st1', h1, h2⟩
      cases h1
      exact h2
  | quit h =>
    constructor
    · intro h'
      cases h'
    · rintro ⟨a', st1', h1, _⟩
      cases h1
  | timeout =>
    constructor
    · intro h'
      cases h'
    · rintro ⟨a', st1', h1, _⟩
      cases h1

theorem Outcome.keeps_done {α β : Type} (g : Engine → β) (a : α) (st s : Engine)
    (h : g s = g st) : (Outcome.done a s).keeps g st := by
  intro a' st' e
  cases e
  exact h

theorem Outcome.keeps_quit {α β : Type} (g : Engine → β) (st : Engine) (h : Halt) :
    (Outcome.quit h : Outcome α).keeps g st := by
  intro a' st' e
  cases e

theorem Outcome.keeps_timeout {α β : Type} (g : Engine → β) (st : Engine) :
    (Outcome.timeout : Outcome α).keeps g st := by
  intro a' st' e
  cases e

theorem Outcome.keeps_from {α β : Type} (g : Engine → β) (st s : Engine) (x : Outcome α)
    (h : g s = g st) (hx : x.keeps g s) : x.keeps g st := by
  intro a st' e
  rw [hx a st' e, h]

theorem Outcome.keeps_bind {α γ β : Type} (g : Engine → β) (st : Engine) (x : Outcome α)
    (f : α → Engine → Outcome γ) (hx : x.keeps g st) (hf : ∀ a s, (f a s).keeps g s) :
    (x.bind f).keeps g st := by
  intro b st' h
  obtain ⟨a, s, h1, h2⟩ := (Outcome.bind_done x f b st').1 h
  rw [hf a s b st' h2, hx a s h1]

theorem Outcome.keeps_ite {α β : Type} (g : Engine → β) (st : Engine) (c : Prop) [Decidable c]
    (x y : Outcome α) (hx : x.keeps g st) (hy : y.keeps g st) :
    (if c then x else y).keeps g st := by
  split_ifs
  · exact hx
  · exact hy

/-- Code outside `game_run.cpp` keeps `g` when its changes of the world and the
blocking calls that it makes keep it. -/
theorem runActions_keeps {β : Type} (g : Engine → β)
    (wait : Engine → Int → Int → Outcome Unit)
    (hw : ∀ s k d, (wait s k d).keeps g s) :
    ∀ (acts : List Action),
      (∀ f, Action.modify f ∈ acts → ∀ s : Engine, g { s with world := f s.world } = g s) →
      ∀ st, (runActions wait acts st).keeps g st := by
  intro acts
  induction acts with
  | nil =>
    intro _ st
    exact Outcome.keeps_done g () st st rfl
  | cons a rest ih =>
    intro hmod st
    have hrest : ∀ f, Action.modify f ∈ rest →
        ∀ s : Engine, g { s with world := f s.world } = g s :=
      fun f hf => hmod f (List.mem_cons_of_mem _ hf)
    cases a with
    | modify f =>
      simp only [runActions]
      exact Outcome.keeps_from g st _ _ (hmod f (List.mem_cons_self _ _) st) (ih hrest _)
    | quit code =>
      simp only [runActions]
      exact Outcome.keeps_quit g st _
    | block call =>
      simp only [runActions]
      intro b st' h
      cases hwait : wait st call.untilwhat call.data with
      | done u s =>
        rw [hwait] at h
        rw [ih hrest s b st' h, hw st _ _ u s hwait]
      | quit q => rw [hwait] at h; cases h
      | timeout => rw [hwait] at h; cases h

theorem runHook_keeps {β : Type} (env : GameEnv) (g : Engine → β) (hO : Observed env g)
    (wait : Engine → Int → Int → Outcome Unit) (hw : ∀ s k d, (wait s k d).keeps g s)
    (h : Hook) (st : Engine) : (runHook env wait h st).keeps g st :=
  runActions_keeps g wait hw _ (fun f hf => hO.outside h st.world f hf) st

theorem game_loop_check_problems_at_start_keeps {β : Type} (env : GameEnv) (g : Engine → β)
    (hO : Observed env g) (st : Engine) :
    (game_loop_check_problems_at_start st).keeps g st := by
  intro a st' h
  simp only [game_loop_check_problems_at_start] at h
  split_ifs at h <;> cases h <;> first | rfl | exact hO.world st _ rfl

theorem game_loop_check_new_room_keeps {β : Type} (env : GameEnv) (g : Engine → β)
    (hO : Observed env g) (wait : Engine → Int → Int → Outcome Unit)
    (hw : ∀ s k d, (wait s k d).keeps g s) (st : Engine) :
    (game_loop_check_new_room env wait st).keeps g st := by
  unfold game_loop_check_new_room
  refine Outcome.keeps_bind g st _ _ ?_ (fun _ s => runHook_keeps env g hO wait hw _ s)
  refine Outcome.keeps_ite g st _ _ _ ?_ (Outcome.keeps_done g () st st rfl)
  refine Outcome.keeps_bind g st _ _ (runHook_keeps env g hO wait hw _ st) (fun _ s => ?_)
  exact Outcome.keeps_done g () s _ (hO.world s _ rfl)

theorem game_loop_do_late_update_keeps {β : Type} (env : GameEnv) (g : Engine → β)
    (hO : Observed env g) (wait : Engine → Int → Int → Outcome Unit)
    (hw : ∀ s k d, (wait s k d).keeps g s) (st : Engine) :
    (game_loop_do_late_update env wait st).keeps g st := by
  unfold game_loop_do_late_update
  exact Outcome.keeps_ite g st _ _ _ (runHook_keeps env g hO wait hw _ st)
    (Outcome.keeps_done g () st st rfl)

theorem fireRegionInteraction_keeps {β : Type} (env : GameEnv) (g : Engine → β)
    (hO : Observed env g) (wait : Engine → Int → Int → Outcome Unit)
    (hw : ∀ s k d, (wait s k d).keeps g s) (regnum mood : Int) (fired : List RegionCall)
    (st s : Engine) (hs : g s = g st) :
    (fireRegionInteraction env wait regnum mood fired s).keeps g st := by
  unfold fireRegionInteraction
  exact Outcome.keeps_from g st s _ hs (Outcome.keeps_bind g s _ _
    (runHook_keeps env g hO wait hw _ s) (fun _ s => Outcome.keeps_done g _ s s rfl))

theorem game_loop_check_ground_level_interactions_end_keeps {β : Type} (env : GameEnv)
    (g : Engine → β) (hO : Observed env g) (fired : List RegionCall) (st : Engine) :
    (game_loop_check_ground_level_interactions_end env fired st).keeps g st := by
  unfold game_loop_check_ground_level_interactions_end
  split_ifs
  · cases ShouldStayInWaitMode st with
    | error h => exact Outcome.keeps_quit g st _
    | ok stay =>
      simp only
      split_ifs
      · exact Outcome.keeps_done g _ st _ (hO.world st _ rfl)
      · exact Outcome.keeps_done g _ st st rfl
  · exact Outcome.keeps_done g _ st st rfl

theorem game_loop_check_ground_level_interactions_keeps {β : Type} (env : GameEnv)
    (g : Engine → β) (hO : Observed env g) (wait : Engine → Int → Int → Outcome Unit)
    (hw : ∀ s k d, (wait s k d).keeps g s) (st : Engine) :
    (game_loop_check_ground_level_interactions env wait st).keeps g st := by
  unfold game_loop_check_ground_level_interactions
  simp only
  apply Outcome.keeps_ite
  · apply Outcome.keeps_bind
    · apply Outcome.keeps_ite
      · apply Outcome.keeps_bind
        · apply Outcome.keeps_ite
          · refine fireRegionInteraction_keeps env g hO wait hw _ _ _ _ _ ?_
            exact hO.world st _ rfl
          · refine Outcome.keeps_done g _ _ _ ?_
            exact hO.world st _ rfl
        · intro fired s
          apply Outcome.keeps_ite
          · exact fireRegionInteraction_keeps env g hO wait hw _ _ _ _ _ rfl
          · exact Outcome.keeps_done g _ _ _ rfl
      · refine Outcome.keeps_done g _ _ _ ?_
        exact hO.world st _ rfl
    · intro fired s
      apply Outcome.keeps_bind
      · apply Outcome.keeps_ite
        · exact fireRegionInteraction_keeps env g hO wait hw _ _ _ _ _ rfl
        · exact Outcome.keeps_done g _ _ _ rfl
      · intro fired s
        apply Outcome.keeps_bind
        · apply Outcome.keeps_ite
          · apply Outcome.keeps_bind
            · exact runHook_keeps env g hO wait hw _ _
            · intro _ s
              exact Outcome.keeps_done g _ _ _ rfl
          · exact Outcome.keeps_done g _ _ _ rfl
        · intro fired s
          exact game_loop_check_ground_level_interactions_end_keeps env g hO fired s
  · exact Outcome.keeps_done g _ _ _ rfl

theorem check_room_edges_play (env : GameEnv) (numevents_was : Int) (w : World) :
    (check_room_edges env numevents_was w).play.disabled_user_interface =
      w.play.disabled_user_interface := by
  have hfold : ∀ (edges : Int → Int) (l : List Int) (w : World),
      (l.foldl
        (fun w ii =>
          if edges ii ≠ 0 then setevent [env.EV_RUNEVBLOCK, env.EVB_ROOM, 0, ii] w
          else w) w).play = w.play := by
    intro edges l
    induction l with
    | nil => intro w; rfl
    | cons ii rest ih =>
      intro w
      simp only [List.foldl_cons]
      rw [ih]
      split_ifs <;> rfl
  unfold check_room_edges
  by_cases c1 : env.IsInterfaceEnabled w ≠ 0 ∧ env.IsGamePaused w = 0 ∧
      w.in_new_room = 0 ∧ w.new_room_was = 0
  · rw [if_pos c1]
    by_cases c2 : w.numevents = numevents_was ∧
        Int.land w.play.ground_level_areas_disabled env.GLED_INTERACTION = 0
    · rw [if_pos c2]
      have hite : ∀ (c : Prop) [Decidable c] (a b : World),
          a.play.disabled_user_interface = w.play.disabled_user_interface →
          b.play.disabled_user_interface = w.play.disabled_user_interface →
          (if c then a else b).play.disabled_user_interface =
            w.play.disabled_user_interface := by
        intro c _ a b ha hb
        split_ifs
        · exact ha
        · exact hb
      simp only
      rw [hfold]
      exact hite _ _ _ rfl rfl
    · rw [if_neg c2]
  · rw [if_neg c1]

theorem game_loop_check_controls_keeps {β : Type} (env : GameEnv) (g : Engine → β)
    (hO : Observed env g) (wait : Engine → Int → Int → Outcome Unit)
    (hw : ∀ s k d, (wait s k d).keeps g s) (checkControls : Bool) (st : Engine) :
    (game_loop_check_controls env wait checkControls st).keeps g st := by
  unfold game_loop_check_controls
  simp only
  apply Outcome.keeps_ite
  · apply Outcome.keeps_bind
    · exact runHook_keeps env g hO wait hw _ _
    · intro _ s
      have hs : g { s with world := check_room_edges env st.world.numevents s.world } = g s :=
        hO.world s _ (check_room_edges_play env _ _)
      apply Outcome.keeps_ite
      · exact Outcome.keeps_from g s _ _ hs (runHook_keeps env g hO wait hw _ _)
      · exact Outcome.keeps_done g _ _ _ hs
  · exact Outcome.keeps_done g _ _ _ rfl

theorem game_loop_do_update_keeps {β : Type} (env : GameEnv) (g : Engine → β)
    (hO : Observed env g) (wait : Engine → Int → Int → Outcome Unit)
    (hw : ∀ s k d, (wait s k d).keeps g s) (st : Engine) :
    (game_loop_do_update env wait st).keeps g st := by
  unfold game_loop_do_update
  apply Outcome.keeps_ite
  · exact Outcome.keeps_done g _ _ _ rfl
  · apply Outcome.keeps_ite
    · exact runHook_keeps env g hO wait hw _ _
    · exact Outcome.keeps_done g _ _ _ rfl

theorem game_loop_do_render_and_check_mouse_keeps {β : Type} (env : GameEnv) (g : Engine → β)
    (hO : Observed env g) (wait : Engine → Int → Int → Outcome Unit)
    (hw : ∀ s k d, (wait s k d).keeps g s) (st : Engine) :
    (game_loop_do_render_and_check_mouse env wait st).keeps g st := by
  unfold game_loop_do_render_and_check_mouse
  apply Outcome.keeps_ite
  · apply Outcome.keeps_bind
    · exact runHook_keeps env g hO wait hw _ _
    · intro _ s
      apply Outcome.keeps_ite
      · exact Outcome.keeps_done g _ _ _ rfl
      · exact runHook_keeps env g hO wait hw _ _
  · exact Outcome.keeps_done g _ _ _ rfl

theorem World.ite_play (c : Prop) [Decidable c] (a b w : World)
    (ha : a.play.disabled_user_interface = w.play.disabled_user_interface)
    (hb : b.play.disabled_user_interface = w.play.disabled_user_interface) :
    (if c then a else b).play.disabled_user_interface = w.play.disabled_user_interface := by
  split_ifs
  · exact ha
  · exact hb

theorem game_loop_update_events_keeps {β : Type} (env : GameEnv) (g : Engine → β)
    (hO : Observed env g) (wait : Engine → Int → Int → Outcome Unit)
    (hw : ∀ s k d, (wait s k d).keeps g s) (st : Engine) :
    (game_loop_update_events env wait st).keeps g st := by
  unfold game_loop_update_events
  simp only
  apply Outcome.keeps_bind
  · refine Outcome.keeps_from g st _ _ ?_ (runHook_keeps env g hO wait hw _ _)
    exact hO.world st _ (World.ite_play _ _ _ _ rfl rfl)
  · intro _ s
    apply Outcome.keeps_ite
    · refine Outcome.keeps_done g _ _ _ ?_
      have hin := World.ite_play (s.world.new_room_was = 2)
        (setevent [env.EV_RUNEVBLOCK, env.EVB_ROOM, 0, 4] s.world) s.world s.world rfl rfl
      exact hO.world s _ (World.ite_play _ _ _ _ hin hin)
    · exact Outcome.keeps_done g _ _ _ rfl

theorem game_loop_update_background_animation_keeps {β : Type} (env : GameEnv)
    (g : Engine → β) (hO : Observed env g) (wait : Engine → Int → Int → Outcome Unit)
    (hw : ∀ s k d, (wait s k d).keeps g s) (st : Engine) :
    (game_loop_update_background_animation env wait st).keeps g st := by
  unfold game_loop_update_background_animation
  simp only
  apply Outcome.keeps_ite
  · exact Outcome.keeps_done g _ _ _ (hO.world st _ rfl)
  · apply Outcome.keeps_ite
    · exact Outcome.keeps_done g _ _ _ rfl
    · have hs : ∀ (c : Prop) [Decidable c] (a b : GameState),
          a.disabled_user_interface = st.world.play.disabled_user_interface →
          b.disabled_user_interface = st.world.play.disabled_user_interface →
          (if c then a else b).disabled_user_interface =
            st.world.play.disabled_user_interface := by
        intro c _ a b ha hb
        split_ifs
        · exact ha
        · exact hb
      apply Outcome.keeps_ite
      · refine Outcome.keeps_from g st _ _ ?_ (runHook_keeps env g hO wait hw _ _)
        exact hO.world st _ (hs _ _ _ rfl rfl)
      · refine Outcome.keeps_done g _ _ _ ?_
        exact hO.world st _ (hs _ _ _ rfl rfl)

theorem game_loop_update_loop_counter_keeps {β : Type} (env : GameEnv) (g : Engine → β)
    (hO : Observed env g) (wait : Engine → Int → Int → Outcome Unit)
    (hw : ∀ s k d, (wait s k d).keeps g s) (st : Engine) :
    (game_loop_update_loop_counter env wait st).keeps g st := by
  unfold game_loop_update_loop_counter
  simp only
  have hs : ∀ (c : Prop) [Decidable c] (a b : GameState),
      a.disabled_user_interface = st.world.play.disabled_user_interface →
      b.disabled_user_interface = st.world.play.disabled_user_interface →
      (if c then a else b).disabled_user_interface =
        st.world.play.disabled_user_interface := by
    intro c _ a b ha hb
    split_ifs
    · exact ha
    · exact hb
  have hin := hs (st.world.play.wait_counter > 0)
    { st.world.play with wait_counter := st.world.play.wait_counter - 1 } st.world.play rfl rfl
  apply Outcome.keeps_ite
  · apply Outcome.keeps_bind
    · refine Outcome.keeps_from g st _ _ ?_ (runHook_keeps env g hO wait hw _ _)
      exact hO.world st _ (hs _ _ _ hin hin)
    · intro _ s
      exact runHook_keeps env g hO wait hw _ _
  · refine Outcome.keeps_done g _ _ _ ?_
    exact hO.world st _ (hs _ _ _ hin hin)

theorem between_keeps {β : Type} (g : Engine → β) (f : Engine → Outcome Unit)
    (hf : ∀ s, (f s).keeps g s) (trace : List Phase) (st : Engine) :
    (between f trace st).keeps g st :=
  Outcome.keeps_bind g st _ _ (hf st) (fun _ s => Outcome.keeps_done g _ s s rfl)

theorem phase_keeps {β : Type} (g : Engine → β) (p : Phase) (f : Engine → Outcome Unit)
    (hf : ∀ s, (f s).keeps g s) (trace : List Phase) (st : Engine) :
    (phase p f trace st).keeps g st :=
  Outcome.keeps_bind g st _ _ (hf st) (fun _ s => Outcome.keeps_done g _ s s rfl)

theorem UpdateGameOnce_start_keeps {β : Type} (env : GameEnv) (g : Engine → β)
    (hO : Observed env g)
    (hrec : ∀ (st : Engine) (n : Int), g { st with numEventsAtStartOfFunction := n } = g st)
    (wait : Engine → Int → Int → Outcome Unit)
    (hw : ∀ s k d, (wait s k d).keeps g s) (st : Engine) :
    (UpdateGameOnce_start env wait st).keeps g st := by
  unfold UpdateGameOnce_start
  apply Outcome.keeps_bind
  · exact runHook_keeps env g hO wait hw _ _
  · intro _ s
    apply Outcome.keeps_bind
    · exact runHook_keeps env g hO wait hw _ _
    · intro _ s
      simp only
      apply Outcome.keeps_ite
      · exact Outcome.keeps_quit g _ _
      · exact Outcome.keeps_done g _ _ _ (hrec s _)

theorem UpdateGameOnce_head_keeps {β : Type} (env : GameEnv) (g : Engine → β)
    (hO : Observed env g)
    (hrec : ∀ (st : Engine) (n : Int), g { st with numEventsAtStartOfFunction := n } = g st)
    (wait : Engine → Int → Int → Outcome Unit)
    (hw : ∀ s k d, (wait s k d).keeps g s) (st : Engine) :
    (UpdateGameOnce_head env wait st).keeps g st := by
  unfold UpdateGameOnce_head
  apply Outcome.keeps_bind
  · apply Outcome.keeps_bind
    · apply Outcome.keeps_bind
      · apply Outcome.keeps_bind
        · apply Outcome.keeps_bind
          · apply Outcome.keeps_bind
            · exact Outcome.keeps_done g _ _ _ rfl
            · exact between_keeps g _ (UpdateGameOnce_start_keeps env g hO hrec wait hw)
          · exact between_keeps g _ (runHook_keeps env g hO wait hw _)
        · exact phase_keeps g _ _ (game_loop_check_problems_at_start_keeps env g hO)
      · refine between_keeps g _ (fun s => ?_)
        simp only
        refine Outcome.keeps_from g s _ _ ?_ (runHook_keeps env g hO wait hw _ _)
        split_ifs
        · exact hO.world s _ rfl
        · rfl
    · exact phase_keeps g _ _ (game_loop_check_new_room_keeps env g hO wait hw)
  · intro trace s
    apply Outcome.keeps_bind
    · exact game_loop_check_ground_level_interactions_keeps env g hO wait hw s
    · intro res s
      exact Outcome.keeps_done g _ _ _ rfl

theorem game_loop_update_animated_buttons_play (env : GameEnv) (w : World) :
    (game_loop_update_animated_buttons env w).play = w.play := rfl

theorem UpdateGameOnce_body_keeps {β : Type} (env : GameEnv) (g : Engine → β)
    (hO : Observed env g) (wait : Engine → Int → Int → Outcome Unit)
    (hw : ∀ s k d, (wait s k d).keeps g s) (checkControls : Bool) (trace : List Phase)
    (st : Engine) : (UpdateGameOnce_body env wait checkControls trace st).keeps g st := by
  unfold UpdateGameOnce_body
  apply Outcome.keeps_bind
  · apply Outcome.keeps_bind
    · apply Outcome.keeps_bind
      · apply Outcome.keeps_bind
        · apply Outcome.keeps_bind
          · apply Outcome.keeps_bind
            · apply Outcome.keeps_bind
              · apply Outcome.keeps_bind
                · apply Outcome.keeps_bind
                  · apply Outcome.keeps_bind
                    · apply Outcome.keeps_bind
                      · exact Outcome.keeps_done g _ _ _ (hO.world st _ rfl)
                      · exact between_keeps g _ (runHook_keeps env g hO wait hw _)
                    · exact phase_keeps g _ _ (game_loop_check_controls_keeps env g hO wait hw _)
                  · exact phase_keeps g _ _ (game_loop_do_update_keeps env g hO wait hw)
                · exact phase_keeps g _ _ (fun s => Outcome.keeps_done g _ _ _ (hO.world s _ rfl))
              · exact phase_keeps g _ _ (game_loop_do_late_update_keeps env g hO wait hw)
            · exact phase_keeps g _ _ (runHook_keeps env g hO wait hw _)
          · intro tr s
            apply Outcome.keeps_ite
            · exact phase_keeps g _ _ (game_loop_do_render_and_check_mouse_keeps env g hO wait hw)
                _ _
            · exact between_keeps g _ (game_loop_do_render_and_check_mouse_keeps env g hO wait hw)
                _ _
        · exact phase_keeps g _ _ (game_loop_update_events_keeps env g hO wait hw)
      · exact between_keeps g _ (runHook_keeps env g hO wait hw _)
    · exact phase_keeps g _ _ (game_loop_update_background_animation_keeps env g hO wait hw)
  · exact phase_keeps g _ _ (game_loop_update_loop_counter_keeps env g hO wait hw)

/-- A call of `UpdateGameOnce` that returns keeps `g`, when the blocking calls
made by code outside `game_run.cpp` keep it. -/
theorem UpdateGameOnce_keeps {β : Type} (env : GameEnv) (g : Engine → β)
    (hO : Observed env g)
    (hrec : ∀ (st : Engine) (n : Int), g { st with numEventsAtStartOfFunction := n } = g st)
    (wait : Engine → Int → Int → Outcome Unit)
    (hw : ∀ s k d, (wait s k d).keeps g s) (checkControls : Bool) (st : Engine) :
    (UpdateGameOnce env wait checkControls st).keeps g st := by
  unfold UpdateGameOnce
  apply Outcome.keeps_bind
  · exact UpdateGameOnce_head_keeps env g hO hrec wait hw st
  · intro res s
    apply Outcome.keeps_ite
    · exact Outcome.keeps_done g _ _ _ rfl
    · apply Outcome.keeps_bind
      · exact UpdateGameOnce_body_keeps env g hO wait hw _ _ _
      · intro tr s
        apply Outcome.keeps_ite
        · exact Outcome.keeps_done g _ _ _ rfl
        · apply Outcome.keeps_bind
          · exact phase_keeps g _ _ (runHook_keeps env g hO wait hw _) _ _
          · exact between_keeps g _ (runHook_keeps env g hO wait hw _)

/-! ## The blocking wait -/

theorem waitContext_observed (env : GameEnv) : Observed env waitContext :=
  ⟨fun _ _ _ => rfl, fun _ _ _ _ _ => rfl⟩

theorem uiDisabledDepth_observed (env : GameEnv)
    (hcode : ∀ (h : Hook) (w : World) (f : World → World), Action.modify f ∈ env.code h w →
      ∀ w' : World, (f w').play.disabled_user_interface = w'.play.disabled_user_interface) :
    Observed env uiDisabledDepth :=
  ⟨fun _ _ h => h, fun h w f hf st => hcode h w f hf st.world⟩

/-- The two ways in which `UpdateWaitMode` returns: with `RETURN_CONTINUE` and
the state as it was, when no wait is live or the live wait goes on; with -1,
when the condition of the live wait has cleared, after it has ended the wait. -/
theorem UpdateWaitMode_done (env : GameEnv) (m : Engine) (res : Int) (st' : Engine)
    (h : UpdateWaitMode env m = .done res st') :
    (res = env.RETURN_CONTINUE ∧ st' = m ∧
      (m.restrict_until = 0 ∨ ∃ k, k ≠ 0 ∧ ShouldStayInWaitMode m = .ok k)) ∨
    (res = -1 ∧ m.restrict_until ≠ 0 ∧ ShouldStayInWaitMode m = .ok 0 ∧
      m.user_disabled_for = env.FOR_EXITLOOP ∧
      st'.restrict_until = 0 ∧ st'.user_disabled_for = 0 ∧
      st'.user_disabled_data = m.user_disabled_data ∧
      st'.world.play.disabled_user_interface =
        (env.set_default_cursor m.world).play.disabled_user_interface - 1) := by
  by_cases h0 : m.restrict_until = 0
  · simp only [UpdateWaitMode, if_pos h0] at h
    cases h
    exact Or.inl ⟨rfl, rfl, Or.inl h0⟩
  · cases hs : ShouldStayInWaitMode m with
    | error e =>
      simp only [UpdateWaitMode, if_neg h0, hs] at h
      cases h
    | ok stay =>
      by_cases hstay : stay = 0
      · subst hstay
        right
        simp only [UpdateWaitMode, if_neg h0, hs, ne_eq, not_true_eq_false, if_false] at h
        split_ifs at h with hfor
        · cases h
          exact ⟨rfl, h0, rfl, hfor, rfl, rfl, rfl, rfl⟩
      · left
        have hm := UpdateWaitMode_stay m env stay hs hstay
        rw [hm] at h
        cases h
        exact ⟨rfl, rfl, Or.inr ⟨stay, hstay, rfl⟩⟩

/-- The parts of a call of `GameTick` that returns. -/
theorem GameTick_done (env : GameEnv) (wait : Engine → Int → Int → Outcome Unit)
    (st : Engine) (r : Int) (st' : Engine) (h : GameTick env wait st = .done r st') :
    ¬ st.world.displayed_room < 0 ∧
    ∃ trace m0 m res, UpdateGameOnce env wait true st = .done trace m0 ∧
      runHook env wait .UpdateMouseOverLocation m0 = .done () m ∧
      UpdateWaitMode env m = .done res st' ∧
      r = if res = env.RETURN_CONTINUE then 0 else res := by
  by_cases hroom : st.world.displayed_room < 0
  · simp only [GameTick, if_pos hroom] at h
    cases h
  · simp only [GameTick, if_neg hroom] at h
    obtain ⟨trace, m0, h1, h⟩ := (Outcome.bind_done _ _ _ _).1 h
    obtain ⟨u, m, h2, h⟩ := (Outcome.bind_done _ _ _ _).1 h
    obtain ⟨res, s, h3, h⟩ := (Outcome.bind_done _ _ _ _).1 h
    refine ⟨hroom, trace, m0, m, res, h1, h2, ?_, ?_⟩
    · split_ifs at h <;> cases h <;> exact h3
    · split_ifs at h with hres <;> cases h
      · exact (if_pos hres).symm
      · exact (if_neg hres).symm

/-- The loop of ticks returns right after its first tick with a result other
than 0; a property of the state that the ticks with result 0 keep holds when
the last tick starts. -/
theorem GameLoopUntilEvent_ticks_done (tick : Engine → Outcome Int) (P : Engine → Prop)
    (hP : ∀ s s', P s → tick s = .done 0 s' → P s') :
    ∀ (n : Nat) (st : Engine) (results : List Int) (st' : Engine),
      GameLoopUntilEvent_ticks tick n st = .done results st' → P st →
      ∃ (k : Nat) (r : Int) (m : Engine), results = List.replicate k 0 ++ [r] ∧ r ≠ 0 ∧
        P m ∧ tick m = .done r st' := by
  intro n
  induction n with
  | zero =>
    intro st results st' h
    simp only [GameLoopUntilEvent_ticks] at h
    cases h
  | succ n ih =>
    intro st results st' h hst
    simp only [GameLoopUntilEvent_ticks] at h
    cases ht : tick st with
    | done res s =>
      rw [ht] at h
      by_cases hres : res = 0
      · subst hres
        simp only [if_true] at h
        cases hl : GameLoopUntilEvent_ticks tick n s with
        | done rs s2 =>
          rw [hl] at h
          cases h
          obtain ⟨k, r, m, e, hr, hm, hlast⟩ := ih s rs st' hl (hP st s hst ht)
          exact ⟨k + 1, r, m, by rw [e]; rfl, hr, hm, hlast⟩
        | quit q => rw [hl] at h; cases h
        | timeout => rw [hl] at h; cases h
      · simp only [if_neg hres] at h
        cases h
        exact ⟨0, res, st, rfl, hres, hst, ht⟩
    | quit q => rw [ht] at h; cases h
    | timeout => rw [ht] at h; cases h

/-- The parts of a call of `GameLoopUntilEvent` that returns. -/
theorem GameLoopUntilEvent_done (env : GameEnv) (budget : Nat) (st : Engine)
    (untilwhat daaa : Int) (st' : Engine)
    (h : GameLoopUntilEvent env (budget + 1) st untilwhat daaa = .done () st') :
    ∃ st0 results m,
      runHook env (GameLoopUntilEvent env budget) .EndSkippingUntilCharStops st = .done () st0 ∧
      GameLoopUntilEvent_ticks (GameTick env (GameLoopUntilEvent env budget)) (budget + 1)
        (SetupLoopParameters env st0 untilwhat daaa) = .done results m ∧
      st' = { m with
        restrict_until := st0.restrict_until
        user_disabled_data := st0.user_disabled_data
        user_disabled_for := st0.user_disabled_for } := by
  simp only [GameLoopUntilEvent] at h
  cases hh : runHook env (GameLoopUntilEvent env budget) .EndSkippingUntilCharStops st with
  | done u st0 =>
    rw [hh] at h
    simp only at h
    cases hl : GameLoopUntilEvent_ticks (GameTick env (GameLoopUntilEvent env budget))
        (budget + 1) (SetupLoopParameters env st0 untilwhat daaa) with
    | done rs m =>
      rw [hl] at h
      cases h
      exact ⟨st0, rs, m, rfl, hl, rfl⟩
    | quit q => rw [hl] at h; cases h
    | timeout => rw [hl] at h; cases h
  | quit q => rw [hh] at h; cases h
  | timeout => rw [hh] at h; cases h

theorem GameLoopUntilEvent_keeps_waitContext (env : GameEnv) (budget : Nat) :
    ∀ (st : Engine) (untilwhat daaa : Int),
      (GameLoopUntilEvent env budget st untilwhat daaa).keeps waitContext st := by
  induction budget with
  | zero =>
    intro st untilwhat daaa a st' h
    simp only [GameLoopUntilEvent] at h
    cases h
  | succ budget ih =>
    intro st untilwhat daaa a st' h
    obtain ⟨st0, rs, m, h0, _, e⟩ := GameLoopUntilEvent_done env budget st untilwhat daaa st' h
    have hk := runHook_keeps env waitContext (waitContext_observed env) _ ih _ st () st0 h0
    rw [← hk, e]
    rfl

/-- The two ways in which `GameTick` returns, with `RETURN_CONTINUE` other than
-1: with 0 and the state `m` reached before `UpdateWaitMode`, when no wait is
live or the live wait goes on in `m`; with -1, when the condition of the live
wait has cleared in `m`.  The state `m` has the value `g` of the state at the
start of the tick, for every `g` that the code outside keeps. -/
theorem GameTick_cases {β : Type} (env : GameEnv) (g : Engine → β) (hO : Observed env g)
    (hrec : ∀ (st : Engine) (n : Int), g { st with numEventsAtStartOfFunction := n } = g st)
    (wait : Engine → Int → Int → Outcome Unit) (hw : ∀ s k d, (wait s k d).keeps g s)
    (hRC : env.RETURN_CONTINUE ≠ -1) (s : Engine) (r : Int) (s' : Engine)
    (h : GameTick env wait s = .done r s') :
    ∃ trace m0 m, UpdateGameOnce env wait true s = .done trace m0 ∧
      runHook env wait .UpdateMouseOverLocation m0 = .done () m ∧ g m = g s ∧
      ((r = 0 ∧ s' = m ∧ (m.restrict_until = 0 ∨ ∃ k, k ≠ 0 ∧ ShouldStayInWaitMode m = .ok k)) ∨
        (r = -1 ∧ m.restrict_until ≠ 0 ∧ ShouldStayInWaitMode m = .ok 0 ∧
          m.user_disabled_for = env.FOR_EXITLOOP ∧
          s'.restrict_until = 0 ∧ s'.user_disabled_for = 0 ∧
          s'.user_disabled_data = m.user_disabled_data ∧
          s'.world.play.disabled_user_interface =
            (env.set_default_cursor m.world).play.disabled_user_interface - 1)) := by
  obtain ⟨_, trace, m0, m, res, h1, h2, h3, hr⟩ := GameTick_done env wait s r s' h
  have hm0 := UpdateGameOnce_keeps env g hO hrec wait hw true s trace m0 h1
  have hm := runHook_keeps env g hO wait hw _ m0 () m h2
  refine ⟨trace, m0, m, h1, h2, hm.trans hm0, ?_⟩
  rcases UpdateWaitMode_done env m res s' h3 with ⟨e, hs, hlive⟩ | ⟨e, hrest⟩
  · left
    rw [hr, if_pos e]
    exact ⟨rfl, hs, hlive⟩
  · right
    have hne : ¬ res = env.RETURN_CONTINUE := by
      rw [e]
      exact fun h => hRC h.symm
    rw [hr, if_neg hne]
    exact ⟨e, hrest⟩

/-- One turn of the loop `while (GameTick()==0);`: a tick, and the loop again
exactly when the tick gave 0. -/
theorem GameLoopUntilEvent_ticks_succ (tick : Engine → Outcome Int) (n : Nat) (st : Engine) :
    GameLoopUntilEvent_ticks tick (n + 1) st =
      (tick st).bind fun res s1 =>
        if res = 0 then
          (GameLoopUntilEvent_ticks tick n s1).bind fun results s2 => .done (res :: results) s2
        else .done [res] s1 := by
  simp only [GameLoopUntilEvent_ticks]
  cases tick st with
  | done res s1 =>
    simp only [Outcome.bind]
    split_ifs
    · cases GameLoopUntilEvent_ticks tick n s1 <;> rfl
    · rfl
  | quit h => rfl
  | timeout => rfl

/-- The statements of `GameLoopUntilEvent`, one after the other. -/
theorem GameLoopUntilEvent_succ (env : GameEnv) (budget : Nat) (st : Engine)
    (untilwhat daaa : Int) :
    GameLoopUntilEvent env (budget + 1) st untilwhat daaa =
      (runHook env (GameLoopUntilEvent env budget) .EndSkippingUntilCharStops st).bind
        fun _ st0 =>
          (GameLoopUntilEvent_ticks (GameTick env (GameLoopUntilEvent env budget)) (budget + 1)
            (SetupLoopParameters env st0 untilwhat daaa)).bind fun _ m =>
            .done ()
              { m with
                restrict_until := st0.restrict_until
                user_disabled_data := st0.user_disabled_data
                user_disabled_for := st0.user_disabled_for } := by
  simp only [GameLoopUntilEvent]
  cases runHook env (GameLoopUntilEvent env budget) .EndSkippingUntilCharStops st with
  | done u st0 =>
    simp only [Outcome.bind]
    cases GameLoopUntilEvent_ticks (GameTick env (GameLoopUntilEvent env budget)) (budget + 1)
      (SetupLoopParameters env st0 untilwhat daaa) <;> rfl
  | quit h => rfl
  | timeout => rfl

/-- The run of a loop of ticks that returns: the states in which its ticks
start form a chain in which every tick but the last gives 0 and hands its state
to the next one; the last tick gives a result other than 0 and the state that
the loop returns.  A property of the state that the ticks with result 0 keep
holds at the start of every tick. -/
theorem GameLoopUntilEvent_ticks_run (tick : Engine → Outcome Int) (P : Engine → Prop)
    (hP : ∀ s s', P s → tick s = .done 0 s' → P s') :
    ∀ (n : Nat) (st : Engine) (results : List Int) (st' : Engine),
      GameLoopUntilEvent_ticks tick n st = .done results st' → P st →
      ∃ (rest : List Engine) (r : Int) (mlast : Engine),
        List.Chain (fun a b => tick a = .done 0 b) st rest ∧
        (st :: rest).getLast? = some mlast ∧ (∀ s ∈ st :: rest, P s) ∧
        results = List.replicate rest.length 0 ++ [r] ∧ r ≠ 0 ∧ tick mlast = .done r st' := by
  intro n
  induction n with
  | zero =>
    intro st results st' h
    simp only [GameLoopUntilEvent_ticks] at h
    cases h
  | succ n ih =>
    intro st results st' h hst
    rw [GameLoopUntilEvent_ticks_succ] at h
    obtain ⟨res, s, ht, h⟩ := (Outcome.bind_done _ _ _ _).1 h
    by_cases hres : res = 0
    · subst hres
      rw [if_pos rfl] at h
      obtain ⟨rs, s2, hl, h⟩ := (Outcome.bind_done _ _ _ _).1 h
      cases h
      obtain ⟨rest, r, mlast, hchain, hlast, hall, e, hr, hend⟩ :=
        ih s rs st' hl (hP st s hst ht)
      refine ⟨s :: rest, r, mlast, List.Chain.cons ht hchain, ?_, ?_, ?_, hr, hend⟩
      · rw [List.getLast?_cons_cons]
        exact hlast
      · intro x hx
        rcases List.mem_cons.1 hx with e1 | e1
        · rw [e1]
          exact hst
        · exact hall x e1
      · rw [e]
        rfl
    · rw [if_neg hres] at h
      cases h
      refine ⟨[], res, st, List.Chain.nil, rfl, ?_, rfl, hres, ht⟩
      intro x hx
      rw [List.mem_singleton.1 hx]
      exact hst

/-- A tick of the loop of a wait, started in the context of the wait, with
`RETURN_CONTINUE` other than -1: the blocking calls nested in the tick have
left the context of the wait live in the state `m` in which `UpdateWaitMode`
runs.  The tick gives 0 and returns `m` when no wait is live or the stop
predicate of the wait is not 0 in `m`, and gives -1 when the predicate is 0. -/
theorem GameTick_in_context (env : GameEnv) (budget : Nat) (hRC : env.RETURN_CONTINUE ≠ -1)
    (untilwhat daaa : Int) (s : Engine) (r : Int) (s' : Engine)
    (hs : waitContext s = (untilwhat, daaa, env.FOR_EXITLOOP))
    (ht : GameTick env (GameLoopUntilEvent env budget) s = .done r s') :
    ∃ (trace : List Phase) (m0 m : Engine),
      UpdateGameOnce env (GameLoopUntilEvent env budget) true s = .done trace m0 ∧
      runHook env (GameLoopUntilEvent env budget) .UpdateMouseOverLocation m0 = .done () m ∧
      m.restrict_until = untilwhat ∧ m.user_disabled_data = daaa ∧
      ((r = 0 ∧ s' = m ∧ waitContext s' = (untilwhat, daaa, env.FOR_EXITLOOP) ∧
          (untilwhat = 0 ∨ ∃ k, k ≠ 0 ∧ ShouldStayInWaitMode m = .ok k)) ∨
        (r = -1 ∧ untilwhat ≠ 0 ∧ ShouldStayInWaitMode m = .ok 0 ∧
          UpdateWaitMode env m = .done (-1) s')) := by
  obtain ⟨_, trace, m0, m, res, h1, h2, h3, hr⟩ := GameTick_done env _ s r s' ht
  have hm0 := UpdateGameOnce_keeps env waitContext (waitContext_observed env) (fun _ _ => rfl) _
    (GameLoopUntilEvent_keeps_waitContext env budget) true s trace m0 h1
  have hm := runHook_keeps env waitContext (waitContext_observed env) _
    (GameLoopUntilEvent_keeps_waitContext env budget) _ m0 () m h2
  have hctx : waitContext m = (untilwhat, daaa, env.FOR_EXITLOOP) := (hm.trans hm0).trans hs
  have hm' := hctx
  simp only [waitContext, Prod.mk.injEq] at hm'
  refine ⟨trace, m0, m, h1, h2, hm'.1, hm'.2.1, ?_⟩
  rcases UpdateWaitMode_done env m res s' h3 with ⟨e, hs', hlive⟩ | ⟨e, hne, hstop, _⟩
  · left
    rw [hr, if_pos e]
    refine ⟨rfl, hs', by rw [hs', hctx], ?_⟩
    rw [← hm'.1]
    exact hlive
  · right
    have hne' : ¬ res = env.RETURN_CONTINUE := by
      rw [e]
      exact fun h => hRC h.symm
    rw [hr, if_neg hne']
    refine ⟨e, ?_, hstop, ?_⟩
    · rw [← hm'.1]
      exact hne
    · rw [← e]
      exact h3

/-- The run of a call of `GameLoopUntilEvent(untilwhat, daaa)` that returns,
with `RETURN_CONTINUE` other than -1: after `EndSkippingUntilCharStops` and
`SetupLoopParameters`, a chain of ticks that each start in the context of this
wait; all but the last give 0, and the last gives -1, with the stop predicate
for `untilwhat` and `daaa` equal to 0 in the state `m` in which its
`UpdateWaitMode` runs; the state returned is the one that this tick leaves,
with the context found at entry put back. -/
theorem GameLoopUntilEvent_run (env : GameEnv) (budget : Nat) (hRC : env.RETURN_CONTINUE ≠ -1)
    (st : Engine) (untilwhat daaa : Int) (st' : Engine)
    (h : GameLoopUntilEvent env (budget + 1) st untilwhat daaa = .done () st') :
    ∃ (st0 : Engine) (rest : List Engine) (mlast : Engine) (trace : List Phase)
      (m0 m mend : Engine),
      runHook env (GameLoopUntilEvent env budget) .EndSkippingUntilCharStops st = .done () st0 ∧
      List.Chain (fun a b => GameTick env (GameLoopUntilEvent env budget) a = .done 0 b)
        (SetupLoopParameters env st0 untilwhat daaa) rest ∧
      (SetupLoopParameters env st0 untilwhat daaa :: rest).getLast? = some mlast ∧
      (∀ s ∈ SetupLoopParameters env st0 untilwhat daaa :: rest,
        waitContext s = (untilwhat, daaa, env.FOR_EXITLOOP)) ∧
      GameLoopUntilEvent_ticks (GameTick env (GameLoopUntilEvent env budget)) (budget + 1)
        (SetupLoopParameters env st0 untilwhat daaa) =
          .done (List.replicate rest.length 0 ++ [-1]) mend ∧
      GameTick env (GameLoopUntilEvent env budget) mlast = .done (-1) mend ∧
      UpdateGameOnce env (GameLoopUntilEvent env budget) true mlast = .done trace m0 ∧
      runHook env (GameLoopUntilEvent env budget) .UpdateMouseOverLocation m0 = .done () m ∧
      m.restrict_until = untilwhat ∧ m.user_disabled_data = daaa ∧ untilwhat ≠ 0 ∧
      ShouldStayInWaitMode m = .ok 0 ∧ UpdateWaitMode env m = .done (-1) mend ∧
      st' =
        { mend with
          restrict_until := st0.restrict_until
          user_disabled_data := st0.user_disabled_data
          user_disabled_for := st0.user_disabled_for } := by
  obtain ⟨st0, rs, mend, h0, hl, e⟩ := GameLoopUntilEvent_done env budget st untilwhat daaa st' h
  have hP : ∀ s s', waitContext s = (untilwhat, daaa, env.FOR_EXITLOOP) →
      GameTick env (GameLoopUntilEvent env budget) s = .done 0 s' →
      waitContext s' = (untilwhat, daaa, env.FOR_EXITLOOP) := by
    intro s s' hs ht
    obtain ⟨_, _, _, _, _, _, _, hcase⟩ :=
      GameTick_in_context env budget hRC untilwhat daaa s 0 s' hs ht
    rcases hcase with ⟨_, _, e, _⟩ | ⟨e, _⟩
    · exact e
    · exact absurd e (by decide)
  obtain ⟨rest, r, mlast, hchain, hlast, hall, ers, hr, hend⟩ :=
    GameLoopUntilEvent_ticks_run _ _ hP _ _ rs mend hl rfl
  have hPm : waitContext mlast = (untilwhat, daaa, env.FOR_EXITLOOP) :=
    hall mlast (List.mem_of_mem_getLast? hlast)
  obtain ⟨trace, m0, m, h1, h2, hk, hd, hcase⟩ :=
    GameTick_in_context env budget hRC untilwhat daaa mlast r mend hPm hend
  rcases hcase with ⟨e0, _⟩ | ⟨e1, hne, hstop, hupd⟩
  · exact absurd e0 hr
  · subst e1
    exact ⟨st0, rest, mlast, trace, m0, m, mend, h0, hchain, hlast, hall, by rw [hl, ers], hend,
      h1, h2, hk, hd, hne, hstop, hupd, e⟩

/-- Claim C16: when `GameLoopUntilEvent(kind, data)` returns, the wait context
(`restrict_until`, `user_disabled_data`, `user_disabled_for`) is the one at
entry, whatever it was (first part).  So code that runs inside a tick of a wait
A and makes blocking calls, nested to any depth, leaves the context of A live
when it returns (second part).  A tick of the loop of A that starts in the
context of A and gives 0, so that the loop goes on, ends in the context of A
with the stop predicate of A not 0, whatever waits were nested in it (third
part).  With `RETURN_CONTINUE` other than -1, the run of a call for A that
returns is a chain of ticks that all start in the context of A; the last one
gives -1, with the stop predicate for the kind and the data of A equal to 0 in
the state in which its `UpdateWaitMode` runs, and the state returned is the
one this tick leaves with the context of entry put back (fourth part).  The
function is the sequence `EndSkippingUntilCharStops`, `SetupLoopParameters`,
the loop of ticks, the restoring of the context (fifth part). -/
theorem GameLoopUntilEvent_restores (env : GameEnv) (budget : Nat) :
    (∀ (st : Engine) (untilwhat daaa : Int) (st' : Engine),
      GameLoopUntilEvent env budget st untilwhat daaa = .done () st' →
      st'.restrict_until = st.restrict_until ∧
      st'.user_disabled_data = st.user_disabled_data ∧
      st'.user_disabled_for = st.user_disabled_for) ∧
    (∀ (acts : List Action) (s s' : Engine),
      runActions (GameLoopUntilEvent env budget) acts s = .done () s' →
      s'.restrict_until = s.restrict_until ∧
      s'.user_disabled_data = s.user_disabled_data ∧
      s'.user_disabled_for = s.user_disabled_for) ∧
    (env.RETURN_CONTINUE ≠ -1 →
      ∀ (untilwhat daaa : Int) (s s' : Engine), untilwhat ≠ 0 →
        waitContext s = (untilwhat, daaa, env.FOR_EXITLOOP) →
        GameTick env (GameLoopUntilEvent env budget) s = .done 0 s' →
        waitContext s' = (untilwhat, daaa, env.FOR_EXITLOOP) ∧
        ∃ (trace : List Phase) (m0 : Engine),
          UpdateGameOnce env (GameLoopUntilEvent env budget) true s = .done trace m0 ∧
          runHook env (GameLoopUntilEvent env budget) .UpdateMouseOverLocation m0 =
            .done () s' ∧
          ∃ k, k ≠ 0 ∧ ShouldStayInWaitMode s' = .ok k) ∧
    (env.RETURN_CONTINUE ≠ -1 →
      ∀ (st : Engine) (untilwhat daaa : Int) (st' : Engine),
        GameLoopUntilEvent env (budget + 1) st untilwhat daaa = .done () st' →
        ∃ (st0 : Engine) (rest : List Engine) (mlast : Engine) (trace : List Phase)
          (m0 m mend : Engine),
          runHook env (GameLoopUntilEvent env budget) .EndSkippingUntilCharStops st =
            .done () st0 ∧
          List.Chain (fun a b => GameTick env (GameLoopUntilEvent env budget) a = .done 0 b)
            (SetupLoopParameters env st0 untilwhat daaa) rest ∧
          (SetupLoopParameters env st0 untilwhat daaa :: rest).getLast? = some mlast ∧
          (∀ s ∈ SetupLoopParameters env st0 untilwhat daaa :: rest,
            waitContext s = (untilwhat, daaa, env.FOR_EXITLOOP)) ∧
          UpdateGameOnce env (GameLoopUntilEvent env budget) true mlast = .done trace m0 ∧
          runHook env (GameLoopUntilEvent env budget) .UpdateMouseOverLocation m0 =
            .done () m ∧
          m.restrict_until = untilwhat ∧ m.user_disabled_data = daaa ∧ untilwhat ≠ 0 ∧
          ShouldStayInWaitMode m = .ok 0 ∧ UpdateWaitMode env m = .done (-1) mend ∧
          st' =
            { mend with
              restrict_until := st0.restrict_until
              user_disabled_data := st0.user_disabled_data
              user_disabled_for := st0.user_disabled_for } ∧
          (st0.restrict_until, st0.user_disabled_data, st0.user_disabled_for) =
            (st.restrict_until, st.user_disabled_data, st.user_disabled_for)) ∧
    (∀ (st : Engine) (untilwhat daaa : Int),
      GameLoopUntilEvent env 0 st untilwhat daaa = .timeout ∧
      GameLoopUntilEvent env (budget + 1) st untilwhat daaa =
        (runHook env (GameLoopUntilEvent env budget) .EndSkippingUntilCharStops st).bind
          fun _ st0 =>
            (GameLoopUntilEvent_ticks (GameTick env (GameLoopUntilEvent env budget))
              (budget + 1) (SetupLoopParameters env st0 untilwhat daaa)).bind fun _ m =>
              .done ()
                { m with
                  restrict_until := st0.restrict_until
                  user_disabled_data := st0.user_disabled_data
                  user_disabled_for := st0.user_disabled_for }) := by
  have hctx : ∀ a b : Engine, waitContext a = waitContext b →
      a.restrict_until = b.restrict_until ∧ a.user_disabled_data = b.user_disabled_data ∧
      a.user_disabled_for = b.user_disabled_for := by
    intro a b h
    simp only [waitContext, Prod.mk.injEq] at h
    exact h
  refine ⟨?_, ?_, ?_, ?_, ?_⟩
  · intro st untilwhat daaa st' h
    exact hctx _ _ (GameLoopUntilEvent_keeps_waitContext env budget st untilwhat daaa () st' h)
  · intro acts s s' h
    exact hctx _ _ (runActions_keeps waitContext _
      (GameLoopUntilEvent_keeps_waitContext env budget) acts (fun _ _ _ => rfl) s () s' h)
  · intro hRC untilwhat daaa s s' hk hs ht
    obtain ⟨trace, m0, m, h1, h2, _, _, hcase⟩ :=
      GameTick_in_context env budget hRC untilwhat daaa s 0 s' hs ht
    rcases hcase with ⟨_, e, hc, hlive⟩ | ⟨e, _⟩
    · subst e
      exact ⟨hc, trace, m0, h1, h2, hlive.resolve_left hk⟩
    · exact absurd e (by decide)
  · intro hRC st untilwhat daaa st' h
    obtain ⟨st0, rest, mlast, trace, m0, m, mend, h0, hchain, hlast, hall, _, _, h1, h2, hk, hd,
      hne, hstop, hupd, e⟩ := GameLoopUntilEvent_run env budget hRC st untilwhat daaa st' h
    have hkeep := runHook_keeps env waitContext (waitContext_observed env) _
      (GameLoopUntilEvent_keeps_waitContext env budget) _ st () st0 h0
    exact ⟨st0, rest, mlast, trace, m0, m, mend, h0, hchain, hlast, hall, h1, h2, hk, hd, hne,
      hstop, hupd, e, hkeep⟩
  · intro st untilwhat daaa
    exact ⟨by simp only [GameLoopUntilEvent], GameLoopUntilEvent_succ env budget st untilwhat daaa⟩

theorem GameLoopUntilEvent_restores_witness :
    (∃ st', GameLoopUntilEvent sampleGame 3 sampleEngine UNTIL_INTIS0 200 = .done () st' ∧
      st'.restrict_until = sampleEngine.restrict_until ∧
      st'.user_disabled_data = sampleEngine.user_disabled_data ∧
      st'.user_disabled_for = sampleEngine.user_disabled_for) ∧
    (∃ st', GameLoopUntilEvent sampleGame 3
        { sampleEngine with
          restrict_until := UNTIL_NEGATIVE, user_disabled_data := 100, user_disabled_for := 2 }
        UNTIL_INTIS0 200 = .done () st' ∧
      st'.restrict_until = UNTIL_NEGATIVE ∧ st'.user_disabled_data = 100 ∧
      st'.user_disabled_for = 2) ∧
    ∃ (st' m mend : Engine),
      GameLoopUntilEvent sampleGame 3 sampleEngine UNTIL_INTIS0 200 = .done () st' ∧
      m.restrict_until = UNTIL_INTIS0 ∧ m.user_disabled_data = 200 ∧
      ShouldStayInWaitMode m = .ok 0 ∧ UpdateWaitMode sampleGame m = .done (-1) mend ∧
      st' =
        { mend with
          restrict_until := sampleEngine.restrict_until
          user_disabled_data := sampleEngine.user_disabled_data
          user_disabled_for := sampleEngine.user_disabled_for } :=
  ⟨⟨_, rfl, (GameLoopUntilEvent_restores sampleGame 3).1 sampleEngine UNTIL_INTIS0 200 _ rfl⟩,
    ⟨_, rfl, (GameLoopUntilEvent_restores sampleGame 3).1
      { sampleEngine with
        restrict_until := UNTIL_NEGATIVE, user_disabled_data := 100, user_disabled_for := 2 }
      UNTIL_INTIS0 200 _ rfl⟩,
    by
      obtain ⟨st0, rest, mlast, trace, m0, m, mend, h0, _, _, _, _, _, hk, hd, _, hstop, hupd, e,
        _⟩ := (GameLoopUntilEvent_restores sampleGame 2).2.2.2.1 (by decide) sampleEngine
          UNTIL_INTIS0 200 _ rfl
      cases h0
      exact ⟨_, m, mend, rfl, hk, hd, hstop, hupd, e⟩⟩

/-- One tick changes the depth counter only when it ends a wait. -/
theorem GameTick_uiDisabledDepth (env : GameEnv) (hRC : env.RETURN_CONTINUE ≠ -1)
    (hcode : ∀ (h : Hook) (w : World) (f : World → World), Action.modify f ∈ env.code h w →
      ∀ w' : World, (f w').play.disabled_user_interface = w'.play.disabled_user_interface)
    (hdefault : ∀ w : World,
      (env.set_default_cursor w).play.disabled_user_interface = w.play.disabled_user_interface)
    (wait : Engine → Int → Int → Outcome Unit)
    (hw : ∀ s k d, (wait s k d).keeps uiDisabledDepth s) (s : Engine) (r : Int) (s' : Engine)
    (h : GameTick env wait s = .done r s') :
    (r = 0 → uiDisabledDepth s' = uiDisabledDepth s) ∧
    (r ≠ 0 → uiDisabledDepth s' = uiDisabledDepth s - 1) := by
  obtain ⟨_, _, m, _, _, hm, hcase⟩ := GameTick_cases env uiDisabledDepth
    (uiDisabledDepth_observed env hcode) (fun _ _ => rfl) wait hw hRC s r s' h
  rcases hcase with ⟨e, hs, _⟩ | ⟨e, _, _, _, _, _, _, hui⟩
  · refine ⟨fun _ => by rw [hs, hm], fun hne => absurd e hne⟩
  · refine ⟨fun h0 => ?_, fun _ => ?_⟩
    · rw [e] at h0
      exact absurd h0 (by decide)
    · show s'.world.play.disabled_user_interface = uiDisabledDepth s - 1
      rw [hui, hdefault, ← hm]
      rfl

theorem GameLoopUntilEvent_keeps_uiDisabledDepth (env : GameEnv)
    (hRC : env.RETURN_CONTINUE ≠ -1)
    (hcode : ∀ (h : Hook) (w : World) (f : World → World), Action.modify f ∈ env.code h w →
      ∀ w' : World, (f w').play.disabled_user_interface = w'.play.disabled_user_interface)
    (hdefault : ∀ w : World,
      (env.set_default_cursor w).play.disabled_user_interface = w.play.disabled_user_interface)
    (hcursor : ∀ (c : Int) (w : World),
      (env.set_mouse_cursor c w).play.disabled_user_interface = w.play.disabled_user_interface)
    (budget : Nat) :
    ∀ (st : Engine) (untilwhat daaa : Int),
      (GameLoopUntilEvent env budget st untilwhat daaa).keeps uiDisabledDepth st := by
  induction budget with
  | zero =>
    intro st untilwhat daaa a st' h
    simp only [GameLoopUntilEvent] at h
    cases h
  | succ budget ih =>
    intro st untilwhat daaa a st' h
    obtain ⟨st0, rs, m, h0, hl, e⟩ := GameLoopUntilEvent_done env budget st untilwhat daaa st' h
    have hk : uiDisabledDepth st0 = uiDisabledDepth st :=
      runHook_keeps env uiDisabledDepth (uiDisabledDepth_observed env hcode) _ ih _ st () st0 h0
    have hsetup : uiDisabledDepth (SetupLoopParameters env st0 untilwhat daaa) =
        uiDisabledDepth st0 + 1 := by
      simp only [SetupLoopParameters, uiDisabledDepth]
      split_ifs
      · rw [hcursor]
      · rfl
    obtain ⟨k, r, mlast, _, hr, hPm, hlast⟩ := GameLoopUntilEvent_ticks_done
      (GameTick env (GameLoopUntilEvent env budget))
      (fun s => uiDisabledDepth s = uiDisabledDepth (SetupLoopParameters env st0 untilwhat daaa))
      (fun s s' hs ht =>
        ((GameTick_uiDisabledDepth env hRC hcode hdefault _ ih s 0 s' ht).1 rfl).trans hs)
      _ _ rs m hl rfl
    have hend := (GameTick_uiDisabledDepth env hRC hcode hdefault _ ih mlast r m hlast).2 hr
    have hm : uiDisabledDepth st' = uiDisabledDepth m := by
      rw [e]
      rfl
    rw [hm, hend, hPm, hsetup, hk]
    omega

/-- Claim C17: with `RETURN_CONTINUE` other than -1 and code outside
`game_run.cpp` that does not write `play.disabled_user_interface`,
`SetupLoopParameters` adds exactly one to the counter, a tick of the wait loop
that lets the loop go on leaves it as it is, the tick that ends the loop takes
exactly one off, and a call of `GameLoopUntilEvent` that returns leaves the
counter at its value at entry; this holds for blocking calls nested to any
depth. -/
theorem disabled_user_interface_balanced (env : GameEnv) (budget : Nat)
    (hRC : env.RETURN_CONTINUE ≠ -1)
    (hcode : ∀ (h : Hook) (w : World) (f : World → World), Action.modify f ∈ env.code h w →
      ∀ w' : World, (f w').play.disabled_user_interface = w'.play.disabled_user_interface)
    (hdefault : ∀ w : World,
      (env.set_default_cursor w).play.disabled_user_interface = w.play.disabled_user_interface)
    (hcursor : ∀ (c : Int) (w : World),
      (env.set_mouse_cursor c w).play.disabled_user_interface = w.play.disabled_user_interface) :
    (∀ (st : Engine) (untilwhat udata : Int),
      (SetupLoopParameters env st untilwhat udata).world.play.disabled_user_interface =
        st.world.play.disabled_user_interface + 1) ∧
    (∀ (s : Engine) (r : Int) (s' : Engine),
      GameTick env (GameLoopUntilEvent env budget) s = .done r s' →
      (r = 0 → s'.world.play.disabled_user_interface = s.world.play.disabled_user_interface) ∧
      (r ≠ 0 →
        s'.world.play.disabled_user_interface = s.world.play.disabled_user_interface - 1)) ∧
    (∀ (st : Engine) (untilwhat daaa : Int) (st' : Engine),
      GameLoopUntilEvent env budget st untilwhat daaa = .done () st' →
      st'.world.play.disabled_user_interface = st.world.play.disabled_user_interface) := by
  refine ⟨?_, ?_, ?_⟩
  · intro st untilwhat udata
    simp only [SetupLoopParameters]
    split_ifs
    · rw [hcursor]
    · rfl
  · intro s r s' h
    exact GameTick_uiDisabledDepth env hRC hcode hdefault _
      (GameLoopUntilEvent_keeps_uiDisabledDepth env hRC hcode hdefault hcursor budget) s r s' h
  · intro st untilwhat daaa st' h
    exact GameLoopUntilEvent_keeps_uiDisabledDepth env hRC hcode hdefault hcursor budget
      st untilwhat daaa () st' h

/-- The sample environment does not write `play.disabled_user_interface`. -/
theorem sampleGame_code_keeps_depth (h : Hook) (w : World) (f : World → World)
    (hf : Action.modify f ∈ sampleGame.code h w) (w' : World) :
    (f w').play.disabled_user_interface = w'.play.disabled_user_interface := by
  cases h <;> simp only [sampleGame] at hf <;>
    first
    | (simp only [List.mem_singleton, Action.modify.injEq] at hf; subst hf; rfl)
    | (split_ifs at hf <;> simp at hf <;> subst hf <;> rfl)
    | (simp at hf)

theorem disabled_user_interface_balanced_witness :
    ∃ st', GameLoopUntilEvent sampleGame 3 sampleEngine UNTIL_INTIS0 200 = .done () st' ∧
      st'.world.play.disabled_user_interface = sampleEngine.world.play.disabled_user_interface :=
  ⟨_, rfl, (disabled_user_interface_balanced sampleGame 3 (by decide)
    sampleGame_code_keeps_depth (fun _ => rfl) (fun _ _ => rfl)).2.2
    sampleEngine UNTIL_INTIS0 200 _ rfl⟩

/-- Claim C18, refuted as stated: the tick that `GameLoopUntilEvent` makes for
a wait whose condition is satisfied at entry is not a full tick: in the sample environment, a wait for
the `int` at address 500, which is 0, makes one tick, and the call of
`UpdateGameOnce` of this tick returns after the ground-level phase, with three
of the thirteen phases run and the loop counter not advanced. -/
theorem GameLoopUntilEvent_first_tick_not_full :
    ShouldStayInWaitMode (SetupLoopParameters sampleGame sampleEngine UNTIL_INTIS0 500) =
      .ok 0 ∧
    ∃ (m0 mend st' : Engine),
      UpdateGameOnce sampleGame (GameLoopUntilEvent sampleGame 3) true
        (SetupLoopParameters sampleGame sampleEngine UNTIL_INTIS0 500) =
          .done [.preChecks, .newRoomCheck, .groundLevelInteractions] m0 ∧
      [Phase.preChecks, .newRoomCheck, .groundLevelInteractions] ≠ Phase.all ∧
      m0.world.loopcounter = sampleEngine.world.loopcounter ∧
      GameLoopUntilEvent_ticks (GameTick sampleGame (GameLoopUntilEvent sampleGame 3)) 4
        (SetupLoopParameters sampleGame sampleEngine UNTIL_INTIS0 500) = .done [-1] mend ∧
      GameLoopUntilEvent sampleGame 4 sampleEngine UNTIL_INTIS0 500 = .done () st' :=
  ⟨rfl, _, _, _, rfl, by decide, rfl, rfl, rfl⟩

/-- Claim C18, as amended: with `RETURN_CONTINUE` other than -1, a call of
`GameTick` that returns gives 0 when at its end no wait is live or the stop
predicate of the live wait is not 0, and gives -1 when the predicate of the
live wait is 0 (first part).  The loop of `GameLoopUntilEvent` calls `GameTick`
at least once, goes on exactly while the result is 0, and returns right after
the first tick whose result is not 0 (second part).  A tick of the loop of
`GameLoopUntilEvent(kind, data)` that starts in the context of that wait ends
in it; it gives 0 with no live wait (`kind = 0`) or the predicate for `kind`
and `data` not 0 in the state in which `UpdateWaitMode` runs, and it gives -1
with the predicate for `kind` and `data` equal to 0 there (third part).  The
run of a call that returns is a chain of ticks that all start in the context
of the wait, with results `0, ..., 0, -1`: the call returns after the first
tick at whose end the predicate is 0, and after no tick at whose end it is
not (fourth part).  The function is the sequence `EndSkippingUntilCharStops`,
`SetupLoopParameters`, the loop of ticks, the restoring of the context (fifth
part). -/
theorem GameLoopUntilEvent_drives_ticks (env : GameEnv) (budget : Nat)
    (hRC : env.RETURN_CONTINUE ≠ -1) :
    (∀ (wait : Engine → Int → Int → Outcome Unit) (s : Engine) (r : Int) (s' : Engine),
      GameTick env wait s = .done r s' →
      ∃ trace m0 m, UpdateGameOnce env wait true s = .done trace m0 ∧
        runHook env wait .UpdateMouseOverLocation m0 = .done () m ∧
        ((r = 0 ∧ (m.restrict_until = 0 ∨ ∃ k, k ≠ 0 ∧ ShouldStayInWaitMode m = .ok k)) ∨
          (r = -1 ∧ m.restrict_until ≠ 0 ∧ ShouldStayInWaitMode m = .ok 0))) ∧
    ((∀ (tick : Engine → Outcome Int) (s : Engine),
        GameLoopUntilEvent_ticks tick 0 s = .timeout) ∧
      (∀ (tick : Engine → Outcome Int) (n : Nat) (s : Engine),
        GameLoopUntilEvent_ticks tick (n + 1) s =
          (tick s).bind fun res s1 =>
            if res = 0 then
              (GameLoopUntilEvent_ticks tick n s1).bind fun results s2 =>
                .done (res :: results) s2
            else .done [res] s1) ∧
      ∀ (tick : Engine → Outcome Int) (n : Nat) (s : Engine) (results : List Int)
        (s' : Engine), GameLoopUntilEvent_ticks tick n s = .done results s' →
        ∃ (rest : List Engine) (r : Int) (mlast : Engine),
          List.Chain (fun a b => tick a = .done 0 b) s rest ∧
          (s :: rest).getLast? = some mlast ∧
          results = List.replicate rest.length 0 ++ [r] ∧ r ≠ 0 ∧ tick mlast = .done r s') ∧
    (∀ (untilwhat daaa : Int) (s : Engine) (r : Int) (s' : Engine),
      waitContext s = (untilwhat, daaa, env.FOR_EXITLOOP) →
      GameTick env (GameLoopUntilEvent env budget) s = .done r s' →
      ∃ (trace : List Phase) (m0 m : Engine),
        UpdateGameOnce env (GameLoopUntilEvent env budget) true s = .done trace m0 ∧
        runHook env (GameLoopUntilEvent env budget) .UpdateMouseOverLocation m0 = .done () m ∧
        m.restrict_until = untilwhat ∧ m.user_disabled_data = daaa ∧
        ((r = 0 ∧ s' = m ∧ waitContext s' = (untilwhat, daaa, env.FOR_EXITLOOP) ∧
            (untilwhat = 0 ∨ ∃ k, k ≠ 0 ∧ ShouldStayInWaitMode m = .ok k)) ∨
          (r = -1 ∧ untilwhat ≠ 0 ∧ ShouldStayInWaitMode m = .ok 0 ∧
            UpdateWaitMode env m = .done (-1) s'))) ∧
    (∀ (st : Engine) (untilwhat daaa : Int) (st' : Engine),
      GameLoopUntilEvent env (budget + 1) st untilwhat daaa = .done () st' →
      ∃ (st0 : Engine) (rest : List Engine) (mlast : Engine) (trace : List Phase)
        (m0 m mend : Engine),
        runHook env (GameLoopUntilEvent env budget) .EndSkippingUntilCharStops st =
          .done () st0 ∧
        List.Chain (fun a b => GameTick env (GameLoopUntilEvent env budget) a = .done 0 b)
          (SetupLoopParameters env st0 untilwhat daaa) rest ∧
        (SetupLoopParameters env st0 untilwhat daaa :: rest).getLast? = some mlast ∧
        (∀ s ∈ SetupLoopParameters env st0 untilwhat daaa :: rest,
          waitContext s = (untilwhat, daaa, env.FOR_EXITLOOP)) ∧
        GameLoopUntilEvent_ticks (GameTick env (GameLoopUntilEvent env budget)) (budget + 1)
          (SetupLoopParameters env st0 untilwhat daaa) =
            .done (List.replicate rest.length 0 ++ [-1]) mend ∧
        GameTick env (GameLoopUntilEvent env budget) mlast = .done (-1) mend ∧
        UpdateGameOnce env (GameLoopUntilEvent env budget) true mlast = .done trace m0 ∧
        runHook env (GameLoopUntilEvent env budget) .UpdateMouseOverLocation m0 = .done () m ∧
        m.restrict_until = untilwhat ∧ m.user_disabled_data = daaa ∧ untilwhat ≠ 0 ∧
        ShouldStayInWaitMode m = .ok 0 ∧ UpdateWaitMode env m = .done (-1) mend ∧
        st' =
          { mend with
            restrict_until := st0.restrict_until
            user_disabled_data := st0.user_disabled_data
            user_disabled_for := st0.user_disabled_for }) ∧
    (∀ (st : Engine) (untilwhat daaa : Int),
      GameLoopUntilEvent env 0 st untilwhat daaa = .timeout ∧
      GameLoopUntilEvent env (budget + 1) st untilwhat daaa =
        (runHook env (GameLoopUntilEvent env budget) .EndSkippingUntilCharStops st).bind
          fun _ st0 =>
            (GameLoopUntilEvent_ticks (GameTick env (GameLoopUntilEvent env budget))
              (budget + 1) (SetupLoopParameters env st0 untilwhat daaa)).bind fun _ m =>
              .done ()
                { m with
                  restrict_until := st0.restrict_until
                  user_disabled_data := st0.user_disabled_data
                  user_disabled_for := st0.user_disabled_for }) := by
  refine ⟨?_, ⟨fun _ _ => rfl, GameLoopUntilEvent_ticks_succ, ?_⟩,
    fun untilwhat daaa s r s' hs ht =>
      GameTick_in_context env budget hRC untilwhat daaa s r s' hs ht,
    fun st untilwhat daaa st' h => GameLoopUntilEvent_run env budget hRC st untilwhat daaa st' h,
    fun st untilwhat daaa =>
      ⟨by simp only [GameLoopUntilEvent], GameLoopUntilEvent_succ env budget st untilwhat daaa⟩⟩
  · intro wait s r s' h
    obtain ⟨trace, m0, m, h1, h2, _, hcase⟩ := GameTick_cases env (fun _ => ())
      ⟨fun _ _ _ => rfl, fun _ _ _ _ _ => rfl⟩ (fun _ _ => rfl) wait
      (fun _ _ _ _ _ _ => rfl) hRC s r s' h
    refine ⟨trace, m0, m, h1, h2, ?_⟩
    rcases hcase with ⟨e, _, hlive⟩ | ⟨e, hne, hstop, _⟩
    · exact Or.inl ⟨e, hlive⟩
    · exact Or.inr ⟨e, hne, hstop⟩
  · intro tick n s results s' h
    obtain ⟨rest, r, mlast, hchain, hlast, _, e, hr, hend⟩ :=
      GameLoopUntilEvent_ticks_run tick (fun _ => True) (fun _ _ _ _ => trivial) n s results s' h
        trivial
    exact ⟨rest, r, mlast, hchain, hlast, e, hr, hend⟩

theorem GameLoopUntilEvent_drives_ticks_witness :
    ∃ (st' m mend : Engine) (n : Nat),
      GameLoopUntilEvent sampleGame 4 sampleEngine UNTIL_INTIS0 200 = .done () st' ∧
      GameLoopUntilEvent_ticks (GameTick sampleGame (GameLoopUntilEvent sampleGame 3)) 4
        (SetupLoopParameters sampleGame sampleEngine UNTIL_INTIS0 200) =
          .done (List.replicate n 0 ++ [-1]) mend ∧
      m.restrict_until = UNTIL_INTIS0 ∧ m.user_disabled_data = 200 ∧
      ShouldStayInWaitMode m = .ok 0 ∧ UpdateWaitMode sampleGame m = .done (-1) mend := by
  obtain ⟨st0, rest, mlast, trace, m0, m, mend, h0, _, _, _, hl, _, _, _, hk, hd, _, hstop,
    hupd, _⟩ := (GameLoopUntilEvent_drives_ticks sampleGame 3 (by decide)).2.2.2.1 sampleEngine
      UNTIL_INTIS0 200 _ rfl
  cases h0
  exact ⟨_, m, mend, rest.length, rfl, hl, hk, hd, hstop, hupd⟩

theorem game_loop_check_ground_level_interactions_end_fired (env : GameEnv)
    (fired : List RegionCall) (st : Engine) (res : Int) (fired' : List RegionCall)
    (st' : Engine)
    (h : game_loop_check_ground_level_interactions_end env fired st = .done (res, fired') st') :
    fired' = fired := by
  unfold game_loop_check_ground_level_interactions_end at h
  split_ifs at h
  · cases hs : ShouldStayInWaitMode st with
    | error e =>
      rw [hs] at h
      cases h
    | ok stay =>
      rw [hs] at h
      simp only at h
      split_ifs at h <;> cases h <;> rfl
  · cases h
    rfl

theorem between_done (f : Engine → Outcome Unit) (trace : List Phase) (s : Engine)
    (trace' : List Phase) (s' : Engine) (h : between f trace s = .done trace' s') :
    trace' = trace ∧ f s = .done () s' := by
  unfold between at h
  obtain ⟨_, s1, h1, h2⟩ := (Outcome.bind_done _ _ _ _).1 h
  cases h2
  exact ⟨rfl, h1⟩

theorem phase_done (p : Phase) (f : Engine → Outcome Unit) (trace : List Phase) (s : Engine)
    (trace' : List Phase) (s' : Engine) (h : phase p f trace s = .done trace' s') :
    trace' = trace ++ [p] ∧ f s = .done () s' := by
  unfold phase at h
  obtain ⟨_, s1, h1, h2⟩ := (Outcome.bind_done _ _ _ _).1 h
  cases h2
  exact ⟨rfl, h1⟩

/-- A call of `UpdateGameOnce_start` that returns has recorded the length of
the event queue. -/
theorem UpdateGameOnce_start_records (env : GameEnv)
    (wait : Engine → Int → Int → Outcome Unit) (st s1 : Engine)
    (h : UpdateGameOnce_start env wait st = .done () s1) :
    s1.numEventsAtStartOfFunction = s1.world.numevents := by
  unfold UpdateGameOnce_start at h
  obtain ⟨_, a, _, h⟩ := (Outcome.bind_done _ _ _ _).1 h
  obtain ⟨_, b, _, h⟩ := (Outcome.bind_done _ _ _ _).1 h
  simp only [ProperExit] at h
  split_ifs at h
  cases h
  rfl

/-- The statements of `UpdateGameOnce` up to the test of the result of the
ground-level phase: the trace is made of the first three phases, and a value
that the code outside and the blocking calls keep is, at the call of the
ground-level phase, what it was after the first statements. -/
theorem UpdateGameOnce_head_done (env : GameEnv) (wait : Engine → Int → Int → Outcome Unit)
    (st : Engine) (res : Int) (trace : List Phase) (st' : Engine)
    (h : UpdateGameOnce_head env wait st = .done (res, trace) st') :
    trace = [.preChecks, .newRoomCheck, .groundLevelInteractions] ∧
    ∃ (s1 s5 : Engine) (fired : List RegionCall),
      UpdateGameOnce_start env wait st = .done () s1 ∧
      game_loop_check_ground_level_interactions env wait s5 = .done (res, fired) st' ∧
      ∀ (β : Type) (g : Engine → β), Observed env g → (∀ s k d, (wait s k d).keeps g s) →
        g s5 = g s1 := by
  unfold UpdateGameOnce_head at h
  obtain ⟨t5, s5, h5, hF⟩ := (Outcome.bind_done _ _ _ _).1 h
  obtain ⟨t4, s4, h4, h5⟩ := (Outcome.bind_done _ _ _ _).1 h5
  obtain ⟨t3, s3, h3, h4⟩ := (Outcome.bind_done _ _ _ _).1 h4
  obtain ⟨t2, s2, h2, h3⟩ := (Outcome.bind_done _ _ _ _).1 h3
  obtain ⟨t1, s1, h1, h2⟩ := (Outcome.bind_done _ _ _ _).1 h2
  obtain ⟨t0, s0, h0, h1⟩ := (Outcome.bind_done _ _ _ _).1 h1
  cases h0
  obtain ⟨e1, hstart⟩ := between_done _ _ _ _ _ h1
  obtain ⟨e2, _⟩ := between_done _ _ _ _ _ h2
  obtain ⟨e3, _⟩ := phase_done _ _ _ _ _ _ h3
  obtain ⟨e4, _⟩ := between_done _ _ _ _ _ h4
  obtain ⟨e5, _⟩ := phase_done _ _ _ _ _ _ h5
  obtain ⟨r, s6, hG, hF⟩ := (Outcome.bind_done _ _ _ _).1 hF
  cases hF
  refine ⟨by rw [e5, e4, e3, e2, e1]; rfl, s1, s5, r.2, hstart, hG, ?_⟩
  intro β g hO hw
  have k2 := between_keeps g _ (runHook_keeps env g hO wait hw _) _ _ _ _ h2
  have k3 := phase_keeps g _ _ (game_loop_check_problems_at_start_keeps env g hO) _ _ _ _ h3
  have k4 : g s4 = g s3 := by
    refine between_keeps g _ (fun s => ?_) _ _ _ _ h4
    simp only
    refine Outcome.keeps_from g s _ _ ?_ (runHook_keeps env g hO wait hw _ _)
    split_ifs
    · exact hO.world s _ rfl
    · rfl
  have k5 := phase_keeps g _ _ (game_loop_check_new_room_keeps env g hO wait hw) _ _ _ _ h5
  rw [k5, k4, k3, k2]

/-- The two ways in which the ground-level phase returns: with
`RETURN_CONTINUE`, or with 0 from its last statement, which has then found a
live wait whose condition is satisfied and has reset `numevents`. -/
theorem game_loop_check_ground_level_interactions_end_done (env : GameEnv)
    (fired : List RegionCall) (s : Engine) (res : Int) (fired' : List RegionCall) (st' : Engine)
    (h : game_loop_check_ground_level_interactions_end env fired s = .done (res, fired') st') :
    (res = env.RETURN_CONTINUE ∧ st' = s ∧
      (s.restrict_until = 0 ∨ ∃ k, k ≠ 0 ∧ ShouldStayInWaitMode s = .ok k)) ∨
    (res = 0 ∧ s.restrict_until ≠ 0 ∧ ShouldStayInWaitMode s = .ok 0 ∧
      st' = { s with world := { s.world with numevents := s.numEventsAtStartOfFunction } }) := by
  unfold game_loop_check_ground_level_interactions_end at h
  by_cases hlive : s.restrict_until ≠ 0
  · rw [if_pos hlive] at h
    cases hs : ShouldStayInWaitMode s with
    | error e =>
      rw [hs] at h
      cases h
    | ok stay =>
      rw [hs] at h
      simp only at h
      by_cases h0 : stay = 0
      · rw [if_pos h0] at h
        cases h
        exact Or.inr ⟨rfl, hlive, by rw [h0], rfl⟩
      · rw [if_neg h0] at h
        cases h
        exact Or.inl ⟨rfl, rfl, Or.inr ⟨stay, h0, rfl⟩⟩
  · rw [if_neg hlive] at h
    cases h
    exact Or.inl ⟨rfl, rfl, Or.inl (not_not.1 hlive)⟩

theorem game_loop_check_ground_level_interactions_done (env : GameEnv)
    (wait : Engine → Int → Int → Outcome Unit) (st : Engine) (res : Int)
    (fired : List RegionCall) (st' : Engine)
    (h : game_loop_check_ground_level_interactions env wait st = .done (res, fired) st') :
    (res = env.RETURN_CONTINUE ∧ st' = st ∧ fired = [] ∧
      Int.land st.world.play.ground_level_areas_disabled env.GLED_INTERACTION ≠ 0) ∨
    (Int.land st.world.play.ground_level_areas_disabled env.GLED_INTERACTION = 0 ∧
      ∃ s3 : Engine, game_loop_check_ground_level_interactions_end env fired s3 =
        .done (res, fired) st') := by
  unfold game_loop_check_ground_level_interactions at h
  by_cases hen : Int.land st.world.play.ground_level_areas_disabled env.GLED_INTERACTION = 0
  · rw [if_pos hen] at h
    simp only at h
    obtain ⟨f1, s1, _, h⟩ := (Outcome.bind_done _ _ _ _).1 h
    obtain ⟨f2, s2, _, h⟩ := (Outcome.bind_done _ _ _ _).1 h
    obtain ⟨f3, s3, _, h⟩ := (Outcome.bind_done _ _ _ _).1 h
    have e := game_loop_check_ground_level_interactions_end_fired env f3 s3 res fired st' h
    rw [← e] at h
    exact Or.inr ⟨hen, s3, h⟩
  · rw [if_neg hen] at h
    cases h
    exact Or.inl ⟨rfl, rfl, rfl, hen⟩

/-- The early return, with `RETURN_CONTINUE` other than 0.  The last statement of the
ground-level phase, when a wait is live and `ShouldStayInWaitMode` gives 0,
sets `numevents` to `numEventsAtStartOfFunction` and returns 0, which is not
`RETURN_CONTINUE`; when no wait is live or the live wait goes on, it returns
`RETURN_CONTINUE` and leaves the state as it is (first and second part).  A
call of the phase that returns has either found the interactions disabled and
returned `RETURN_CONTINUE` with the state of entry, or returned what its last
statement returned (third part).  When the statements of `UpdateGameOnce` up to
the phase return a result other than `RETURN_CONTINUE`, `UpdateGameOnce`
returns in that state, with `numevents` equal to `numEventsAtStartOfFunction`
and with a trace of the first three phases only (fourth part).
`numEventsAtStartOfFunction` is the value of `numevents` that `UpdateGameOnce`
recorded in its first statements, and it is the one recorded by this call when
the blocking calls made since then keep the variable (fifth part). -/
theorem ground_level_early_return (env : GameEnv) (wait : Engine → Int → Int → Outcome Unit)
    (hRC : env.RETURN_CONTINUE ≠ 0) :
    (∀ (fired : List RegionCall) (s : Engine),
      s.restrict_until ≠ 0 → ShouldStayInWaitMode s = .ok 0 →
      game_loop_check_ground_level_interactions_end env fired s =
        .done (0, fired)
          { s with world := { s.world with numevents := s.numEventsAtStartOfFunction } } ∧
      (0 : Int) ≠ env.RETURN_CONTINUE) ∧
    (∀ (fired : List RegionCall) (s : Engine),
      (s.restrict_until = 0 ∨ ∃ k, k ≠ 0 ∧ ShouldStayInWaitMode s = .ok k) →
      game_loop_check_ground_level_interactions_end env fired s =
        .done (env.RETURN_CONTINUE, fired) s) ∧
    (∀ (st : Engine) (res : Int) (fired : List RegionCall) (st' : Engine),
      game_loop_check_ground_level_interactions env wait st = .done (res, fired) st' →
      (res = env.RETURN_CONTINUE ∧ st' = st ∧
        Int.land st.world.play.ground_level_areas_disabled env.GLED_INTERACTION ≠ 0) ∨
      ∃ s3 : Engine,
        game_loop_check_ground_level_interactions_end env fired s3 = .done (res, fired) st' ∧
        ((res = env.RETURN_CONTINUE ∧ st' = s3 ∧
            (s3.restrict_until = 0 ∨ ∃ k, k ≠ 0 ∧ ShouldStayInWaitMode s3 = .ok k)) ∨
          (res = 0 ∧ s3.restrict_until ≠ 0 ∧ ShouldStayInWaitMode s3 = .ok 0 ∧
            st' = { s3 with
              world := { s3.world with numevents := s3.numEventsAtStartOfFunction } }))) ∧
    (∀ (checkControls : Bool) (st : Engine) (res : Int) (trace : List Phase) (st' : Engine),
      UpdateGameOnce_head env wait st = .done (res, trace) st' → res ≠ env.RETURN_CONTINUE →
      UpdateGameOnce env wait checkControls st =
        .done [.preChecks, .newRoomCheck, .groundLevelInteractions] st' ∧
      st'.world.numevents = st'.numEventsAtStartOfFunction) ∧
    (∀ (st : Engine) (res : Int) (trace : List Phase) (st' : Engine),
      (∀ s k d, (wait s k d).keeps (fun m => m.numEventsAtStartOfFunction) s) →
      UpdateGameOnce_head env wait st = .done (res, trace) st' →
      ∃ s1 : Engine, UpdateGameOnce_start env wait st = .done () s1 ∧
        s1.numEventsAtStartOfFunction = s1.world.numevents ∧
        st'.numEventsAtStartOfFunction = s1.world.numevents) := by
  have hend1 : ∀ (fired : List RegionCall) (s : Engine),
      s.restrict_until ≠ 0 → ShouldStayInWaitMode s = .ok 0 →
      game_loop_check_ground_level_interactions_end env fired s =
        .done (0, fired)
          { s with world := { s.world with numevents := s.numEventsAtStartOfFunction } } := by
    intro fired s hlive hstop
    unfold game_loop_check_ground_level_interactions_end
    rw [if_pos hlive, hstop]
    rfl
  have hphase : ∀ (st : Engine) (res : Int) (fired : List RegionCall) (st' : Engine),
      game_loop_check_ground_level_interactions env wait st = .done (res, fired) st' →
      (res = env.RETURN_CONTINUE ∧ st' = st ∧
        Int.land st.world.play.ground_level_areas_disabled env.GLED_INTERACTION ≠ 0) ∨
      ∃ s3 : Engine,
        game_loop_check_ground_level_interactions_end env fired s3 = .done (res, fired) st' ∧
        ((res = env.RETURN_CONTINUE ∧ st' = s3 ∧
            (s3.restrict_until = 0 ∨ ∃ k, k ≠ 0 ∧ ShouldStayInWaitMode s3 = .ok k)) ∨
          (res = 0 ∧ s3.restrict_until ≠ 0 ∧ ShouldStayInWaitMode s3 = .ok 0 ∧
            st' = { s3 with
              world := { s3.world with numevents := s3.numEventsAtStartOfFunction } })) := by
    intro st res fired st' h
    rcases game_loop_check_ground_level_interactions_done env wait st res fired st' h with
      ⟨e, hs, _, hdis⟩ | ⟨_, s3, h3⟩
    · exact Or.inl ⟨e, hs, hdis⟩
    · exact Or.inr ⟨s3, h3,
        game_loop_check_ground_level_interactions_end_done env fired s3 res fired st' h3⟩
  refine ⟨fun fired s hlive hstop => ⟨hend1 fired s hlive hstop, fun e => hRC e.symm⟩, ?_,
    hphase, ?_, ?_⟩
  · intro fired s hcase
    unfold game_loop_check_ground_level_interactions_end
    rcases hcase with h0 | ⟨k, hk, hs⟩
    · rw [if_neg (not_not.2 h0)]
    · by_cases hlive : s.restrict_until ≠ 0
      · rw [if_pos hlive, hs]
        simp only
        rw [if_neg hk]
      · rw [if_neg hlive]
  · intro checkControls st res trace st' h hres
    obtain ⟨etrace, _, s5, fired, _, hG, _⟩ := UpdateGameOnce_head_done env wait st res trace st' h
    refine ⟨?_, ?_⟩
    · unfold UpdateGameOnce
      rw [h]
      simp only [Outcome.bind]
      rw [if_pos hres, etrace]
    · rcases hphase s5 res fired st' hG with ⟨e, _⟩ | ⟨s3, _, ⟨e, _⟩ | ⟨_, _, _, e⟩⟩
      · exact absurd e hres
      · exact absurd e hres
      · rw [e]
  · intro st res trace st' hw h
    obtain ⟨_, s1, s5, fired, hstart, hG, hkeep⟩ :=
      UpdateGameOnce_head_done env wait st res trace st' h
    have hO : Observed env (fun m : Engine => m.numEventsAtStartOfFunction) :=
      ⟨fun _ _ _ => rfl, fun _ _ _ _ _ => rfl⟩
    have h5 : s5.numEventsAtStartOfFunction = s1.numEventsAtStartOfFunction :=
      hkeep Int (fun m => m.numEventsAtStartOfFunction) hO hw
    have h' : st'.numEventsAtStartOfFunction = s5.numEventsAtStartOfFunction :=
      game_loop_check_ground_level_interactions_keeps env _ hO wait hw s5 _ st' hG
    have hrec := UpdateGameOnce_start_records env wait st s1 hstart
    exact ⟨s1, hstart, hrec, by rw [h', h5, hrec]⟩

theorem ground_level_early_return_witness :
    ∃ st' : Engine,
      UpdateGameOnce sampleGame (GameLoopUntilEvent sampleGame 0) true
        { sampleEngine with
          restrict_until := UNTIL_INTIS0, user_disabled_data := 500, user_disabled_for := 2 } =
        .done [.preChecks, .newRoomCheck, .groundLevelInteractions] st' ∧
      st'.world.numevents = st'.numEventsAtStartOfFunction :=
  ⟨_, (ground_level_early_return sampleGame (GameLoopUntilEvent sampleGame 0)
    (by decide)).2.2.2.1 true
    { sampleEngine with
      restrict_until := UNTIL_INTIS0, user_disabled_data := 500, user_disabled_for := 2 }
    0 _ _ rfl (by decide)⟩

/-- Claim C13, where the code departs from it: a tick in which the reset does
not go back to the value that this call of `UpdateGameOnce` recorded.  In `regionWaitGame`, inside
a live wait whose condition is satisfied, `UpdateGameOnce` records the length 0
of the event queue in its first statements; the new-room check and the
ground-level phase add three events; the interaction of the region that the
player walks off makes a blocking call, whose tick calls `UpdateGameOnce` again
and records the length 3 in the same variable.  The last statement of the
ground-level phase then sets `numevents` to 3 and `UpdateGameOnce` returns
after the first three phases: the three events that this call added are still
scheduled. -/
theorem ground_level_reset_after_nested_wait :
    ∃ s1 st' : Engine,
      UpdateGameOnce_start regionWaitGame (GameLoopUntilEvent regionWaitGame 1) satisfiedWait =
        .done () s1 ∧
      s1.world.numevents = 0 ∧ s1.numEventsAtStartOfFunction = 0 ∧
      UpdateGameOnce regionWaitGame (GameLoopUntilEvent regionWaitGame 1) true satisfiedWait =
        .done [.preChecks, .newRoomCheck, .groundLevelInteractions] st' ∧
      st'.restrict_until = UNTIL_INTIS0 ∧ ShouldStayInWaitMode st' = .ok 0 ∧
      st'.numEventsAtStartOfFunction = 3 ∧ st'.world.numevents = 3 ∧
      (List.range 3).map st'.world.event = [[1, 1], [2, 2, 0, 6], [2, 1, 0, 0]] :=
  ⟨_, _, rfl, rfl, rfl, rfl, rfl, rfl, rfl, rfl, rfl⟩

/-! ## The main loop -/

theorem RunGameUntilAborted_loop_aborted (env : GameEnv)
    (wait : Engine → Int → Int → Outcome Unit) (n : Nat) (st : Engine)
    (h : st.world.abort_engine ≠ 0) : RunGameUntilAborted_loop env wait n st = .done [] st := by
  cases n <;> rw [RunGameUntilAborted_loop, if_pos h]

/-- One turn of the loop of `RunGameUntilAborted` with the abort flag not set. -/
theorem RunGameUntilAborted_loop_succ (env : GameEnv)
    (wait : Engine → Int → Int → Outcome Unit) (n : Nat) (st : Engine)
    (h : st.world.abort_engine = 0) :
    RunGameUntilAborted_loop env wait (n + 1) st =
      (GameTick env wait st).bind fun _ s1 =>
        ((if s1.world.load_new_game ≠ 0 then
            (runHook env wait (.RunAGSGame s1.world.load_new_game) s1).bind fun _ s2 =>
              .done () { s2 with world := { s2.world with load_new_game := 0 } }
          else .done () s1).bind fun _ s3 =>
          (RunGameUntilAborted_loop env wait n s3).bind fun requests st' =>
            .done (s1.world.load_new_game :: requests) st') := by
  rw [RunGameUntilAborted_loop, if_neg (not_not.2 h)]
  simp only
  cases GameTick env wait st with
  | done r s1 =>
    simp only [Outcome.bind]
    by_cases hreq : s1.world.load_new_game ≠ 0
    · simp only [if_pos hreq]
      cases runHook env wait (.RunAGSGame s1.world.load_new_game) s1 with
      | done u s2 =>
        simp only
        cases RunGameUntilAborted_loop env wait n
          { s2 with world := { s2.world with load_new_game := 0 } } <;> rfl
      | quit e => rfl
      | timeout => rfl
    · simp only [if_neg hreq]
      cases RunGameUntilAborted_loop env wait n s1 <;> rfl
  | quit e => rfl
  | timeout => rfl

/-- Claim C19: `RunGameUntilAborted` is the call of `skipMissedTicks` followed
by the loop `while (!abort_engine)` (sixth part).  The loop makes no tick when
`abort_engine` is set at its test (first part), and returns only with the flag
set (second and fifth part).  With the flag not set, a turn is one call of
`GameTick`; then, when `load_new_game` is some `v ≠ 0`, one call
`RunAGSGame(v)` after which `load_new_game` is 0, and no such call when it is
0; then the test of the flag again (third and seventh part).  So when the flag
is set in the state that the turn leaves, the loop returns there, having made
one tick (fourth part).  The list returned has one entry for each tick made:
the value of `load_new_game` found after it.  For `RunGameUntilAborted` itself:
with the flag set when `skipMissedTicks` returns, it returns there and makes
no tick (eighth part); with the flag not set there and set in the state that
the first turn leaves, it returns that state after one tick (ninth part); and
a call that returns has run the loop from the state that `skipMissedTicks`
left (tenth part). -/
theorem RunGameUntilAborted_until_abort (env : GameEnv)
    (wait : Engine → Int → Int → Outcome Unit) :
    (∀ (n : Nat) (st : Engine), st.world.abort_engine ≠ 0 →
      RunGameUntilAborted_loop env wait n st = .done [] st) ∧
    (∀ (n : Nat) (st : Engine) (requests : List Int) (st' : Engine),
      RunGameUntilAborted_loop env wait n st = .done requests st' →
      st'.world.abort_engine ≠ 0) ∧
    (∀ (n : Nat) (st : Engine) (requests : List Int) (st' : Engine),
      st.world.abort_engine = 0 →
      RunGameUntilAborted_loop env wait n st = .done requests st' →
      ∃ (m : Nat) (r : Int) (s1 s3 : Engine) (rest : List Int),
        n = m + 1 ∧ GameTick env wait st = .done r s1 ∧
        ((s1.world.load_new_game = 0 ∧ s3 = s1) ∨
          (s1.world.load_new_game ≠ 0 ∧ ∃ s2 : Engine,
            runHook env wait (.RunAGSGame s1.world.load_new_game) s1 = .done () s2 ∧
            s3 = { s2 with world := { s2.world with load_new_game := 0 } })) ∧
        RunGameUntilAborted_loop env wait m s3 = .done rest st' ∧
        requests = s1.world.load_new_game :: rest) ∧
    (∀ (n : Nat) (st : Engine) (r : Int) (s1 s3 : Engine),
      st.world.abort_engine = 0 → GameTick env wait st = .done r s1 →
      ((s1.world.load_new_game = 0 ∧ s3 = s1) ∨
        (s1.world.load_new_game ≠ 0 ∧ ∃ s2 : Engine,
          runHook env wait (.RunAGSGame s1.world.load_new_game) s1 = .done () s2 ∧
          s3 = { s2 with world := { s2.world with load_new_game := 0 } })) →
      s3.world.abort_engine ≠ 0 →
      RunGameUntilAborted_loop env wait (n + 1) st = .done [s1.world.load_new_game] s3) ∧
    (∀ (budget : Nat) (st : Engine) (requests : List Int) (st' : Engine),
      RunGameUntilAborted env budget st = .done requests st' →
      st'.world.abort_engine ≠ 0) ∧
    (∀ (budget : Nat) (st : Engine),
      RunGameUntilAborted env budget st =
        (runHook env (GameLoopUntilEvent env budget) .skipMissedTicks st).bind fun _ s0 =>
          RunGameUntilAborted_loop env (GameLoopUntilEvent env budget) budget s0) ∧
    (∀ (n : Nat) (st : Engine), st.world.abort_engine = 0 →
      RunGameUntilAborted_loop env wait 0 st = .timeout ∧
      RunGameUntilAborted_loop env wait (n + 1) st =
        (GameTick env wait st).bind fun _ s1 =>
          ((if s1.world.load_new_game ≠ 0 then
              (runHook env wait (.RunAGSGame s1.world.load_new_game) s1).bind fun _ s2 =>
                .done () { s2 with world := { s2.world with load_new_game := 0 } }
            else .done () s1).bind fun _ s3 =>
            (RunGameUntilAborted_loop env wait n s3).bind fun requests st' =>
              .done (s1.world.load_new_game :: requests) st')) ∧
    (∀ (budget : Nat) (st s0 : Engine),
      runHook env (GameLoopUntilEvent env budget) .skipMissedTicks st = .done () s0 →
      s0.world.abort_engine ≠ 0 → RunGameUntilAborted env budget st = .done [] s0) ∧
    (∀ (budget : Nat) (st s0 : Engine) (r : Int) (s1 s3 : Engine),
      runHook env (GameLoopUntilEvent env (budget + 1)) .skipMissedTicks st = .done () s0 →
      s0.world.abort_engine = 0 →
      GameTick env (GameLoopUntilEvent env (budget + 1)) s0 = .done r s1 →
      ((s1.world.load_new_game = 0 ∧ s3 = s1) ∨
        (s1.world.load_new_game ≠ 0 ∧ ∃ s2 : Engine,
          runHook env (GameLoopUntilEvent env (budget + 1))
            (.RunAGSGame s1.world.load_new_game) s1 = .done () s2 ∧
          s3 = { s2 with world := { s2.world with load_new_game := 0 } })) →
      s3.world.abort_engine ≠ 0 →
      RunGameUntilAborted env (budget + 1) st = .done [s1.world.load_new_game] s3) ∧
    (∀ (budget : Nat) (st : Engine) (requests : List Int) (st' : Engine),
      RunGameUntilAborted env budget st = .done requests st' →
      ∃ s0 : Engine,
        runHook env (GameLoopUntilEvent env budget) .skipMissedTicks st = .done () s0 ∧
        RunGameUntilAborted_loop env (GameLoopUntilEvent env budget) budget s0 =
          .done requests st') := by
  have hret : ∀ (wait : Engine → Int → Int → Outcome Unit) (n : Nat) (st : Engine)
      (requests : List Int) (st' : Engine),
      RunGameUntilAborted_loop env wait n st = .done requests st' →
      st'.world.abort_engine ≠ 0 := by
    intro wait n
    induction n with
    | zero =>
      intro st requests st' h
      by_cases ha : st.world.abort_engine ≠ 0
      · rw [RunGameUntilAborted_loop_aborted env wait 0 st ha] at h
        cases h
        exact ha
      · rw [RunGameUntilAborted_loop, if_neg ha] at h
        cases h
    | succ n ih =>
      intro st requests st' h
      by_cases ha : st.world.abort_engine ≠ 0
      · rw [RunGameUntilAborted_loop_aborted env wait _ st ha] at h
        cases h
        exact ha
      · rw [RunGameUntilAborted_loop_succ env wait n st (not_not.1 ha)] at h
        obtain ⟨_, s1, _, h⟩ := (Outcome.bind_done _ _ _ _).1 h
        obtain ⟨_, s3, _, h⟩ := (Outcome.bind_done _ _ _ _).1 h
        obtain ⟨rest, s4, hl, h⟩ := (Outcome.bind_done _ _ _ _).1 h
        cases h
        exact ih s3 rest _ hl
  have hturn : ∀ (wait : Engine → Int → Int → Outcome Unit) (n : Nat) (st : Engine) (r : Int)
      (s1 s3 : Engine), st.world.abort_engine = 0 → GameTick env wait st = .done r s1 →
      ((s1.world.load_new_game = 0 ∧ s3 = s1) ∨
        (s1.world.load_new_game ≠ 0 ∧ ∃ s2 : Engine,
          runHook env wait (.RunAGSGame s1.world.load_new_game) s1 = .done () s2 ∧
          s3 = { s2 with world := { s2.world with load_new_game := 0 } })) →
      s3.world.abort_engine ≠ 0 →
      RunGameUntilAborted_loop env wait (n + 1) st = .done [s1.world.load_new_game] s3 := by
    intro wait n st r s1 s3 ha h1 hsw h3
    rw [RunGameUntilAborted_loop_succ env wait n st ha, h1]
    simp only [Outcome.bind]
    rcases hsw with ⟨h0, e⟩ | ⟨hreq, s2, h2, e⟩
    · rw [if_neg (not_not.2 h0), e]
      simp only
      rw [RunGameUntilAborted_loop_aborted env wait n s1 (e ▸ h3)]
    · rw [if_pos hreq, h2, e]
      simp only
      rw [RunGameUntilAborted_loop_aborted env wait n _ (e ▸ h3)]
  refine ⟨RunGameUntilAborted_loop_aborted env wait, hret wait, ?_, hturn wait, ?_,
    fun _ _ => rfl, ?_, ?_, ?_, ?_⟩
  · intro n st requests st' ha h
    cases n with
    | zero =>
      rw [RunGameUntilAborted_loop, if_neg (not_not.2 ha)] at h
      cases h
    | succ m =>
      rw [RunGameUntilAborted_loop_succ env wait m st ha] at h
      obtain ⟨r, s1, h1, h⟩ := (Outcome.bind_done _ _ _ _).1 h
      obtain ⟨_, s3, h3, h⟩ := (Outcome.bind_done _ _ _ _).1 h
      obtain ⟨rest, s4, hl, h⟩ := (Outcome.bind_done _ _ _ _).1 h
      cases h
      refine ⟨m, r, s1, s3, rest, rfl, h1, ?_, hl, rfl⟩
      by_cases hreq : s1.world.load_new_game ≠ 0
      · rw [if_pos hreq] at h3
        obtain ⟨_, s2, h2, h3⟩ := (Outcome.bind_done _ _ _ _).1 h3
        cases h3
        exact Or.inr ⟨hreq, s2, h2, rfl⟩
      · rw [if_neg hreq] at h3
        cases h3
        exact Or.inl ⟨not_not.1 hreq, rfl⟩
  · intro budget st requests st' h
    unfold RunGameUntilAborted at h
    obtain ⟨_, s0, _, h⟩ := (Outcome.bind_done _ _ _ _).1 h
    exact hret _ budget s0 requests st' h
  · intro n st ha
    refine ⟨?_, RunGameUntilAborted_loop_succ env wait n st ha⟩
    rw [RunGameUntilAborted_loop, if_neg (not_not.2 ha)]
  · intro budget st s0 h0 ha
    unfold RunGameUntilAborted
    rw [h0]
    exact RunGameUntilAborted_loop_aborted env _ budget s0 ha
  · intro budget st s0 r s1 s3 h0 ha h1 hsw h3
    unfold RunGameUntilAborted
    rw [h0]
    exact hturn _ budget s0 r s1 s3 ha h1 hsw h3
  · intro budget st requests st' h
    unfold RunGameUntilAborted at h
    obtain ⟨_, s0, h0, h⟩ := (Outcome.bind_done _ _ _ _).1 h
    exact ⟨s0, h0, h⟩

theorem RunGameUntilAborted_until_abort_witness :
    ∃ s1 : Engine,
      GameTick sampleGame (GameLoopUntilEvent sampleGame 1)
        { sampleEngine with
          world := { sampleWorld with charAt := fun _ => 1, loopcounter := 2 } } = .done 0 s1 ∧
      s1.world.abort_engine = 1 ∧
      RunGameUntilAborted sampleGame (0 + 1)
        { sampleEngine with
          world := { sampleWorld with charAt := fun _ => 1, loopcounter := 2 } } =
        .done [s1.world.load_new_game] s1 :=
  ⟨_, rfl, rfl,
    (RunGameUntilAborted_until_abort sampleGame (GameLoopUntilEvent sampleGame 1)).2.2.2.2.2.2.2.2.1
      0
      { sampleEngine with world := { sampleWorld with charAt := fun _ => 1, loopcounter := 2 } }
      _ 0 _ _ rfl rfl rfl (Or.inl ⟨rfl, rfl⟩) (by decide)⟩

/-! ## The order of the phases -/

/-- The trace of the statements of `UpdateGameOnce` between the test of the
result of the ground-level phase and the test of `play.fast_forward`: the
phases from the controls to the loop counter, in this order, with the render
phase left out when `play.fast_forward` is set in the state `sr` in which
`game_loop_do_render_and_check_mouse` is called. -/
theorem UpdateGameOnce_body_done (env : GameEnv) (wait : Engine → Int → Int → Outcome Unit)
    (checkControls : Bool) (trace : List Phase) (st : Engine) (trace' : List Phase)
    (st' : Engine) (h : UpdateGameOnce_body env wait checkControls trace st = .done trace' st') :
    ∃ sr sr' : Engine, game_loop_do_render_and_check_mouse env wait sr = .done () sr' ∧
      trace' = trace ++ [.controls, .update, .animatedButtons, .lateUpdate, .audioTick] ++
        (if sr.world.play.fast_forward = 0 then [.render] else []) ++
        [.events, .backgroundAnimation, .loopCounter] := by
  unfold UpdateGameOnce_body at h
  obtain ⟨t11, s11, h11, h12⟩ := (Outcome.bind_done _ _ _ _).1 h
  obtain ⟨t10, s10, h10, h11⟩ := (Outcome.bind_done _ _ _ _).1 h11
  obtain ⟨t9, s9, h9, h10⟩ := (Outcome.bind_done _ _ _ _).1 h10
  obtain ⟨t8, s8, h8, h9⟩ := (Outcome.bind_done _ _ _ _).1 h9
  obtain ⟨t7, s7, h7, h8⟩ := (Outcome.bind_done _ _ _ _).1 h8
  obtain ⟨t6, s6, h6, h7⟩ := (Outcome.bind_done _ _ _ _).1 h7
  obtain ⟨t5, s5, h5, h6⟩ := (Outcome.bind_done _ _ _ _).1 h6
  obtain ⟨t4, s4, h4, h5⟩ := (Outcome.bind_done _ _ _ _).1 h5
  obtain ⟨t3, s3, h3, h4⟩ := (Outcome.bind_done _ _ _ _).1 h4
  obtain ⟨t2, s2, h2, h3⟩ := (Outcome.bind_done _ _ _ _).1 h3
  obtain ⟨t1, s1, h1, h2⟩ := (Outcome.bind_done _ _ _ _).1 h2
  cases h1
  obtain ⟨e2, _⟩ := between_done _ _ _ _ _ h2
  obtain ⟨e3, _⟩ := phase_done _ _ _ _ _ _ h3
  obtain ⟨e4, _⟩ := phase_done _ _ _ _ _ _ h4
  obtain ⟨e5, _⟩ := phase_done _ _ _ _ _ _ h5
  obtain ⟨e6, _⟩ := phase_done _ _ _ _ _ _ h6
  obtain ⟨e7, _⟩ := phase_done _ _ _ _ _ _ h7
  obtain ⟨e9, _⟩ := phase_done _ _ _ _ _ _ h9
  obtain ⟨e10, _⟩ := between_done _ _ _ _ _ h10
  obtain ⟨e11, _⟩ := phase_done _ _ _ _ _ _ h11
  obtain ⟨e12, _⟩ := phase_done _ _ _ _ _ _ h12
  by_cases hff : s7.world.play.fast_forward = 0
  · rw [if_pos hff] at h8
    obtain ⟨e8, hr⟩ := phase_done _ _ _ _ _ _ h8
    refine ⟨s7, s8, hr, ?_⟩
    rw [if_pos hff, e12, e11, e10, e9, e8, e7, e6, e5, e4, e3, e2]
    simp only [List.append_assoc, List.singleton_append, List.cons_append, List.nil_append]
  · rw [if_neg hff] at h8
    obtain ⟨e8, hr⟩ := between_done _ _ _ _ _ h8
    refine ⟨s7, s8, hr, ?_⟩
    rw [if_neg hff, e12, e11, e10, e9, e8, e7, e6, e5, e4, e3, e2]
    simp only [List.append_assoc, List.singleton_append, List.cons_append, List.nil_append,
      List.append_nil]

/-- Claim C20: the trace of a call of `UpdateGameOnce` that returns is a
subsequence of the list of the thirteen phases in the order of the
specification.  When the ground-level phase gives a result other than
`RETURN_CONTINUE` the trace is the first three phases; otherwise it is the
phases from the pre-checks to the audio tick, then the render phase unless
`play.fast_forward` is set in the state `sr` in which
`game_loop_do_render_and_check_mouse` is called, then event draining,
background animation and loop counter, then the FPS accounting unless
`play.fast_forward` is set in the state `se` that the loop-counter phase
leaves; with `play.fast_forward` zero at both points it is the whole list. -/
theorem UpdateGameOnce_phase_order (env : GameEnv) (wait : Engine → Int → Int → Outcome Unit)
    (checkControls : Bool) (st : Engine) (trace : List Phase) (st' : Engine)
    (h : UpdateGameOnce env wait checkControls st = .done trace st') :
    trace.Sublist Phase.all ∧
    ∃ (res : Int) (s5 : Engine),
      UpdateGameOnce_head env wait st =
        .done (res, [.preChecks, .newRoomCheck, .groundLevelInteractions]) s5 ∧
      ((res ≠ env.RETURN_CONTINUE ∧ st' = s5 ∧
          trace = [.preChecks, .newRoomCheck, .groundLevelInteractions]) ∨
        (res = env.RETURN_CONTINUE ∧
          ∃ (sr sr' se : Engine) (tb : List Phase),
            game_loop_do_render_and_check_mouse env wait sr = .done () sr' ∧
            UpdateGameOnce_body env wait checkControls
              [.preChecks, .newRoomCheck, .groundLevelInteractions] s5 = .done tb se ∧
            trace = [.preChecks, .newRoomCheck, .groundLevelInteractions, .controls, .update,
                .animatedButtons, .lateUpdate, .audioTick] ++
              (if sr.world.play.fast_forward = 0 then [.render] else []) ++
              [.events, .backgroundAnimation, .loopCounter] ++
              (if se.world.play.fast_forward = 0 then [.fps] else []) ∧
            (sr.world.play.fast_forward = 0 → se.world.play.fast_forward = 0 →
              trace = Phase.all))) := by
  unfold UpdateGameOnce at h
  obtain ⟨⟨res, t⟩, s5, hhead, h⟩ := (Outcome.bind_done _ _ _ _).1 h
  obtain ⟨et, _⟩ := UpdateGameOnce_head_done env wait st res t s5 hhead
  subst et
  simp only at h
  by_cases hres : res ≠ env.RETURN_CONTINUE
  · rw [if_pos hres] at h
    cases h
    exact ⟨by decide, res, _, hhead, Or.inl ⟨hres, rfl, rfl⟩⟩
  · rw [if_neg hres] at h
    obtain ⟨tb, se, hbody, h⟩ := (Outcome.bind_done _ _ _ _).1 h
    obtain ⟨sr, sr', hr, etb⟩ := UpdateGameOnce_body_done env wait checkControls _ s5 tb se hbody
    have etrace : trace = tb ++ (if se.world.play.fast_forward = 0 then [.fps] else []) := by
      by_cases hff : se.world.play.fast_forward = 0
      · rw [if_neg (not_not.2 hff)] at h
        obtain ⟨t1, s1, h1, h2⟩ := (Outcome.bind_done _ _ _ _).1 h
        obtain ⟨e1, _⟩ := phase_done _ _ _ _ _ _ h1
        obtain ⟨e2, _⟩ := between_done _ _ _ _ _ h2
        rw [if_pos hff, e2, e1]
      · rw [if_pos hff] at h
        cases h
        rw [if_neg hff, List.append_nil]
    have efull : trace = [.preChecks, .newRoomCheck, .groundLevelInteractions, .controls, .update,
          .animatedButtons, .lateUpdate, .audioTick] ++
        (if sr.world.play.fast_forward = 0 then [.render] else []) ++
        [.events, .backgroundAnimation, .loopCounter] ++
        (if se.world.play.fast_forward = 0 then [.fps] else []) := by
      rw [etrace, etb]
      rfl
    refine ⟨?_, res, s5, hhead, Or.inr ⟨not_not.1 hres, sr, sr', se, tb, hr, hbody, efull, ?_⟩⟩
    · rw [efull]
      by_cases h1 : sr.world.play.fast_forward = 0 <;>
        by_cases h2 : se.world.play.fast_forward = 0 <;>
        simp only [h1, h2, if_true, if_false] <;> decide
    · intro h1 h2
      rw [efull, if_pos h1, if_pos h2]
      rfl

theorem UpdateGameOnce_phase_order_witness :
    ∃ st' : Engine,
      UpdateGameOnce sampleGame (GameLoopUntilEvent sampleGame 0) true
        { sampleEngine with world := { sampleWorld with charAt := fun _ => 1 } } =
        .done Phase.all st' ∧
      Phase.all.Sublist Phase.all :=
  ⟨_, rfl, (UpdateGameOnce_phase_order sampleGame (GameLoopUntilEvent sampleGame 0) true
    { sampleEngine with world := { sampleWorld with charAt := fun _ => 1 } } Phase.all _ rfl).1⟩

/-! ## The animated buttons -/

/-- The loop of `game_loop_update_animated_buttons` from the index `aa`, with
the entries before `aa` in `pre` and the others in `post`: the entries of
`post` are updated once each, in their order, and the finished ones removed;
a budget of the length of `post` is enough. -/
theorem game_loop_update_animated_buttons_calls_eq (env : GameEnv) :
    ∀ (post pre : List AnimatingGUIButton) (n : Nat), post.length ≤ n →
      game_loop_update_animated_buttons_calls env n (pre.length : Int) (pre ++ post) =
        (pre ++ updatedButtons env post, post) := by
  intro post
  induction post with
  | nil =>
    intro pre n _
    cases n with
    | zero => simp [game_loop_update_animated_buttons_calls, updatedButtons]
    | succ n => simp [game_loop_update_animated_buttons_calls, updatedButtons]
  | cons b post ih =>
    intro pre n hn
    cases n with
    | zero => simp at hn
    | succ n =>
      have hn' : post.length ≤ n := by simpa using hn
      have hlt : (pre.length : Int) < ((pre ++ b :: post).length : Int) := by
        simp only [List.length_append, List.length_cons]
        omega
      have hget : (pre ++ b :: post).get? (pre.length : Int).toNat = some b := by
        rw [Int.toNat_ofNat, List.get?_eq_getElem?, List.getElem?_append_right (le_refl _)]
        simp
      rw [game_loop_update_animated_buttons_calls, if_pos hlt, hget]
      simp only
      have hset : (pre ++ b :: post).set (pre.length : Int).toNat
          (env.UpdateAnimatingButton b).1 = pre ++ (env.UpdateAnimatingButton b).1 :: post := by
        simp
      rw [hset]
      by_cases hfin : (env.UpdateAnimatingButton b).2 ≠ 0
      · rw [if_pos hfin]
        have herase : StopButtonAnimation (pre.length : Int)
            (pre ++ (env.UpdateAnimatingButton b).1 :: post) = pre ++ post := by
          unfold StopButtonAnimation
          rw [Int.toNat_ofNat, List.eraseIdx_append_of_length_le (le_refl _)]
          simp
        have haa : (pre.length : Int) - 1 + 1 = (pre.length : Int) := by omega
        simp only [herase, haa, ih pre n hn']
        simp [updatedButtons, hfin]
      · rw [if_neg hfin]
        have haa : (pre.length : Int) + 1 =
            ((pre ++ [(env.UpdateAnimatingButton b).1]).length : Int) := by
          simp
        have hl : pre ++ (env.UpdateAnimatingButton b).1 :: post =
            (pre ++ [(env.UpdateAnimatingButton b).1]) ++ post := by simp
        rw [haa, hl, ih _ n hn']
        have h0 : (env.UpdateAnimatingButton b).2 = 0 := not_not.1 hfin
        simp [updatedButtons, h0]

/-- The loop of `game_loop_update_animated_buttons` returns the list that its
version with the record of the calls returns. -/
theorem game_loop_update_animated_buttons_loop_eq (env : GameEnv) :
    ∀ (n : Nat) (aa : Int) (animbuts : List AnimatingGUIButton),
      game_loop_update_animated_buttons_loop env n aa animbuts =
        (game_loop_update_animated_buttons_calls env n aa animbuts).1 := by
  intro n
  induction n with
  | zero =>
    intro aa animbuts
    rfl
  | succ n ih =>
    intro aa animbuts
    rw [game_loop_update_animated_buttons_loop, game_loop_update_animated_buttons_calls]
    split_ifs with h1
    · cases animbuts.get? aa.toNat with
      | none => rfl
      | some b =>
        simp only
        split_ifs
        · exact ih _ _
        · exact ih _ _
    · rfl

/-- Claim C22: with `StopButtonAnimation(i)` removing entry `i` and moving the
later entries down one place, the loop of `game_loop_update_animated_buttons`
calls `UpdateAnimatingButton` once for each entry that is active at the start,
in their order, and leaves the updated entries whose update did not report the
end of the animation, in their order; the phase changes nothing else.  The
loop ends: a budget of as many iterations as there are entries gives this
result, and so does every larger one. -/
theorem animated_buttons_updated_once (env : GameEnv) (w : World) :
    game_loop_update_animated_buttons env w =
      { w with animbuts := updatedButtons env w.animbuts } ∧
    game_loop_update_animated_buttons_calls env w.animbuts.length 0 w.animbuts =
      (updatedButtons env w.animbuts, w.animbuts) ∧
    (∀ n : Nat, w.animbuts.length ≤ n →
      game_loop_update_animated_buttons_loop env n 0 w.animbuts =
        updatedButtons env w.animbuts ∧
      game_loop_update_animated_buttons_calls env n 0 w.animbuts =
        (updatedButtons env w.animbuts, w.animbuts)) ∧
    (updatedButtons env w.animbuts).length ≤ w.animbuts.length := by
  have hcalls : ∀ n : Nat, w.animbuts.length ≤ n →
      game_loop_update_animated_buttons_calls env n 0 w.animbuts =
        (updatedButtons env w.animbuts, w.animbuts) := by
    intro n hn
    have h := game_loop_update_animated_buttons_calls_eq env w.animbuts [] n hn
    simpa using h
  refine ⟨?_, hcalls _ (le_refl _), ?_, ?_⟩
  · unfold game_loop_update_animated_buttons
    rw [game_loop_update_animated_buttons_loop_eq, hcalls _ (le_refl _)]
  · intro n hn
    refine ⟨?_, hcalls n hn⟩
    rw [game_loop_update_animated_buttons_loop_eq, hcalls n hn]
  · exact List.length_filterMap_le _ _

theorem animated_buttons_updated_once_witness :
    (game_loop_update_animated_buttons sampleGame
        { sampleWorld with animbuts := [⟨1⟩, ⟨1⟩, ⟨3⟩, ⟨0⟩, ⟨2⟩] }).animbuts = [⟨2⟩, ⟨1⟩] ∧
    game_loop_update_animated_buttons_loop sampleGame 9 0 [⟨1⟩, ⟨1⟩, ⟨3⟩, ⟨0⟩, ⟨2⟩] =
      updatedButtons sampleGame [⟨1⟩, ⟨1⟩, ⟨3⟩, ⟨0⟩, ⟨2⟩] :=
  ⟨rfl, ((animated_buttons_updated_once sampleGame
    { sampleWorld with animbuts := [⟨1⟩, ⟨1⟩, ⟨3⟩, ⟨0⟩, ⟨2⟩] }).2.2.1 9 (by decide)).1⟩

/-! ## The edges of the room -/

/-- Claim C23, refuted as stated: with `Edges.Left = 100` and `Edges.Right = 50`
a player at `x = 60` is both left of the left edge and right of the right edge,
so that the edges tested each on its own are 0 and 1; `check_room_edges`, with
the detection active and no edge remembered, schedules one event only, the one
of edge 0, because it tests the right edge in the `else` of the left one. -/
theorem check_room_edges_right_not_tested :
    edgeDetectionActive sampleGame 0
      { sampleWorld with Edges := { Left := 100, Right := 50, Top := 0, Bottom := 200 } } ∧
    edgesReachedSpec
      { sampleWorld with Edges := { Left := 100, Right := 50, Top := 0, Bottom := 200 } } =
      [0, 1] ∧
    (check_room_edges sampleGame 0
      { sampleWorld with
        Edges := { Left := 100, Right := 50, Top := 0, Bottom := 200 } }).numevents = 1 ∧
    (check_room_edges sampleGame 0
      { sampleWorld with
        Edges := { Left := 100, Right := 50, Top := 0, Bottom := 200 } }).event 0 =
      [sampleGame.EV_RUNEVBLOCK, sampleGame.EVB_ROOM, 0, 0] := by
  refine ⟨?_, rfl, rfl, rfl⟩
  simp [edgeDetectionActive, sampleGame, sampleWorld]
  rfl

theorem check_room_edges_active (env : GameEnv) (numevents_was : Int) (w : World)
    (hact : edgeDetectionActive env numevents_was w) :
    check_room_edges env numevents_was w =
      scheduleRoomEvents env ((edgesReached w).filter fun ii => ii ≠ w.play.entered_edge)
        (if 0 ≤ w.play.entered_edge ∧ w.play.entered_edge ≤ 3 ∧
            w.play.entered_edge ∉ edgesReached w then
          { w with play := { w.play with entered_edge := -10 } }
        else w) := by
  obtain ⟨h1, h2⟩ := hact
  unfold check_room_edges
  rw [if_pos h1, if_pos h2]
  simp only [scheduleRoomEvents, edgesReached]
  have hx : (w.player_x ≤ w.Edges.Left ∧ True) ∨
      (¬ w.player_x ≤ w.Edges.Left ∧ w.player_x ≥ w.Edges.Right) ∨
      (¬ w.player_x ≤ w.Edges.Left ∧ ¬ w.player_x ≥ w.Edges.Right) := by
    by_cases a : w.player_x ≤ w.Edges.Left
    · exact Or.inl ⟨a, trivial⟩
    · by_cases b : w.player_x ≥ w.Edges.Right
      · exact Or.inr (Or.inl ⟨a, b⟩)
      · exact Or.inr (Or.inr ⟨a, b⟩)
  have hy : (w.player_y ≥ w.Edges.Bottom ∧ True) ∨
      (¬ w.player_y ≥ w.Edges.Bottom ∧ w.player_y ≤ w.Edges.Top) ∨
      (¬ w.player_y ≥ w.Edges.Bottom ∧ ¬ w.player_y ≤ w.Edges.Top) := by
    by_cases a : w.player_y ≥ w.Edges.Bottom
    · exact Or.inl ⟨a, trivial⟩
    · by_cases b : w.player_y ≤ w.Edges.Top
      · exact Or.inr (Or.inl ⟨a, b⟩)
      · exact Or.inr (Or.inr ⟨a, b⟩)
  have he : w.play.entered_edge = 0 ∨ w.play.entered_edge = 1 ∨ w.play.entered_edge = 2 ∨
      w.play.entered_edge = 3 ∨
      (¬ (0 ≤ w.play.entered_edge ∧ w.play.entered_edge ≤ 3) ∧ w.play.entered_edge ≠ 0 ∧
        w.play.entered_edge ≠ 1 ∧ w.play.entered_edge ≠ 2 ∧ w.play.entered_edge ≠ 3) := by
    omega
  rcases he with e | e | e | e | ⟨r, n0, n1, n2, n3⟩
  · rcases hx with ⟨hxl, hxr⟩ | ⟨hxl, hxr⟩ | ⟨hxl, hxr⟩ <;>
      rcases hy with ⟨hyb, hyt⟩ | ⟨hyb, hyt⟩ | ⟨hyb, hyt⟩ <;>
      simp [hxl, hxr, hyb, hyt, e, Function.update, List.filter]
  · rcases hx with ⟨hxl, hxr⟩ | ⟨hxl, hxr⟩ | ⟨hxl, hxr⟩ <;>
      rcases hy with ⟨hyb, hyt⟩ | ⟨hyb, hyt⟩ | ⟨hyb, hyt⟩ <;>
      simp [hxl, hxr, hyb, hyt, e, Function.update, List.filter]
  · rcases hx with ⟨hxl, hxr⟩ | ⟨hxl, hxr⟩ | ⟨hxl, hxr⟩ <;>
      rcases hy with ⟨hyb, hyt⟩ | ⟨hyb, hyt⟩ | ⟨hyb, hyt⟩ <;>
      simp [hxl, hxr, hyb, hyt, e, Function.update, List.filter]
  · rcases hx with ⟨hxl, hxr⟩ | ⟨hxl, hxr⟩ | ⟨hxl, hxr⟩ <;>
      rcases hy with ⟨hyb, hyt⟩ | ⟨hyb, hyt⟩ | ⟨hyb, hyt⟩ <;>
      simp [hxl, hxr, hyb, hyt, e, Function.update, List.filter]
  · have r' : ∀ p : Prop, ¬ (0 ≤ w.play.entered_edge ∧ w.play.entered_edge ≤ 3 ∧ p) :=
      fun p h => r ⟨h.1, h.2.1⟩
    rcases hx with ⟨hxl, hxr⟩ | ⟨hxl, hxr⟩ | ⟨hxl, hxr⟩ <;>
      rcases hy with ⟨hyb, hyt⟩ | ⟨hyb, hyt⟩ | ⟨hyb, hyt⟩ <;>
      simp [hxl, hxr, hyb, hyt, r', n0, n1, n2, n3, Ne.symm n0, Ne.symm n1, Ne.symm n2,
        Ne.symm n3, Function.update, List.filter]

/-- The events scheduled for a list of edges are written at the end of the
queue, in the order of the list; nothing else changes. -/
theorem scheduleRoomEvents_queue (env : GameEnv) :
    ∀ (edges : List Int) (w : World),
      (scheduleRoomEvents env edges w).play = w.play ∧
      (scheduleRoomEvents env edges w).numevents = w.numevents + edges.length ∧
      (∀ j : Int, j < w.numevents → (scheduleRoomEvents env edges w).event j = w.event j) ∧
      ∀ (i : Nat) (ii : Int), edges.get? i = some ii →
        (scheduleRoomEvents env edges w).event (w.numevents + i) =
          [env.EV_RUNEVBLOCK, env.EVB_ROOM, 0, ii] := by
  intro edges
  induction edges with
  | nil =>
    intro w
    refine ⟨rfl, by simp [scheduleRoomEvents], fun _ _ => rfl, ?_⟩
    intro i ii h
    simp at h
  | cons a rest ih =>
    intro w
    obtain ⟨hp, hn, hbelow, hat⟩ :=
      ih (setevent [env.EV_RUNEVBLOCK, env.EVB_ROOM, 0, a] w)
    have hstep : scheduleRoomEvents env (a :: rest) w =
        scheduleRoomEvents env rest (setevent [env.EV_RUNEVBLOCK, env.EVB_ROOM, 0, a] w) := rfl
    have hnum : (setevent [env.EV_RUNEVBLOCK, env.EVB_ROOM, 0, a] w).numevents =
        w.numevents + 1 := rfl
    rw [hstep]
    refine ⟨hp, ?_, ?_, ?_⟩
    · rw [hn, hnum]
      simp only [List.length_cons, Nat.cast_add, Nat.cast_one]
      omega
    · intro j hj
      rw [hbelow j (by rw [hnum]; omega)]
      simp only [setevent]
      rw [Function.update_noteq (ne_of_lt hj)]
    · intro i ii h
      cases i with
      | zero =>
        simp only [List.get?_cons_zero, Option.some.injEq] at h
        subst h
        rw [hbelow _ (by rw [hnum]; simp)]
        simp [setevent]
      | succ i =>
        simp only [List.get?_cons_succ] at h
        have := hat i ii h
        rw [hnum] at this
        rw [← this]
        congr 1
        push_cast
        omega

/-- Claim C23, amended: with the detection active, `check_room_edges` schedules
the events of the edges marked by its tests (0 for `x <= Edges.Left`; 1 for
`x >= Edges.Right`, tested only when edge 0 is not marked; 2 for
`y >= Edges.Bottom`; 3 for `y <= Edges.Top`, tested only when edge 2 is not
marked) other than `play.entered_edge`, in the order of their numbers, and it
sets `play.entered_edge` to -10 exactly when that is in 0..3 and not a marked
edge, leaving it as it is otherwise.  With `Edges.Left < Edges.Right` and
`Edges.Top < Edges.Bottom` the marked edges are those of the four tests made
each on its own.  With the detection not active the function changes nothing.
The events are written at the end of the queue and nothing else changes. -/
theorem check_room_edges_schedules (env : GameEnv) (numevents_was : Int) (w : World) :
    (edgeDetectionActive env numevents_was w →
      check_room_edges env numevents_was w =
        scheduleRoomEvents env ((edgesReached w).filter fun ii => ii ≠ w.play.entered_edge)
          (if 0 ≤ w.play.entered_edge ∧ w.play.entered_edge ≤ 3 ∧
              w.play.entered_edge ∉ edgesReached w then
            { w with play := { w.play with entered_edge := -10 } }
          else w) ∧
      (check_room_edges env numevents_was w).play.entered_edge =
        (if 0 ≤ w.play.entered_edge ∧ w.play.entered_edge ≤ 3 ∧
            w.play.entered_edge ∉ edgesReached w then -10
          else w.play.entered_edge) ∧
      (check_room_edges env numevents_was w).numevents =
        w.numevents +
          ((edgesReached w).filter fun ii => ii ≠ w.play.entered_edge).length) ∧
    (¬ edgeDetectionActive env numevents_was w → check_room_edges env numevents_was w = w) ∧
    (w.Edges.Left < w.Edges.Right → w.Edges.Top < w.Edges.Bottom →
      edgesReached w = edgesReachedSpec w) ∧
    (∀ (edges : List Int) (w0 : World),
      (scheduleRoomEvents env edges w0).play = w0.play ∧
      (scheduleRoomEvents env edges w0).numevents = w0.numevents + edges.length ∧
      (∀ j : Int, j < w0.numevents → (scheduleRoomEvents env edges w0).event j = w0.event j) ∧
      ∀ (i : Nat) (ii : Int), edges.get? i = some ii →
        (scheduleRoomEvents env edges w0).event (w0.numevents + i) =
          [env.EV_RUNEVBLOCK, env.EVB_ROOM, 0, ii]) := by
  refine ⟨fun hact => ?_, fun hn => ?_, fun hlr htb => ?_, scheduleRoomEvents_queue env⟩
  · have h := check_room_edges_active env numevents_was w hact
    refine ⟨h, ?_, ?_⟩
    · rw [h, (scheduleRoomEvents_queue env _ _).1]
      split_ifs <;> rfl
    · rw [h, (scheduleRoomEvents_queue env _ _).2.1]
      split_ifs <;> rfl
  · unfold check_room_edges
    by_cases h1 : env.IsInterfaceEnabled w ≠ 0 ∧ env.IsGamePaused w = 0 ∧
        w.in_new_room = 0 ∧ w.new_room_was = 0
    · rw [if_pos h1, if_neg (fun h2 => hn ⟨h1, h2⟩)]
    · rw [if_neg h1]
  · unfold edgesReached edgesReachedSpec
    by_cases a : w.player_x ≤ w.Edges.Left <;> by_cases b : w.player_x ≥ w.Edges.Right <;>
      by_cases c : w.player_y ≥ w.Edges.Bottom <;> by_cases d : w.player_y ≤ w.Edges.Top <;>
      simp [a, b, c, d] <;> omega

theorem check_room_edges_schedules_witness :
    edgeDetectionActive sampleGame 0
      { sampleWorld with
        player_x := 330
        player_y := 250
        play := { sampleWorld.play with entered_edge := 1 } } ∧
    (check_room_edges sampleGame 0
      { sampleWorld with
        player_x := 330
        player_y := 250
        play := { sampleWorld.play with entered_edge := 1 } }).play.entered_edge = 1 ∧
    (check_room_edges sampleGame 0
      { sampleWorld with
        player_x := 330
        player_y := 250
        play := { sampleWorld.play with entered_edge := 1 } }).numevents = 1 ∧
    (check_room_edges sampleGame 0
      { sampleWorld with
        player_x := 330
        player_y := 250
        play := { sampleWorld.play with entered_edge := 1 } }).event 0 = [2, 2, 0, 2] :=
  have hact : edgeDetectionActive sampleGame 0
      { sampleWorld with
        player_x := 330
        player_y := 250
        play := { sampleWorld.play with entered_edge := 1 } } :=
    ⟨⟨by decide, rfl, rfl, rfl⟩, rfl, rfl⟩
  ⟨hact,
    ((check_room_edges_schedules sampleGame 0
      { sampleWorld with
        player_x := 330
        player_y := 250
        play := { sampleWorld.play with entered_edge := 1 } }).1 hact).2.1,
    rfl, rfl⟩

/-! ## The events of a new room -/

/-- The events of a new room: with `n` the value of `in_new_room` at entry, `update_events` is
called in the state `game_loop_update_events_entry`, in which `new_room_was`
is `n`, `in_new_room` is 0 and the event `EV_FADEIN` has been added to the
queue exactly when `n > 0`.  When
`update_events` returns, leaving `new_room_was` as it is, the function returns
and has then scheduled, if `n > 0` and `in_new_room` is still 0, the room event
4 exactly when `n == 2` and after it the room event 7 exactly when `n != 3`;
with `n <= 0` or `in_new_room` changed it has scheduled neither. -/
theorem game_loop_update_events_schedules (env : GameEnv)
    (wait : Engine → Int → Int → Outcome Unit) (st : Engine) :
    game_loop_update_events env wait st =
      (runHook env wait .update_events (game_loop_update_events_entry env st)).bind
        (fun _ s1 =>
          if s1.world.new_room_was > 0 ∧ s1.world.in_new_room = 0 then
            .done ()
              { s1 with
                world := scheduleRoomEvents env
                  ((if s1.world.new_room_was = 2 then [4] else []) ++
                    (if s1.world.new_room_was ≠ 3 then [7] else [])) s1.world }
          else .done () s1) ∧
    (game_loop_update_events_entry env st).world.in_new_room = 0 ∧
    (game_loop_update_events_entry env st).world.new_room_was = st.world.in_new_room ∧
    (st.world.in_new_room > 0 →
      (game_loop_update_events_entry env st).world.numevents = st.world.numevents + 1 ∧
      (game_loop_update_events_entry env st).world.event st.world.numevents =
        [env.EV_FADEIN, 0, 0, 0]) ∧
    (¬ st.world.in_new_room > 0 →
      (game_loop_update_events_entry env st).world.numevents = st.world.numevents ∧
      (game_loop_update_events_entry env st).world.event = st.world.event) ∧
    ∀ s1 : Engine,
      runHook env wait .update_events (game_loop_update_events_entry env st) = .done () s1 →
      s1.world.new_room_was = st.world.in_new_room →
      game_loop_update_events env wait st =
        .done ()
          { s1 with
            world := scheduleRoomEvents env
              (entersScreenEventsSpec st.world.in_new_room s1.world.in_new_room)
              s1.world } := by
  have hbody : ∀ s1 : Engine,
      (if s1.world.new_room_was > 0 ∧ s1.world.in_new_room = 0 then
        (let w : World :=
          if s1.world.new_room_was = 2 then
            setevent [env.EV_RUNEVBLOCK, env.EVB_ROOM, 0, 4] s1.world
          else s1.world
        let w : World :=
          if w.new_room_was ≠ 3 then setevent [env.EV_RUNEVBLOCK, env.EVB_ROOM, 0, 7] w
          else w
        Outcome.done () { s1 with world := w })
      else .done () s1) =
      (if s1.world.new_room_was > 0 ∧ s1.world.in_new_room = 0 then
        .done ()
          { s1 with
            world := scheduleRoomEvents env
              ((if s1.world.new_room_was = 2 then [4] else []) ++
                (if s1.world.new_room_was ≠ 3 then [7] else [])) s1.world }
      else .done () s1) := by
    intro s1
    by_cases hc : s1.world.new_room_was > 0 ∧ s1.world.in_new_room = 0
    · rw [if_pos hc, if_pos hc]
      by_cases h2 : s1.world.new_room_was = 2 <;> by_cases h3 : s1.world.new_room_was ≠ 3 <;>
        simp [h2, h3, scheduleRoomEvents, setevent]
    · rw [if_neg hc, if_neg hc]
  have hstart : game_loop_update_events env wait st =
      (runHook env wait .update_events (game_loop_update_events_entry env st)).bind
        (fun _ s1 =>
          if s1.world.new_room_was > 0 ∧ s1.world.in_new_room = 0 then
            .done ()
              { s1 with
                world := scheduleRoomEvents env
                  ((if s1.world.new_room_was = 2 then [4] else []) ++
                    (if s1.world.new_room_was ≠ 3 then [7] else [])) s1.world }
          else .done () s1) := by
    unfold game_loop_update_events game_loop_update_events_entry
    simp only
    congr 1
    funext u s1
    exact hbody s1
  refine ⟨hstart, rfl, ?_, ?_, ?_, ?_⟩
  · unfold game_loop_update_events_entry
    by_cases hn : st.world.in_new_room > 0
    · simp only [if_pos hn]
      rfl
    · simp only [if_neg hn]
  · intro hn
    unfold game_loop_update_events_entry
    simp only [if_pos hn]
    refine ⟨rfl, ?_⟩
    simp [setevent]
  · intro hn
    unfold game_loop_update_events_entry
    simp only [if_neg hn]
    simp
  · intro s1 h1 hkeep
    rw [hstart, h1]
    simp only [Outcome.bind, hkeep, entersScreenEventsSpec]
    by_cases hn : st.world.in_new_room > 0 <;> by_cases ha : s1.world.in_new_room = 0 <;>
      by_cases h2 : st.world.in_new_room = 2 <;> by_cases h3 : st.world.in_new_room ≠ 3 <;>
      simp [hn, ha, h2, h3, scheduleRoomEvents]

theorem game_loop_update_events_schedules_witness :
    ∃ s : Engine,
      game_loop_update_events sampleGame (GameLoopUntilEvent sampleGame 0)
        { sampleEngine with world := { sampleWorld with in_new_room := 2 } } = .done () s ∧
      s.world.numevents = 3 ∧ s.world.event 0 = [5, 0, 0, 0] ∧
      s.world.event 1 = [2, 2, 0, 4] ∧ s.world.event 2 = [2, 2, 0, 7] :=
  ⟨_, (game_loop_update_events_schedules sampleGame (GameLoopUntilEvent sampleGame 0)
      { sampleEngine with world := { sampleWorld with in_new_room := 2 } }).2.2.2.2.2 _ rfl rfl,
    rfl, rfl, rfl, rfl⟩

/-- Claim C24, where the code departs from it: a tick in which the events of a
new room are not scheduled.  In `eventWaitGame`, with `in_new_room` equal to 2 at entry,
`update_events` makes a blocking call; each tick of that call runs
`game_loop_update_events` again, which sets `new_room_was` to the value 0 that
`in_new_room` has by then.  When `update_events` returns, `in_new_room` is
still 0 and no other room change has started, but `new_room_was` is 0, and the
function returns with neither the room event 4 nor the room event 7 in the
queue: the queue holds the fade-in event and the events of the two nested
ticks. -/
theorem game_loop_update_events_after_nested_wait :
    ∃ s : Engine,
      game_loop_update_events eventWaitGame (GameLoopUntilEvent eventWaitGame 2)
        { sampleEngine with world := { sampleWorld with in_new_room := 2 } } = .done () s ∧
      s.world.in_new_room = 0 ∧ s.world.new_room_was = 0 ∧ s.world.numevents = 7 ∧
      (List.range 7).map s.world.event =
        [[5, 0, 0, 0], [1, 1], [2, 2, 0, 6], [2, 1, 0, 0], [1, 1], [2, 2, 0, 6], [2, 1, 0, 0]] ∧
      [eventWaitGame.EV_RUNEVBLOCK, eventWaitGame.EVB_ROOM, 0, 4] ∉
        (List.range 7).map s.world.event ∧
      [eventWaitGame.EV_RUNEVBLOCK, eventWaitGame.EVB_ROOM, 0, 7] ∉
        (List.range 7).map s.world.event :=
  ⟨_, rfl, rfl, rfl, rfl, rfl, by decide, by decide⟩

/-! ## What a call can end in -/

theorem Outcome.bind_quit {α β : Type} (x : Outcome α) (f : α → Engine → Outcome β)
    (h : Halt) :
    x.bind f = .quit h ↔ x = .quit h ∨ ∃ a st1, x = .done a st1 ∧ f a st1 = .quit h := by
  cases x with
  | done a st1 =>
    constructor
    · intro e
      exact Or.inr ⟨a, st1, rfl, e⟩
    · rintro (e | ⟨a', st1', h1, h2⟩)
      · cases e
      · cases h1
        exact h2
  | quit h' =>
    have hb : (Outcome.quit h' : Outcome α).bind f = .quit h' := rfl
    rw [hb]
    constructor
    · intro e
      cases e
      exact Or.inl rfl
    · rintro (e | ⟨a', st1', h1, _⟩)
      · cases e
        rfl
      · cases h1
  | timeout =>
    constructor
    · intro e
      cases e
    · rintro (e | ⟨a', st1', h1, _⟩)
      · cases e
      · cases h1

theorem Outcome.safe_done {α : Type} (I : Engine → Prop) (P : Halt → Prop) (a : α)
    (st : Engine) (h : I st) : (Outcome.done a st).safe I P := by
  refine ⟨fun a' st' e => ?_, fun h' e => ?_⟩
  · cases e
    exact h
  · cases e

theorem Outcome.safe_quit {α : Type} (I : Engine → Prop) (P : Halt → Prop) (h : Halt)
    (hP : P h) : (Outcome.quit h : Outcome α).safe I P := by
  refine ⟨fun a' st' e => ?_, fun h' e => ?_⟩
  · cases e
  · cases e
    exact hP

theorem Outcome.safe_timeout {α : Type} (I : Engine → Prop) (P : Halt → Prop) :
    (Outcome.timeout : Outcome α).safe I P := by
  refine ⟨fun a' st' e => ?_, fun h' e => ?_⟩
  · cases e
  · cases e

theorem Outcome.safe_bind {α β : Type} (I : Engine → Prop) (P : Halt → Prop) (x : Outcome α)
    (f : α → Engine → Outcome β) (hx : x.safe I P) (hf : ∀ a s, I s → (f a s).safe I P) :
    (x.bind f).safe I P := by
  refine ⟨fun b st' e => ?_, fun h e => ?_⟩
  · obtain ⟨a, s, h1, h2⟩ := (Outcome.bind_done x f b st').1 e
    exact (hf a s (hx.1 a s h1)).1 b st' h2
  · rcases (Outcome.bind_quit x f h).1 e with e1 | ⟨a, s, h1, h2⟩
    · exact hx.2 h e1
    · exact (hf a s (hx.1 a s h1)).2 h h2

theorem Outcome.safe_ite {α : Type} (I : Engine → Prop) (P : Halt → Prop) (c : Prop)
    [Decidable c] (x y : Outcome α) (hx : x.safe I P) (hy : y.safe I P) :
    (if c then x else y).safe I P := by
  split_ifs
  · exact hx
  · exact hy

/-- Code outside `game_run.cpp` is safe when the blocking calls that it makes
are. -/
theorem runActions_safe (I : Engine → Prop) (P : Halt → Prop) (hG : Guarded I P)
    (wait : Engine → Int → Int → Outcome Unit)
    (hw : ∀ s k d, I s → (wait s k d).safe I P) :
    ∀ (acts : List Action) (st : Engine), I st → (runActions wait acts st).safe I P := by
  intro acts
  induction acts with
  | nil =>
    intro st hI
    exact Outcome.safe_done I P () st hI
  | cons a rest ih =>
    intro st hI
    cases a with
    | modify f =>
      simp only [runActions]
      exact ih _ (hG.world st _ hI)
    | quit code =>
      simp only [runActions]
      exact Outcome.safe_quit I P _
        (hG.other _ (fun e => by cases e) (fun e => by cases e) (fun e => by cases e))
    | block call =>
      simp only [runActions]
      have hwait := hw st call.untilwhat call.data hI
      cases hc : wait st call.untilwhat call.data with
      | done u s =>
        simp only
        exact ih s (hwait.1 u s hc)
      | quit q =>
        simp only
        exact Outcome.safe_quit I P q (hwait.2 q hc)
      | timeout =>
        simp only
        exact Outcome.safe_timeout I P

theorem runHook_safe (env : GameEnv) (I : Engine → Prop) (P : Halt → Prop) (hG : Guarded I P)
    (wait : Engine → Int → Int → Outcome Unit)
    (hw : ∀ s k d, I s → (wait s k d).safe I P) (h : Hook) (st : Engine) (hI : I st) :
    (runHook env wait h st).safe I P :=
  runActions_safe I P hG wait hw _ st hI

theorem between_safe (I : Engine → Prop) (P : Halt → Prop) (f : Engine → Outcome Unit)
    (trace : List Phase) (st : Engine) (hf : (f st).safe I P) :
    (between f trace st).safe I P :=
  Outcome.safe_bind I P _ _ hf (fun _ s hs => Outcome.safe_done I P _ s hs)

theorem phase_safe (I : Engine → Prop) (P : Halt → Prop) (p : Phase)
    (f : Engine → Outcome Unit) (trace : List Phase) (st : Engine) (hf : (f st).safe I P) :
    (phase p f trace st).safe I P :=
  Outcome.safe_bind I P _ _ hf (fun _ s hs => Outcome.safe_done I P _ s hs)

/-- The messages with which `ShouldStayInWaitMode` can end. -/
theorem ShouldStayInWaitMode_error (st : Engine) (h : Halt)
    (e : ShouldStayInWaitMode st = .error h) :
    h.msg = .notInLoopUntilState ∨ h.msg = .unknownUntilEvent := by
  obtain ⟨k1, k2, k3, k4, k5, k6, k7⟩ := ShouldStayInWaitMode_kinds st
  by_cases h1 : st.restrict_until = UNTIL_MOVEEND
  · rw [k1 h1] at e
    cases e
  by_cases h2 : st.restrict_until = UNTIL_CHARIS0
  · rw [k2 h2] at e
    cases e
  by_cases h3 : st.restrict_until = UNTIL_NEGATIVE
  · rw [k3 h3] at e
    cases e
  by_cases h4 : st.restrict_until = UNTIL_INTISNEG
  · rw [k4 h4] at e
    cases e
  by_cases h5 : st.restrict_until = UNTIL_NOOVERLAY
  · rw [k5 h5] at e
    cases e
  by_cases h6 : st.restrict_until = UNTIL_INTIS0
  · rw [k6 h6] at e
    cases e
  by_cases h7 : st.restrict_until = UNTIL_SHORTIS0
  · rw [k7 h7] at e
    cases e
  rw [ShouldStayInWaitMode_unknown st h1 h2 h3 h4 h5 h6 h7] at e
  split_ifs at e <;> cases e
  · exact Or.inl rfl
  · exact Or.inr rfl

theorem Guarded.own {I : Engine → Prop} {P : Halt → Prop} (hG : Guarded I P) (h : Halt)
    (hmsg : h.msg = .screenUpdatedInEntersScreen ∨ h.msg = .blockingInNonBlockingEvent ∨
      h.msg = .notInLoopUntilState ∨ h.msg = .unknownUntilEvent ∨
      h.msg = .blockingBeforeFirstRoom) : P h := by
  apply hG.other <;> intro e <;> rw [e] at hmsg <;> simp at hmsg

theorem game_loop_check_problems_at_start_safe (I : Engine → Prop) (P : Halt → Prop)
    (hG : Guarded I P) (st : Engine) (hI : I st) :
    (game_loop_check_problems_at_start st).safe I P := by
  unfold game_loop_check_problems_at_start
  apply Outcome.safe_ite
  · exact Outcome.safe_quit I P _ (hG.own _ (Or.inl rfl))
  · simp only
    have hI' : I (if st.world.in_enters_screen ≠ 0 ∧ st.world.done_es_error = 0 then
        { st with world := { st.world with done_es_error := 1 } } else st) := by
      split_ifs
      · exact hG.world st _ hI
      · exact hI
    apply Outcome.safe_ite
    · exact Outcome.safe_quit I P _ (hG.own _ (Or.inr (Or.inl rfl)))
    · exact Outcome.safe_done I P _ _ hI'

theorem game_loop_check_new_room_safe (env : GameEnv) (I : Engine → Prop) (P : Halt → Prop)
    (hG : Guarded I P) (wait : Engine → Int → Int → Outcome Unit)
    (hw : ∀ s k d, I s → (wait s k d).safe I P) (st : Engine) (hI : I st) :
    (game_loop_check_new_room env wait st).safe I P := by
  unfold game_loop_check_new_room
  refine Outcome.safe_bind I P _ _ ?_ (fun _ s hs => runHook_safe env I P hG wait hw _ s hs)
  refine Outcome.safe_ite I P _ _ _ ?_ (Outcome.safe_done I P () st hI)
  refine Outcome.safe_bind I P _ _ (runHook_safe env I P hG wait hw _ st hI) (fun _ s hs => ?_)
  exact Outcome.safe_done I P () _ (hG.world s _ hs)

theorem game_loop_do_late_update_safe (env : GameEnv) (I : Engine → Prop) (P : Halt → Prop)
    (hG : Guarded I P) (wait : Engine → Int → Int → Outcome Unit)
    (hw : ∀ s k d, I s → (wait s k d).safe I P) (st : Engine) (hI : I st) :
    (game_loop_do_late_update env wait st).safe I P := by
  unfold game_loop_do_late_update
  exact Outcome.safe_ite I P _ _ _ (runHook_safe env I P hG wait hw _ st hI)
    (Outcome.safe_done I P () st hI)

theorem fireRegionInteraction_safe (env : GameEnv) (I : Engine → Prop) (P : Halt → Prop)
    (hG : Guarded I P) (wait : Engine → Int → Int → Outcome Unit)
    (hw : ∀ s k d, I s → (wait s k d).safe I P) (regnum mood : Int) (fired : List RegionCall)
    (st : Engine) (hI : I st) :
    (fireRegionInteraction env wait regnum mood fired st).safe I P := by
  unfold fireRegionInteraction
  exact Outcome.safe_bind I P _ _ (runHook_safe env I P hG wait hw _ st hI)
    (fun _ s hs => Outcome.safe_done I P _ s hs)

theorem game_loop_check_ground_level_interactions_end_safe (env : GameEnv)
    (I : Engine → Prop) (P : Halt → Prop) (hG : Guarded I P) (fired : List RegionCall)
    (st : Engine) (hI : I st) :
    (game_loop_check_ground_level_interactions_end env fired st).safe I P := by
  unfold game_loop_check_ground_level_interactions_end
  split_ifs
  · cases hs : ShouldStayInWaitMode st with
    | error h =>
      refine Outcome.safe_quit I P h (hG.own h ?_)
      rcases ShouldStayInWaitMode_error st h hs with e | e
      · exact Or.inr (Or.inr (Or.inl e))
      · exact Or.inr (Or.inr (Or.inr (Or.inl e)))
    | ok stay =>
      simp only
      split_ifs
      · exact Outcome.safe_done I P _ _ (hG.world st _ hI)
      · exact Outcome.safe_done I P _ st hI
  · exact Outcome.safe_done I P _ st hI

theorem game_loop_check_ground_level_interactions_safe (env : GameEnv) (I : Engine → Prop)
    (P : Halt → Prop) (hG : Guarded I P) (wait : Engine → Int → Int → Outcome Unit)
    (hw : ∀ s k d, I s → (wait s k d).safe I P) (st : Engine) (hI : I st) :
    (game_loop_check_ground_level_interactions env wait st).safe I P := by
  unfold game_loop_check_ground_level_interactions
  simp only
  apply Outcome.safe_ite
  · apply Outcome.safe_bind
    · apply Outcome.safe_ite
      · apply Outcome.safe_bind
        · apply Outcome.safe_ite
          · exact fireRegionInteraction_safe env I P hG wait hw _ _ _ _ (hG.world st _ hI)
          · exact Outcome.safe_done I P _ _ (hG.world st _ hI)
        · intro fired s hs
          apply Outcome.safe_ite
          · exact fireRegionInteraction_safe env I P hG wait hw _ _ _ _ hs
          · exact Outcome.safe_done I P _ _ hs
      · exact Outcome.safe_done I P _ _ (hG.world st _ hI)
    · intro fired s hs
      apply Outcome.safe_bind
      · apply Outcome.safe_ite
        · exact fireRegionInteraction_safe env I P hG wait hw _ _ _ _ hs
        · exact Outcome.safe_done I P _ _ hs
      · intro fired s hs
        apply Outcome.safe_bind
        · apply Outcome.safe_ite
          · apply Outcome.safe_bind
            · exact runHook_safe env I P hG wait hw _ _ hs
            · intro _ s hs
              exact Outcome.safe_done I P _ _ hs
          · exact Outcome.safe_done I P _ _ hs
        · intro fired s hs
          exact game_loop_check_ground_level_interactions_end_safe env I P hG fired s hs
  · exact Outcome.safe_done I P _ _ hI

theorem game_loop_check_controls_safe (env : GameEnv) (I : Engine → Prop) (P : Halt → Prop)
    (hG : Guarded I P) (wait : Engine → Int → Int → Outcome Unit)
    (hw : ∀ s k d, I s → (wait s k d).safe I P) (checkControls : Bool) (st : Engine)
    (hI : I st) : (game_loop_check_controls env wait checkControls st).safe I P := by
  unfold game_loop_check_controls
  simp only
  apply Outcome.safe_ite
  · apply Outcome.safe_bind
    · exact runHook_safe env I P hG wait hw _ _ hI
    · intro _ s hs
      apply Outcome.safe_ite
      · exact runHook_safe env I P hG wait hw _ _ (hG.world s _ hs)
      · exact Outcome.safe_done I P _ _ (hG.world s _ hs)
  · exact Outcome.safe_done I P _ _ hI

theorem game_loop_do_update_safe (env : GameEnv) (I : Engine → Prop) (P : Halt → Prop)
    (hG : Guarded I P) (wait : Engine → Int → Int → Outcome Unit)
    (hw : ∀ s k d, I s → (wait s k d).safe I P) (st : Engine) (hI : I st) :
    (game_loop_do_update env wait st).safe I P := by
  unfold game_loop_do_update
  apply Outcome.safe_ite
  · exact Outcome.safe_done I P _ _ hI
  · apply Outcome.safe_ite
    · exact runHook_safe env I P hG wait hw _ _ hI
    · exact Outcome.safe_done I P _ _ hI

theorem game_loop_do_render_and_check_mouse_safe (env : GameEnv) (I : Engine → Prop)
    (P : Halt → Prop) (hG : Guarded I P) (wait : Engine → Int → Int → Outcome Unit)
    (hw : ∀ s k d, I s → (wait s k d).safe I P) (st : Engine) (hI : I st) :
    (game_loop_do_render_and_check_mouse env wait st).safe I P := by
  unfold game_loop_do_render_and_check_mouse
  apply Outcome.safe_ite
  · apply Outcome.safe_bind
    · exact runHook_safe env I P hG wait hw _ _ hI
    · intro _ s hs
      apply Outcome.safe_ite
      · exact Outcome.safe_done I P _ _ hs
      · exact runHook_safe env I P hG wait hw _ _ hs
  · exact Outcome.safe_done I P _ _ hI

theorem game_loop_update_events_safe (env : GameEnv) (I : Engine → Prop) (P : Halt → Prop)
    (hG : Guarded I P) (wait : Engine → Int → Int → Outcome Unit)
    (hw : ∀ s k d, I s → (wait s k d).safe I P) (st : Engine) (hI : I st) :
    (game_loop_update_events env wait st).safe I P := by
  unfold game_loop_update_events
  simp only
  apply Outcome.safe_bind
  · exact runHook_safe env I P hG wait hw _ _ (hG.world st _ hI)
  · intro _ s hs
    apply Outcome.safe_ite
    · exact Outcome.safe_done I P _ _ (hG.world s _ hs)
    · exact Outcome.safe_done I P _ _ hs

theorem game_loop_update_background_animation_safe (env : GameEnv) (I : Engine → Prop)
    (P : Halt → Prop) (hG : Guarded I P) (wait : Engine → Int → Int → Outcome Unit)
    (hw : ∀ s k d, I s → (wait s k d).safe I P) (st : Engine) (hI : I st) :
    (game_loop_update_background_animation env wait st).safe I P := by
  unfold game_loop_update_background_animation
  simp only
  apply Outcome.safe_ite
  · exact Outcome.safe_done I P _ _ (hG.world st _ hI)
  · apply Outcome.safe_ite
    · exact Outcome.safe_done I P _ _ hI
    · apply Outcome.safe_ite
      · exact runHook_safe env I P hG wait hw _ _ (hG.world st _ hI)
      · exact Outcome.safe_done I P _ _ (hG.world st _ hI)

theorem game_loop_update_loop_counter_safe (env : GameEnv) (I : Engine → Prop)
    (P : Halt → Prop) (hG : Guarded I P) (wait : Engine → Int → Int → Outcome Unit)
    (hw : ∀ s k d, I s → (wait s k d).safe I P) (st : Engine) (hI : I st) :
    (game_loop_update_loop_counter env wait st).safe I P := by
  unfold game_loop_update_loop_counter
  simp only
  apply Outcome.safe_ite
  · apply Outcome.safe_bind
    · exact runHook_safe env I P hG wait hw _ _ (hG.world st _ hI)
    · intro _ s hs
      exact runHook_safe env I P hG wait hw _ _ hs
  · exact Outcome.safe_done I P _ _ (hG.world st _ hI)

/-- The statements of `UpdateGameOnce` up to the test of the result of the
ground-level phase are safe when its first statements are. -/
theorem UpdateGameOnce_head_safe (env : GameEnv) (I : Engine → Prop) (P : Halt → Prop)
    (hG : Guarded I P) (wait : Engine → Int → Int → Outcome Unit)
    (hw : ∀ s k d, I s → (wait s k d).safe I P) (st : Engine)
    (hstart : (UpdateGameOnce_start env wait st).safe I P) :
    (UpdateGameOnce_head env wait st).safe I P := by
  unfold UpdateGameOnce_head
  apply Outcome.safe_bind
  · apply Outcome.safe_bind
    · apply Outcome.safe_bind
      · apply Outcome.safe_bind
        · apply Outcome.safe_bind
          · have h0 : ((Outcome.done [] st).bind (between (UpdateGameOnce_start env wait))) =
                between (UpdateGameOnce_start env wait) [] st := rfl
            rw [h0]
            exact between_safe I P _ _ _ hstart
          · intro tr s hs
            exact between_safe I P _ _ _ (runHook_safe env I P hG wait hw _ s hs)
        · intro tr s hs
          exact phase_safe I P _ _ _ _ (game_loop_check_problems_at_start_safe I P hG s hs)
      · intro tr s hs
        refine between_safe I P _ _ _ ?_
        simp only
        refine runHook_safe env I P hG wait hw _ _ ?_
        split_ifs
        · exact hG.world s _ hs
        · exact hs
    · intro tr s hs
      exact phase_safe I P _ _ _ _ (game_loop_check_new_room_safe env I P hG wait hw s hs)
  · intro trace s hs
    apply Outcome.safe_bind
    · exact game_loop_check_ground_level_interactions_safe env I P hG wait hw s hs
    · intro res s hs
      exact Outcome.safe_done I P _ _ hs

theorem UpdateGameOnce_body_safe (env : GameEnv) (I : Engine → Prop) (P : Halt → Prop)
    (hG : Guarded I P) (wait : Engine → Int → Int → Outcome Unit)
    (hw : ∀ s k d, I s → (wait s k d).safe I P) (checkControls : Bool) (trace : List Phase)
    (st : Engine) (hI : I st) :
    (UpdateGameOnce_body env wait checkControls trace st).safe I P := by
  unfold UpdateGameOnce_body
  apply Outcome.safe_bind
  · apply Outcome.safe_bind
    · apply Outcome.safe_bind
      · apply Outcome.safe_bind
        · apply Outcome.safe_bind
          · apply Outcome.safe_bind
            · apply Outcome.safe_bind
              · apply Outcome.safe_bind
                · apply Outcome.safe_bind
                  · apply Outcome.safe_bind
                    · apply Outcome.safe_bind
                      · exact Outcome.safe_done I P _ _ (hG.world st _ hI)
                      · intro tr s hs
                        exact between_safe I P _ _ _
                          (runHook_safe env I P hG wait hw _ s hs)
                    · intro tr s hs
                      exact phase_safe I P _ _ _ _
                        (game_loop_check_controls_safe env I P hG wait hw _ s hs)
                  · intro tr s hs
                    exact phase_safe I P _ _ _ _
                      (game_loop_do_update_safe env I P hG wait hw s hs)
                · intro tr s hs
                  exact phase_safe I P _ _ _ _
                    (Outcome.safe_done I P _ _ (hG.world s _ hs))
              · intro tr s hs
                exact phase_safe I P _ _ _ _
                  (game_loop_do_late_update_safe env I P hG wait hw s hs)
            · intro tr s hs
              exact phase_safe I P _ _ _ _ (runHook_safe env I P hG wait hw _ s hs)
          · intro tr s hs
            split_ifs
            · exact phase_safe I P _ _ _ _
                (game_loop_do_render_and_check_mouse_safe env I P hG wait hw s hs)
            · exact between_safe I P _ _ _
                (game_loop_do_render_and_check_mouse_safe env I P hG wait hw s hs)
        · intro tr s hs
          exact phase_safe I P _ _ _ _
            (game_loop_update_events_safe env I P hG wait hw s hs)
      · intro tr s hs
        exact between_safe I P _ _ _ (runHook_safe env I P hG wait hw _ s hs)
    · intro tr s hs
      exact phase_safe I P _ _ _ _
        (game_loop_update_background_animation_safe env I P hG wait hw s hs)
  · intro tr s hs
    exact phase_safe I P _ _ _ _
      (game_loop_update_loop_counter_safe env I P hG wait hw s hs)

/-- A call of `UpdateGameOnce` is safe when its first statements are and the
blocking calls made by code outside `game_run.cpp` are. -/
theorem UpdateGameOnce_safe (env : GameEnv) (I : Engine → Prop) (P : Halt → Prop)
    (hG : Guarded I P) (wait : Engine → Int → Int → Outcome Unit)
    (hw : ∀ s k d, I s → (wait s k d).safe I P) (checkControls : Bool) (st : Engine)
    (hstart : (UpdateGameOnce_start env wait st).safe I P) :
    (UpdateGameOnce env wait checkControls st).safe I P := by
  unfold UpdateGameOnce
  apply Outcome.safe_bind
  · exact UpdateGameOnce_head_safe env I P hG wait hw st hstart
  · intro res s hs
    apply Outcome.safe_ite
    · exact Outcome.safe_done I P _ _ hs
    · apply Outcome.safe_bind
      · exact UpdateGameOnce_body_safe env I P hG wait hw _ _ s hs
      · intro tr s hs
        apply Outcome.safe_ite
        · exact Outcome.safe_done I P _ _ hs
        · apply Outcome.safe_bind
          · exact phase_safe I P _ _ _ _ (runHook_safe env I P hG wait hw _ s hs)
          · intro tr s hs
            exact between_safe I P _ _ _ (runHook_safe env I P hG wait hw _ s hs)

/-! ## The request to exit -/

/-- The ways in which the first statements of `UpdateGameOnce` end. -/
theorem UpdateGameOnce_start_cases (env : GameEnv) (wait : Engine → Int → Int → Outcome Unit)
    (st : Engine) :
    (∀ s1, UpdateGameOnce_polls env wait st = .done () s1 → s1.world.want_exit ≠ 0 →
      UpdateGameOnce_start env wait st = .quit ⟨.properExit, properExitState s1⟩) ∧
    (∀ s, UpdateGameOnce_start env wait st = .done () s →
      ∃ s1, UpdateGameOnce_polls env wait st = .done () s1 ∧ s1.world.want_exit = 0 ∧
        s = { s1 with numEventsAtStartOfFunction := s1.world.numevents }) ∧
    (∀ h, UpdateGameOnce_start env wait st = .quit h →
      UpdateGameOnce_polls env wait st = .quit h ∨
      ∃ s1, UpdateGameOnce_polls env wait st = .done () s1 ∧ s1.world.want_exit ≠ 0 ∧
        h = ⟨.properExit, properExitState s1⟩) := by
  have hstart : UpdateGameOnce_start env wait st =
      (UpdateGameOnce_polls env wait st).bind fun _ s1 =>
        if s1.world.want_exit ≠ 0 then .quit ⟨.properExit, properExitState s1⟩
        else .done () { s1 with numEventsAtStartOfFunction := s1.world.numevents } := by
    unfold UpdateGameOnce_start UpdateGameOnce_polls
    cases runHook env wait .process_pending_events st with
    | done u sa =>
      simp only [Outcome.bind]
      cases runHook env wait .update_polled_mp3 sa with
      | done u sb => rfl
      | quit h => rfl
      | timeout => rfl
    | quit h => rfl
    | timeout => rfl
  rw [hstart]
  refine ⟨?_, ?_, ?_⟩
  · intro s1 h1 hw
    rw [h1]
    simp only [Outcome.bind]
    rw [if_pos hw]
  · intro s h
    obtain ⟨_, s1, h1, h2⟩ := (Outcome.bind_done _ _ _ _).1 h
    split_ifs at h2 with hw
    cases h2
    exact ⟨s1, h1, not_not.1 hw, rfl⟩
  · intro h hq
    rcases (Outcome.bind_quit _ _ _).1 hq with e | ⟨_, s1, h1, h2⟩
    · exact Or.inl e
    · split_ifs at h2 with hw
      cases h2
      exact Or.inr ⟨s1, h1, hw, rfl⟩

/-- When its first statements end in `quit`, `UpdateGameOnce` ends in the same
`quit`. -/
theorem UpdateGameOnce_start_quit (env : GameEnv) (wait : Engine → Int → Int → Outcome Unit)
    (checkControls : Bool) (st : Engine) (h : Halt)
    (hq : UpdateGameOnce_start env wait st = .quit h) :
    UpdateGameOnce env wait checkControls st = .quit h := by
  unfold UpdateGameOnce UpdateGameOnce_head
  simp only [Outcome.bind, between, hq]

/-! ## The invariant of the wait state -/

theorem UpdateGameOnce_start_safe (env : GameEnv) (I : Engine → Prop) (P : Halt → Prop)
    (hG : Guarded I P) (hexit : ∀ s : Engine, P ⟨.properExit, s⟩)
    (wait : Engine → Int → Int → Outcome Unit)
    (hw : ∀ s k d, I s → (wait s k d).safe I P) (st : Engine) (hI : I st) :
    (UpdateGameOnce_start env wait st).safe I P := by
  unfold UpdateGameOnce_start
  apply Outcome.safe_bind
  · exact runHook_safe env I P hG wait hw _ st hI
  · intro _ s hs
    apply Outcome.safe_bind
    · exact runHook_safe env I P hG wait hw _ s hs
    · intro _ s hs
      simp only
      apply Outcome.safe_ite
      · exact Outcome.safe_quit I P _ (hexit _)
      · exact Outcome.safe_done I P _ _ (hG.recorded s _ hs)

/-- With the invariant, `UpdateWaitMode` keeps it and does not reach its two
calls of `quit`. -/
theorem UpdateWaitMode_safe (env : GameEnv) (st : Engine) (hI : waitInvariant env st) :
    (UpdateWaitMode env st).safe (waitInvariant env)
      (fun h => h.msg ≠ .forScriptObsolete ∧ h.msg ≠ .unknownUserDisabledFor) := by
  unfold UpdateWaitMode
  by_cases h0 : st.restrict_until = 0
  · rw [if_pos h0]
    exact Outcome.safe_done _ _ _ _ hI
  · rw [if_neg h0]
    have hfor : st.user_disabled_for = env.FOR_EXITLOOP := hI h0
    cases hs : ShouldStayInWaitMode st with
    | error h =>
      simp only
      refine Outcome.safe_quit _ _ h ?_
      rcases ShouldStayInWaitMode_error st h hs with e | e <;> rw [e] <;>
        exact ⟨fun c => (by cases c), fun c => (by cases c)⟩
    | ok stay =>
      simp only
      by_cases hstay : stay ≠ 0
      · rw [if_pos hstay]
        exact Outcome.safe_done _ _ _ _ (fun _ => hfor)
      · rw [if_neg hstay, if_pos hfor]
        exact Outcome.safe_done _ _ _ _ (fun hne => absurd (not_not.1 hstay) hne)

theorem waitInvariant_guarded (env : GameEnv) :
    Guarded (waitInvariant env)
      (fun h => h.msg ≠ .forScriptObsolete ∧ h.msg ≠ .unknownUserDisabledFor) :=
  ⟨fun _ _ h => h, fun _ _ h => h, fun _ _ h2 h3 => ⟨h2, h3⟩⟩

theorem GameTick_safe (env : GameEnv) (wait : Engine → Int → Int → Outcome Unit)
    (hw : ∀ s k d, waitInvariant env s → (wait s k d).safe (waitInvariant env)
      (fun h => h.msg ≠ .forScriptObsolete ∧ h.msg ≠ .unknownUserDisabledFor))
    (st : Engine) (hI : waitInvariant env st) :
    (GameTick env wait st).safe (waitInvariant env)
      (fun h => h.msg ≠ .forScriptObsolete ∧ h.msg ≠ .unknownUserDisabledFor) := by
  have hG := waitInvariant_guarded env
  unfold GameTick
  apply Outcome.safe_ite
  · exact Outcome.safe_quit _ _ _ ⟨fun c => (by cases c), fun c => (by cases c)⟩
  · apply Outcome.safe_bind
    · exact UpdateGameOnce_safe env _ _ hG wait hw true st
        (UpdateGameOnce_start_safe env _ _ hG
          (fun _ => ⟨fun c => (by cases c), fun c => (by cases c)⟩) wait hw st hI)
    · intro _ s hs
      apply Outcome.safe_bind
      · exact runHook_safe env _ _ hG wait hw _ s hs
      · intro _ s hs
        apply Outcome.safe_bind
        · exact UpdateWaitMode_safe env s hs
        · intro res s hs
          apply Outcome.safe_ite
          · exact Outcome.safe_done _ _ _ _ hs
          · exact Outcome.safe_done _ _ _ _ hs

theorem GameLoopUntilEvent_ticks_safe (I : Engine → Prop) (P : Halt → Prop)
    (tick : Engine → Outcome Int) (htick : ∀ s, I s → (tick s).safe I P) :
    ∀ (n : Nat) (st : Engine), I st → (GameLoopUntilEvent_ticks tick n st).safe I P := by
  intro n
  induction n with
  | zero =>
    intro st _
    exact Outcome.safe_timeout I P
  | succ n ih =>
    intro st hI
    simp only [GameLoopUntilEvent_ticks]
    have ht := htick st hI
    cases hc : tick st with
    | done res s =>
      simp only
      have hs := ht.1 res s hc
      split_ifs
      · have hrec := ih s hs
        cases hl : GameLoopUntilEvent_ticks tick n s with
        | done results s' =>
          simp only
          exact Outcome.safe_done I P _ _ (hrec.1 results s' hl)
        | quit h =>
          simp only
          exact Outcome.safe_quit I P _ (hrec.2 h hl)
        | timeout =>
          simp only
          exact Outcome.safe_timeout I P
      · exact Outcome.safe_done I P _ _ hs
    | quit h =>
      simp only
      exact Outcome.safe_quit I P _ (ht.2 h hc)
    | timeout =>
      simp only
      exact Outcome.safe_timeout I P

theorem SetupLoopParameters_invariant (env : GameEnv) (st : Engine) (untilwhat udata : Int) :
    waitInvariant env (SetupLoopParameters env st untilwhat udata) :=
  fun _ => rfl

theorem GameLoopUntilEvent_safe (env : GameEnv) (budget : Nat) :
    ∀ (st : Engine) (untilwhat daaa : Int), waitInvariant env st →
      (GameLoopUntilEvent env budget st untilwhat daaa).safe (waitInvariant env)
        (fun h => h.msg ≠ .forScriptObsolete ∧ h.msg ≠ .unknownUserDisabledFor) := by
  induction budget with
  | zero =>
    intro st untilwhat daaa _
    exact Outcome.safe_timeout _ _
  | succ budget ih =>
    intro st untilwhat daaa hI
    have hG := waitInvariant_guarded env
    simp only [GameLoopUntilEvent]
    have hh := runHook_safe env _ _ hG (GameLoopUntilEvent env budget) ih
      .EndSkippingUntilCharStops st hI
    cases hc : runHook env (GameLoopUntilEvent env budget) .EndSkippingUntilCharStops st with
    | done u st0 =>
      simp only
      have h0 : waitInvariant env st0 := hh.1 u st0 hc
      have hl := GameLoopUntilEvent_ticks_safe _ _
        (GameTick env (GameLoopUntilEvent env budget))
        (fun s hs => GameTick_safe env _ ih s hs) (budget + 1)
        (SetupLoopParameters env st0 untilwhat daaa)
        (SetupLoopParameters_invariant env st0 untilwhat daaa)
      cases hr : GameLoopUntilEvent_ticks (GameTick env (GameLoopUntilEvent env budget))
          (budget + 1) (SetupLoopParameters env st0 untilwhat daaa) with
      | done results m =>
        simp only
        exact Outcome.safe_done _ _ _ _ h0
      | quit h =>
        simp only
        exact Outcome.safe_quit _ _ _ (hl.2 h hr)
      | timeout =>
        simp only
        exact Outcome.safe_timeout _ _
    | quit h =>
      simp only
      exact Outcome.safe_quit _ _ _ (hh.2 h hc)
    | timeout =>
      simp only
      exact Outcome.safe_timeout _ _

theorem RunGameUntilAborted_loop_safe (env : GameEnv)
    (wait : Engine → Int → Int → Outcome Unit)
    (hw : ∀ s k d, waitInvariant env s → (wait s k d).safe (waitInvariant env)
      (fun h => h.msg ≠ .forScriptObsolete ∧ h.msg ≠ .unknownUserDisabledFor)) :
    ∀ (n : Nat) (st : Engine), waitInvariant env st →
      (RunGameUntilAborted_loop env wait n st).safe (waitInvariant env)
        (fun h => h.msg ≠ .forScriptObsolete ∧ h.msg ≠ .unknownUserDisabledFor) := by
  have hG := waitInvariant_guarded env
  intro n
  induction n with
  | zero =>
    intro st hI
    by_cases ha : st.world.abort_engine ≠ 0
    · rw [RunGameUntilAborted_loop_aborted env wait 0 st ha]
      exact Outcome.safe_done _ _ _ _ hI
    · rw [RunGameUntilAborted_loop, if_neg ha]
      exact Outcome.safe_timeout _ _
  | succ n ih =>
    intro st hI
    by_cases ha : st.world.abort_engine ≠ 0
    · rw [RunGameUntilAborted_loop_aborted env wait _ st ha]
      exact Outcome.safe_done _ _ _ _ hI
    · rw [RunGameUntilAborted_loop_succ env wait n st (not_not.1 ha)]
      apply Outcome.safe_bind
      · exact GameTick_safe env wait hw st hI
      · intro _ s1 h1
        apply Outcome.safe_bind
        · apply Outcome.safe_ite
          · apply Outcome.safe_bind
            · exact runHook_safe env _ _ hG wait hw _ s1 h1
            · intro _ s2 h2
              exact Outcome.safe_done _ _ _ _ (hG.world s2 _ h2)
          · exact Outcome.safe_done _ _ _ _ h1
        · intro _ s3 h3
          apply Outcome.safe_bind
          · exact ih s3 h3
          · intro _ s4 h4
            exact Outcome.safe_done _ _ _ _ h4

/-- Claim C25: the invariant "`restrict_until != 0` implies
`user_disabled_for == FOR_EXITLOOP`" holds of every state with
`restrict_until == 0`, such as the initial one (first part), of every state
that `SetupLoopParameters` leaves (second part), and it is kept by
`UpdateWaitMode` (third part) and by a call of `GameLoopUntilEvent` that
returns, at every nesting depth (fourth part).  With the invariant,
`UpdateWaitMode`, when it finds the condition of the live wait cleared, returns
-1 from the branch `FOR_EXITLOOP` (fifth part), and no call of
`UpdateWaitMode`, `GameTick`, `GameLoopUntilEvent` or `RunGameUntilAborted` ends
in `quit` with the message "err: for_script obsolete (v2.1 and earlier only)"
or "Unknown user_disabled_for in end restrict_until" (sixth part). -/
theorem waitInvariant_kept (env : GameEnv) :
    (∀ st : Engine, st.restrict_until = 0 → waitInvariant env st) ∧
    (∀ (st : Engine) (untilwhat udata : Int),
      waitInvariant env (SetupLoopParameters env st untilwhat udata)) ∧
    (∀ (st : Engine) (res : Int) (st' : Engine), waitInvariant env st →
      UpdateWaitMode env st = .done res st' → waitInvariant env st') ∧
    (∀ (budget : Nat) (st : Engine) (untilwhat daaa : Int) (st' : Engine),
      waitInvariant env st →
      GameLoopUntilEvent env budget st untilwhat daaa = .done () st' →
      waitInvariant env st') ∧
    (∀ st : Engine, waitInvariant env st → st.restrict_until ≠ 0 →
      ShouldStayInWaitMode st = .ok 0 →
      ∃ st', UpdateWaitMode env st = .done (-1) st' ∧ st'.restrict_until = 0 ∧
        st'.user_disabled_for = 0) ∧
    (∀ (budget : Nat) (st : Engine) (h : Halt), waitInvariant env st →
      (UpdateWaitMode env st = .quit h ∨
        GameTick env (GameLoopUntilEvent env budget) st = .quit h ∨
        (∃ untilwhat daaa, GameLoopUntilEvent env budget st untilwhat daaa = .quit h) ∨
        RunGameUntilAborted env budget st = .quit h) →
      h.msg ≠ .forScriptObsolete ∧ h.msg ≠ .unknownUserDisabledFor) := by
  refine ⟨?_, SetupLoopParameters_invariant env, ?_, ?_, ?_, ?_⟩
  · intro st h0 hne
    exact absurd h0 hne
  · intro st res st' hI h
    exact (UpdateWaitMode_safe env st hI).1 res st' h
  · intro budget st untilwhat daaa st' hI h
    exact (GameLoopUntilEvent_safe env budget st untilwhat daaa hI).1 () st' h
  · intro st hI hlive hstop
    have hfor : st.user_disabled_for = env.FOR_EXITLOOP := hI hlive
    have hU : ∀ o : Outcome Int, UpdateWaitMode env st = o →
        ∃ st', o = .done (-1) st' ∧ st'.restrict_until = 0 ∧ st'.user_disabled_for = 0 := by
      intro o ho
      unfold UpdateWaitMode at ho
      rw [if_neg hlive, hstop] at ho
      simp only [ne_eq, not_true_eq_false, if_false] at ho
      rw [if_pos hfor] at ho
      subst ho
      exact ⟨_, rfl, rfl, rfl⟩
    exact hU _ rfl
  · intro budget st h hI hq
    have hG := waitInvariant_guarded env
    rcases hq with e | e | ⟨untilwhat, daaa, e⟩ | e
    · exact (UpdateWaitMode_safe env st hI).2 h e
    · exact (GameTick_safe env _ (GameLoopUntilEvent_safe env budget) st hI).2 h e
    · exact (GameLoopUntilEvent_safe env budget st untilwhat daaa hI).2 h e
    · have hrun : (RunGameUntilAborted env budget st).safe (waitInvariant env)
          (fun h => h.msg ≠ .forScriptObsolete ∧ h.msg ≠ .unknownUserDisabledFor) := by
        unfold RunGameUntilAborted
        apply Outcome.safe_bind
        · exact runHook_safe env _ _ hG _ (GameLoopUntilEvent_safe env budget) _ st hI
        · intro _ s hs
          exact RunGameUntilAborted_loop_safe env _ (GameLoopUntilEvent_safe env budget)
            budget s hs
      exact hrun.2 h e

theorem waitInvariant_kept_witness :
    waitInvariant sampleGame sampleEngine ∧
    (∃ st', GameLoopUntilEvent sampleGame 3 sampleEngine UNTIL_INTIS0 200 = .done () st' ∧
      waitInvariant sampleGame st') ∧
    ∃ st', UpdateWaitMode sampleGame
        { sampleEngine with
          restrict_until := UNTIL_INTIS0, user_disabled_data := 500, user_disabled_for := 2 } =
        .done (-1) st' ∧ st'.restrict_until = 0 ∧ st'.user_disabled_for = 0 :=
  ⟨(waitInvariant_kept sampleGame).1 sampleEngine rfl,
    ⟨_, rfl, (waitInvariant_kept sampleGame).2.2.2.1 3 sampleEngine UNTIL_INTIS0 200 _
      ((waitInvariant_kept sampleGame).1 sampleEngine rfl) rfl⟩,
    (waitInvariant_kept sampleGame).2.2.2.2.1
      { sampleEngine with
        restrict_until := UNTIL_INTIS0, user_disabled_data := 500, user_disabled_for := 2 }
      (fun _ => rfl) (by decide) rfl⟩

/-! ## The request to exit and the nested ticks -/

/-- No `quit` of `UpdateWaitMode` has the message "||exit!". -/
theorem UpdateWaitMode_quit_msg (env : GameEnv) (st : Engine) (h : Halt)
    (hq : UpdateWaitMode env st = .quit h) : h.msg ≠ .properExit := by
  unfold UpdateWaitMode at hq
  by_cases h0 : st.restrict_until = 0
  · rw [if_pos h0] at hq
    cases hq
  · rw [if_neg h0] at hq
    cases hs : ShouldStayInWaitMode st with
    | error e =>
      rw [hs] at hq
      simp only at hq
      rw [← Outcome.quit.inj hq]
      rcases ShouldStayInWaitMode_error st e hs with e1 | e1 <;> rw [e1] <;>
        exact fun c => (by cases c)
    | ok stay =>
      rw [hs] at hq
      simp only at hq
      split_ifs at hq <;> rw [← Outcome.quit.inj hq] <;> exact fun c => (by cases c)

theorem exitAtTest_guarded :
    Guarded (fun _ => True) (fun h : Halt => h.msg = .properExit → exitAtTest h) :=
  ⟨fun _ _ _ => trivial, fun _ _ _ => trivial, fun _ hne _ _ e => absurd e hne⟩

/-- When the blocking calls end with the message "||exit!" only through the
test at the top of a call of `UpdateGameOnce`, so does `GameTick`. -/
theorem GameTick_exit_safe (env : GameEnv) (wait : Engine → Int → Int → Outcome Unit)
    (hw : ∀ s k d, True →
      (wait s k d).safe (fun _ => True) (fun h : Halt => h.msg = .properExit → exitAtTest h))
    (st : Engine) :
    (GameTick env wait st).safe (fun _ => True)
      (fun h : Halt => h.msg = .properExit → exitAtTest h) := by
  have hG := exitAtTest_guarded
  unfold GameTick
  apply Outcome.safe_ite
  · exact Outcome.safe_quit _ _ _ (fun c => (by cases c))
  · apply Outcome.safe_bind
    · refine UpdateGameOnce_safe env _ _ hG wait hw true st ⟨fun _ _ _ => trivial, ?_⟩
      intro h e hm
      rcases (UpdateGameOnce_start_cases env wait st).2.2 h e with e1 | ⟨s1, _, hx, eh⟩
      · have hp : (UpdateGameOnce_polls env wait st).safe (fun _ => True)
            (fun h : Halt => h.msg = .properExit → exitAtTest h) := by
          unfold UpdateGameOnce_polls
          exact Outcome.safe_bind _ _ _ _ (runHook_safe env _ _ hG wait hw _ st trivial)
            (fun _ s hs => runHook_safe env _ _ hG wait hw _ s hs)
        exact hp.2 h e1 hm
      · exact ⟨s1, hx, eh⟩
    · intro _ s hs
      apply Outcome.safe_bind
      · exact runHook_safe env _ _ hG wait hw _ s hs
      · intro _ s hs
        apply Outcome.safe_bind
        · exact ⟨fun _ _ _ => trivial,
            fun h e hm => absurd hm (UpdateWaitMode_quit_msg env s h e)⟩
        · intro res s hs
          apply Outcome.safe_ite
          · exact Outcome.safe_done _ _ _ _ hs
          · exact Outcome.safe_done _ _ _ _ hs

/-- At every depth of nesting, a call of `GameLoopUntilEvent` ends with the
message "||exit!" only through the test at the top of a call of
`UpdateGameOnce`. -/
theorem GameLoopUntilEvent_exit_safe (env : GameEnv) (budget : Nat) :
    ∀ (st : Engine) (untilwhat daaa : Int), True →
      (GameLoopUntilEvent env budget st untilwhat daaa).safe (fun _ => True)
        (fun h : Halt => h.msg = .properExit → exitAtTest h) := by
  induction budget with
  | zero =>
    intro st untilwhat daaa _
    exact Outcome.safe_timeout _ _
  | succ budget ih =>
    intro st untilwhat daaa _
    rw [GameLoopUntilEvent_succ]
    apply Outcome.safe_bind
    · exact runHook_safe env _ _ exitAtTest_guarded _ ih _ st trivial
    · intro _ st0 _
      apply Outcome.safe_bind
      · exact GameLoopUntilEvent_ticks_safe _ _ _
          (fun s _ => GameTick_exit_safe env _ ih s) (budget + 1) _ trivial
      · intro _ m _
        exact Outcome.safe_done _ _ _ _ trivial

/-- Claim C21, refuted as stated: a request to exit that is raised after the
test of a call of `UpdateGameOnce` can end the program before the tick of this
call has completed: in the environment `exitWaitGame` the call finds `want_exit` clear
at its test, its update phase raises the request, and the blocking call made
by its event phase runs a tick whose call of `UpdateGameOnce` makes the clean
exit, inside the wait of the blocking call and before the loop counter of the
outer tick has advanced. -/
theorem UpdateGameOnce_exit_inside_tick :
    ∃ (s0 : Engine) (h : Halt),
      UpdateGameOnce_start exitWaitGame (GameLoopUntilEvent exitWaitGame 1) sampleEngine =
        .done () s0 ∧
      s0.world.want_exit = 0 ∧
      UpdateGameOnce exitWaitGame (GameLoopUntilEvent exitWaitGame 1) true sampleEngine =
        .quit h ∧
      h.msg = .properExit ∧ h.state.world.proper_exit = 1 ∧
      h.state.world.loopcounter = sampleEngine.world.loopcounter ∧
      h.state.restrict_until = UNTIL_NOOVERLAY :=
  ⟨_, _, rfl, rfl, rfl, rfl, rfl, rfl, rfl⟩

/-- Claim C21, as amended: `UpdateGameOnce` tests `want_exit` after its two
first calls (`process_pending_events`, `update_polled_mp3`) and before any
phase.  If the flag is set there, the call ends in `quit` with the message
"||exit!", in the state of the test with `want_exit` cleared and `proper_exit`
set to 1: no phase has run (first part).  A call that returns has found the
flag clear at the test (second part).  A call ends with the message "||exit!"
only from this test or from a blocking call nested in it that ends so (third
and fourth part): a request raised after the test does not end the call
through the call's own test.  At every depth of nesting, a blocking call ends
with this message only through the test at the top of a call of
`UpdateGameOnce` made by one of its ticks (fifth part); so a request raised
during a tick takes effect at the top of the next call of `UpdateGameOnce` that
runs, which belongs to the next tick, or to a tick nested in a blocking call
made later in the current tick. -/
theorem UpdateGameOnce_exit_request (env : GameEnv)
    (wait : Engine → Int → Int → Outcome Unit) (checkControls : Bool) (st : Engine) :
    (∀ s1, UpdateGameOnce_polls env wait st = .done () s1 → s1.world.want_exit ≠ 0 →
      UpdateGameOnce env wait checkControls st = .quit ⟨.properExit, properExitState s1⟩ ∧
      (properExitState s1).world.want_exit = 0 ∧
      (properExitState s1).world.proper_exit = 1 ∧
      properExitState s1 =
        { s1 with
          numEventsAtStartOfFunction := s1.world.numevents
          world := { s1.world with want_exit := 0, proper_exit := 1 } }) ∧
    (∀ trace st', UpdateGameOnce env wait checkControls st = .done trace st' →
      ∃ s1, UpdateGameOnce_polls env wait st = .done () s1 ∧ s1.world.want_exit = 0) ∧
    ((∀ s k d h, wait s k d = .quit h → h.msg ≠ .properExit) →
      ∀ h, UpdateGameOnce env wait checkControls st = .quit h → h.msg = .properExit →
        ∃ s1, UpdateGameOnce_polls env wait st = .done () s1 ∧ s1.world.want_exit ≠ 0 ∧
          h = ⟨.properExit, properExitState s1⟩) ∧
    (∀ h, UpdateGameOnce env wait checkControls st = .quit h → h.msg = .properExit →
      (∃ s1, UpdateGameOnce_polls env wait st = .done () s1 ∧ s1.world.want_exit ≠ 0 ∧
        h = ⟨.properExit, properExitState s1⟩) ∨
      ∃ s k d, wait s k d = .quit h) ∧
    (∀ (budget : Nat) (h : Halt), h.msg = .properExit →
      ((∃ s untilwhat daaa, GameLoopUntilEvent env budget s untilwhat daaa = .quit h) ∨
        UpdateGameOnce env (GameLoopUntilEvent env budget) checkControls st = .quit h) →
      exitAtTest h) := by
  obtain ⟨hexit, hdone, hquit⟩ := UpdateGameOnce_start_cases env wait st
  have hown : ∀ h, UpdateGameOnce env wait checkControls st = .quit h → h.msg = .properExit →
      (∃ s1, UpdateGameOnce_polls env wait st = .done () s1 ∧ s1.world.want_exit ≠ 0 ∧
        h = ⟨.properExit, properExitState s1⟩) ∨
      ∃ s k d, wait s k d = .quit h := by
    intro h hq hmsg
    have hG : Guarded (fun _ => True)
        (fun h : Halt => h.msg = .properExit →
          (∃ s1, UpdateGameOnce_polls env wait st = .done () s1 ∧ s1.world.want_exit ≠ 0 ∧
            h = ⟨.properExit, properExitState s1⟩) ∨
          ∃ s k d, wait s k d = .quit h) :=
      ⟨fun _ _ _ => trivial, fun _ _ _ => trivial, fun h hne _ _ e => absurd e hne⟩
    have hw : ∀ s k d, (fun _ : Engine => True) s →
        (wait s k d).safe (fun _ => True)
          (fun h : Halt => h.msg = .properExit →
            (∃ s1, UpdateGameOnce_polls env wait st = .done () s1 ∧ s1.world.want_exit ≠ 0 ∧
              h = ⟨.properExit, properExitState s1⟩) ∨
            ∃ s k d, wait s k d = .quit h) :=
      fun s k d _ => ⟨fun _ _ _ => trivial, fun h e _ => Or.inr ⟨s, k, d, e⟩⟩
    have hstart : (UpdateGameOnce_start env wait st).safe (fun _ => True)
        (fun h : Halt => h.msg = .properExit →
          (∃ s1, UpdateGameOnce_polls env wait st = .done () s1 ∧ s1.world.want_exit ≠ 0 ∧
            h = ⟨.properExit, properExitState s1⟩) ∨
          ∃ s k d, wait s k d = .quit h) := by
      refine ⟨fun _ _ _ => trivial, fun h e hm => ?_⟩
      rcases hquit h e with e1 | hx
      · have hp : (UpdateGameOnce_polls env wait st).safe (fun _ => True)
            (fun h : Halt => h.msg = .properExit →
              (∃ s1, UpdateGameOnce_polls env wait st = .done () s1 ∧
                s1.world.want_exit ≠ 0 ∧ h = ⟨.properExit, properExitState s1⟩) ∨
              ∃ s k d, wait s k d = .quit h) := by
          unfold UpdateGameOnce_polls
          exact Outcome.safe_bind _ _ _ _ (runHook_safe env _ _ hG wait hw _ st trivial)
            (fun _ s hs => runHook_safe env _ _ hG wait hw _ s hs)
        exact hp.2 h e1 hm
      · exact Or.inl hx
    exact (UpdateGameOnce_safe env _ _ hG wait hw checkControls st hstart).2 h hq hmsg
  refine ⟨?_, ?_, ?_, hown, ?_⟩
  · intro s1 h1 hw
    exact ⟨UpdateGameOnce_start_quit env wait checkControls st _ (hexit s1 h1 hw), rfl, rfl,
      rfl⟩
  · intro trace st' h
    unfold UpdateGameOnce at h
    obtain ⟨⟨res, t⟩, s5, hhead, _⟩ := (Outcome.bind_done _ _ _ _).1 h
    obtain ⟨_, s1, _, _, hstart, _, _⟩ := UpdateGameOnce_head_done env wait st res t s5 hhead
    obtain ⟨s0, h0, hw, _⟩ := hdone s1 hstart
    exact ⟨s0, h0, hw⟩
  · intro hwait h hq hmsg
    rcases hown h hq hmsg with hx | ⟨s, k, d, e⟩
    · exact hx
    · exact absurd hmsg (hwait s k d h e)
  · intro budget h hmsg hq
    rcases hq with ⟨s, untilwhat, daaa, e⟩ | e
    · exact (GameLoopUntilEvent_exit_safe env budget s untilwhat daaa trivial).2 h e hmsg
    · have hG := exitAtTest_guarded
      have hw := GameLoopUntilEvent_exit_safe env budget
      refine (UpdateGameOnce_safe env _ _ hG _ hw checkControls st
        ⟨fun _ _ _ => trivial, ?_⟩).2 h e hmsg
      intro h' e' hm
      rcases (UpdateGameOnce_start_cases env _ st).2.2 h' e' with e1 | ⟨s1, _, hx, eh⟩
      · have hp : (UpdateGameOnce_polls env (GameLoopUntilEvent env budget) st).safe
            (fun _ => True) (fun h : Halt => h.msg = .properExit → exitAtTest h) := by
          unfold UpdateGameOnce_polls
          exact Outcome.safe_bind _ _ _ _ (runHook_safe env _ _ hG _ hw _ st trivial)
            (fun _ s hs => runHook_safe env _ _ hG _ hw _ s hs)
        exact hp.2 h' e1 hm
      · exact ⟨s1, hx, eh⟩

theorem UpdateGameOnce_exit_request_witness :
    ∃ st' : Engine,
      UpdateGameOnce exitGame (GameLoopUntilEvent exitGame 0) true sampleEngine =
        .done Phase.all st' ∧
      st'.world.want_exit = 1 ∧
      UpdateGameOnce exitGame (GameLoopUntilEvent exitGame 0) true st' =
        .quit ⟨.properExit, properExitState st'⟩ :=
  ⟨_, rfl, rfl,
    ((UpdateGameOnce_exit_request exitGame (GameLoopUntilEvent exitGame 0) true _).1 _ rfl
      (by decide)).1⟩

end AGS
